import Mathlib

/-!
# Verification of the UKMM resource diff/merge engine

Shallow embedding of the structural diff/merge engine of the UKMM
repository, together with theorems settling the frozen claims about it.

Embedding conventions:
* Rust `Vec<u8>` buffers are `List Nat` (byte values).
* Rust `Result` is `Except String`; a Rust panic (`panic!`, `assert_eq!`,
  `todo!`) is modelled by the distinguished `PanicOr.panicked` outcome.
* The external `roead` codecs (`Byml`, `ParameterIO`, yaz0, SARC) are
  modelled structurally: a `Byml` document is an inductive tree and its
  binary round-trip is treated as the identity coding, which is the
  contract the external library guarantees.
* `machine integer` casts are modelled with explicit `% 2 ^ w`.
* The delete-aware collection types (`SortedDeleteMap`, `DeleteMap`,
  `DeleteVec`) are implemented in a module of the repository that is not
  among the sources at hand (only their callers are); they are modelled
  from the specification, as marked on each definition.
-/

/-- Target-platform endianness tag (uk_content::prelude::Endian). -/
inductive Endian where
  | big
  | little
deriving DecidableEq, Repr

/-- A raw byte buffer (Rust `Vec<u8>`). -/
abbrev Bytes := List Nat

/-- Outcome of a Rust computation that can panic: either a value or a
panic with its message.  Recoverable errors are `Except` instead. -/
inductive PanicOr (α : Type) where
  | ok (a : α)
  | panicked (msg : String)
deriving DecidableEq, Repr

namespace PanicOr

/-- Monadic bind: a panic propagates (it aborts the computation). -/
def bind {α β : Type} : PanicOr α → (α → PanicOr β) → PanicOr β
  | .ok a, f => f a
  | .panicked m, _ => .panicked m

/-- Map over the carried value. -/
def map {α β : Type} (f : α → β) : PanicOr α → PanicOr β
  | .ok a => .ok (f a)
  | .panicked m => .panicked m

end PanicOr

/-- Structural model of a `roead::byml::Byml` document: the typed binary
tree format (nested maps/arrays of scalars).  Constructors cover the
shapes the embedded code manipulates; a hash is an association list of
string keys. -/
inductive Byml where
  | null
  | bool (b : Bool)
  | int (i : Int)
  | str (s : String)
  | arr (items : List Byml)
  | hash (entries : List (String × Byml))

namespace Byml

/-- Decidable equality for `Byml`, by structural recursion. -/
def beq : Byml → Byml → Bool
  | .null, .null => true
  | .bool a, .bool b => a == b
  | .int a, .int b => a == b
  | .str a, .str b => a == b
  | .arr a, .arr b =>
    let rec beqList : List Byml → List Byml → Bool
      | [], [] => true
      | x :: xs, y :: ys => beq x y && beqList xs ys
      | _, _ => false
    beqList a b
  | .hash a, .hash b =>
    let rec beqHash : List (String × Byml) → List (String × Byml) → Bool
      | [], [] => true
      | (k₁, v₁) :: xs, (k₂, v₂) :: ys => k₁ == k₂ && beq v₁ v₂ && beqHash xs ys
      | _, _ => false
    beqHash a b
  | _, _ => false

mutual

theorem beq_iff_eq : ∀ a b : Byml, beq a b = true ↔ a = b
  | .null, b => by cases b <;> simp [beq]
  | .bool x, b => by cases b <;> simp [beq]
  | .int x, b => by cases b <;> simp [beq]
  | .str x, b => by cases b <;> simp [beq]
  | .arr items, b => by
    cases b
    case arr bs =>
      simp only [beq]
      rw [beqList_iff_eq items bs]
      simp
    all_goals simp [beq]
  | .hash entries, b => by
    cases b
    case hash bs =>
      simp only [beq]
      rw [beqHash_iff_eq entries bs]
      simp
    all_goals simp [beq]

theorem beqList_iff_eq : ∀ as' bs : List Byml, beq.beqList as' bs = true ↔ as' = bs
  | [], bs => by cases bs <;> simp [beq.beqList]
  | x :: xs, [] => by simp [beq.beqList]
  | x :: xs, y :: ys => by
    simp only [beq.beqList, Bool.and_eq_true, beq_iff_eq x y, beqList_iff_eq xs ys,
      List.cons.injEq]

theorem beqHash_iff_eq :
    ∀ es bs : List (String × Byml), beq.beqHash es bs = true ↔ es = bs
  | [], bs => by cases bs <;> simp [beq.beqHash]
  | e :: es, [] => by simp [beq.beqHash]
  | (k₁, v₁) :: es, (k₂, v₂) :: bs => by
    simp only [beq.beqHash, Bool.and_eq_true, beq_iff_eq v₁ v₂, beqHash_iff_eq es bs,
      List.cons.injEq, Prod.mk.injEq, and_assoc]
    simp

end

instance : DecidableEq Byml := fun a b =>
  decidable_of_iff (beq a b = true) (beq_iff_eq a b)

/-- `Byml::as_hash` (roead): the entries of a hash node, or a type error. -/
def as_hash : Byml → Except String (List (String × Byml))
  | .hash entries => .ok entries
  | _ => .error "not a hash node"

/-- `Byml::as_array` (roead): the items of an array node, or a type error. -/
def as_array : Byml → Except String (List Byml)
  | .arr items => .ok items
  | _ => .error "not an array node"

/-- `Byml::as_int` (roead): the integer payload, or a type error. -/
def as_int : Byml → Except String Int
  | .int i => .ok i
  | _ => .error "not an integer node"

/-- Hash lookup (`hash.get(key)` on a roead byml hash). -/
def get (key : String) : Byml → Option Byml
  | .hash entries => (entries.find? (fun e => e.1 == key)).map (·.2)
  | _ => none

end Byml

/-- Tri-state entry of a delete-aware collection.  Modelled from the spec:
a Delete-Aware Map entry is *present* (holding a value) or *deleted* (a
tombstone); keys never mentioned are simply absent from the container. -/
inductive DE (V : Type) where
  | val (v : V)
  | del
deriving DecidableEq, Repr

/-- Modelled from the spec: `SortedDeleteMap<K, V>`, the sorted
delete-aware map for integer-keyed (and sorted string-keyed) data.  It is
backed by a list of key/tri-state-entry pairs kept sorted by key; the
module implementing it is not among the sources, so its operations follow
the spec's key-wise rules (§4.2). -/
abbrev SDM (K V : Type) := List (K × DE V)

/-- Keys strictly increase along the list (the `Sorted` part of the
`SortedDeleteMap` representation invariant). -/
def SdmSorted {K V : Type} [LT K] (l : SDM K V) : Prop :=
  l.Pairwise (fun x y => x.1 < y.1)

/-- No tombstones: the spec's invariant that only a diff may contain
tombstones; any base or fully-merged map is tombstone-free. -/
def SdmNoDel {K V : Type} (l : SDM K V) : Prop :=
  ∀ e ∈ l, e.2 ≠ DE.del

/-- Modelled from the spec (§4.2 `diff`): keys in `base` absent from
`modified` become tombstones; keys in both with differing values become
present-with-modified-value; keys only in `modified` become present; keys
with unchanged values are absent from the diff. -/
def sdmDiff {K V : Type} [LinearOrder K] [DecidableEq V] : SDM K V → SDM K V → SDM K V
  | [], b => b
  | a, [] => a.map (fun e => (e.1, DE.del))
  | (k₁, e₁) :: as', (k₂, e₂) :: bs => 
    if k₁ < k₂ then (k₁, DE.del) :: sdmDiff as' ((k₂, e₂) :: bs)
    else if k₂ < k₁ then (k₂, e₂) :: sdmDiff ((k₁, e₁) :: as') bs
    else if e₁ = e₂ then sdmDiff as' bs
    else (k₂, e₂) :: sdmDiff as' bs
  termination_by a b => a.length + b.length

/-- Modelled from the spec (§4.2 `merge`): tombstoned keys are removed,
present keys overwrite or insert, absent keys are carried over unchanged
from the base. -/
def sdmMerge {K V : Type} [LinearOrder K] : SDM K V → SDM K V → SDM K V
  | a, [] => a
  | [], d => d.filter (fun e => match e.2 with | DE.del => false | DE.val _ => true)
  | (k₁, e₁) :: as', (k₂, e₂) :: ds =>
    if k₁ < k₂ then (k₁, e₁) :: sdmMerge as' ((k₂, e₂) :: ds)
    else if k₂ < k₁ then
      match e₂ with
      | DE.del => sdmMerge ((k₁, e₁) :: as') ds
      | DE.val v => (k₂, DE.val v) :: sdmMerge ((k₁, e₁) :: as') ds
    else
      match e₂ with
      | DE.del => sdmMerge as' ds
      | DE.val v => (k₂, DE.val v) :: sdmMerge as' ds
  termination_by a d => a.length + d.length

theorem sdmDiff_nil_left {K V : Type} [LinearOrder K] [DecidableEq V] (b : SDM K V) :
    sdmDiff [] b = b := by
  cases b <;> simp [sdmDiff]

theorem sdmMerge_nil_right {K V : Type} [LinearOrder K] (a : SDM K V) :
    sdmMerge a [] = a := by
  cases a <;> simp [sdmMerge]

/-- Every key of a diff of two maps with keys above `c` is above `c`. -/
theorem sdmDiff_keys_gt {K V : Type} [LinearOrder K] [DecidableEq V] (c : K) :
    ∀ (a b : SDM K V), (∀ e ∈ a, c < e.1) → (∀ e ∈ b, c < e.1) →
      ∀ e ∈ sdmDiff a b, c < e.1
  | [], b, _, hb => by simpa [sdmDiff_nil_left] using hb
  | (k₁, e₁) :: as', [], ha, _ => by
    simp only [sdmDiff]
    intro e he
    simp only [List.mem_map] at he
    obtain ⟨x, hx, rfl⟩ := he
    exact ha x hx
  | (k₁, e₁) :: as', (k₂, e₂) :: bs, ha, hb => by
    simp only [sdmDiff]
    split
    · intro e he
      rcases List.mem_cons.mp he with rfl | he
      · simpa using ha (k₁, e₁) (by simp)
      · exact sdmDiff_keys_gt c as' ((k₂, e₂) :: bs) (fun x hx => ha x (by simp [hx])) hb e he
    split
    · intro e he
      rcases List.mem_cons.mp he with rfl | he
      · exact hb _ (by simp)
      · exact sdmDiff_keys_gt c ((k₁, e₁) :: as') bs ha (fun x hx => hb x (by simp [hx])) e he
    split
    · exact sdmDiff_keys_gt c as' bs (fun x hx => ha x (by simp [hx]))
        (fun x hx => hb x (by simp [hx]))
    · intro e he
      rcases List.mem_cons.mp he with rfl | he
      · exact hb _ (by simp)
      · exact sdmDiff_keys_gt c as' bs (fun x hx => ha x (by simp [hx]))
          (fun x hx => hb x (by simp [hx])) e he
  termination_by a b => a.length + b.length

theorem sdmDiff_cons_lt {K V : Type} [LinearOrder K] [DecidableEq V] {k₁ k₂ : K}
    (e₁ e₂ : DE V) (as' bs : SDM K V) (h : k₁ < k₂) :
    sdmDiff ((k₁, e₁) :: as') ((k₂, e₂) :: bs) =
      (k₁, DE.del) :: sdmDiff as' ((k₂, e₂) :: bs) := by
  rw [sdmDiff.eq_def]
  simp [h]

theorem sdmDiff_cons_gt {K V : Type} [LinearOrder K] [DecidableEq V] {k₁ k₂ : K}
    (e₁ e₂ : DE V) (as' bs : SDM K V) (h : k₂ < k₁) :
    sdmDiff ((k₁, e₁) :: as') ((k₂, e₂) :: bs) =
      (k₂, e₂) :: sdmDiff ((k₁, e₁) :: as') bs := by
  rw [sdmDiff.eq_def]
  simp [h, not_lt_of_gt h]

theorem sdmDiff_cons_eq_same {K V : Type} [LinearOrder K] [DecidableEq V] {k : K}
    (e : DE V) (as' bs : SDM K V) :
    sdmDiff ((k, e) :: as') ((k, e) :: bs) = sdmDiff as' bs := by
  rw [sdmDiff.eq_def]
  simp

theorem sdmDiff_cons_eq_ne {K V : Type} [LinearOrder K] [DecidableEq V] {k : K}
    {e₁ e₂ : DE V} (as' bs : SDM K V) (h : e₁ ≠ e₂) :
    sdmDiff ((k, e₁) :: as') ((k, e₂) :: bs) = (k, e₂) :: sdmDiff as' bs := by
  rw [sdmDiff.eq_def]
  simp [h]

theorem sdmMerge_cons_lt {K V : Type} [LinearOrder K] {k₁ k₂ : K}
    (e₁ e₂ : DE V) (as' ds : SDM K V) (h : k₁ < k₂) :
    sdmMerge ((k₁, e₁) :: as') ((k₂, e₂) :: ds) =
      (k₁, e₁) :: sdmMerge as' ((k₂, e₂) :: ds) := by
  rw [sdmMerge.eq_def]
  simp [h]

theorem sdmMerge_cons_gt_val {K V : Type} [LinearOrder K] {k₁ k₂ : K}
    (e₁ : DE V) (v : V) (as' ds : SDM K V) (h : k₂ < k₁) :
    sdmMerge ((k₁, e₁) :: as') ((k₂, DE.val v) :: ds) =
      (k₂, DE.val v) :: sdmMerge ((k₁, e₁) :: as') ds := by
  rw [sdmMerge.eq_def]
  simp [h, not_lt_of_gt h]

theorem sdmMerge_cons_gt_del {K V : Type} [LinearOrder K] {k₁ k₂ : K}
    (e₁ : DE V) (as' ds : SDM K V) (h : k₂ < k₁) :
    sdmMerge ((k₁, e₁) :: as') ((k₂, DE.del) :: ds) =
      sdmMerge ((k₁, e₁) :: as') ds := by
  rw [sdmMerge.eq_def]
  simp [h, not_lt_of_gt h]

theorem sdmMerge_cons_eq_val {K V : Type} [LinearOrder K] {k : K}
    (e₁ : DE V) (v : V) (as' ds : SDM K V) :
    sdmMerge ((k, e₁) :: as') ((k, DE.val v) :: ds) =
      (k, DE.val v) :: sdmMerge as' ds := by
  rw [sdmMerge.eq_def]
  simp

theorem sdmMerge_cons_eq_del {K V : Type} [LinearOrder K] {k : K}
    (e₁ : DE V) (as' ds : SDM K V) :
    sdmMerge ((k, e₁) :: as') ((k, DE.del) :: ds) = sdmMerge as' ds := by
  rw [sdmMerge.eq_def]
  simp

/-- Merging a map with the all-tombstone diff of itself empties it. -/
theorem sdmMerge_all_del {K V : Type} [LinearOrder K] (l : SDM K V) :
    sdmMerge l (l.map (fun e => (e.1, DE.del))) = [] := by
  induction l with
  | nil => simp [sdmMerge]
  | cons x t ih =>
    obtain ⟨k, e⟩ := x
    simp only [List.map_cons]
    rw [sdmMerge_cons_eq_del]
    exact ih

/-- Spec §4.2 / §8 round-trip law at the delete-aware-map level: merging a
diff onto its own base reproduces the modified map, for sorted maps whose
modified side is tombstone-free. -/
theorem sdm_round_trip {K V : Type} [LinearOrder K] [DecidableEq V] :
    ∀ (a b : SDM K V), SdmSorted a → SdmSorted b → SdmNoDel b →
      sdmMerge a (sdmDiff a b) = b
  | [], b, _, _, hb => by
    rw [sdmDiff_nil_left]
    cases b with
    | nil => simp [sdmMerge]
    | cons x t =>
      simp only [sdmMerge]
      rw [List.filter_eq_self.mpr]
      intro e he
      have := hb e he
      cases h : e.2 with
      | del => exact absurd h this
      | val v => simp [h]
  | (k₁, e₁) :: as', [], _, _, _ => by
    simpa [sdmDiff] using sdmMerge_all_del ((k₁, e₁) :: as')
  | (k₁, e₁) :: as', (k₂, e₂) :: bs, ha, hb, hnd => by
    rw [SdmSorted, List.pairwise_cons] at ha hb
    obtain ⟨ha₁, ha₂⟩ := ha
    obtain ⟨hb₁, hb₂⟩ := hb
    rcases lt_trichotomy k₁ k₂ with h | h | h
    · rw [sdmDiff_cons_lt e₁ e₂ as' bs h, sdmMerge_cons_eq_del]
      exact sdm_round_trip as' ((k₂, e₂) :: bs) ha₂ (List.pairwise_cons.mpr ⟨hb₁, hb₂⟩) hnd
    · subst h
      have ih := sdm_round_trip as' bs ha₂ hb₂ (fun e he' => hnd e (by simp [he']))
      by_cases he : e₁ = e₂
      · subst he
        rw [sdmDiff_cons_eq_same]
        have hgt : ∀ e ∈ sdmDiff as' bs, k₁ < e.1 :=
          sdmDiff_keys_gt k₁ as' bs ha₁ hb₁
        cases hD : sdmDiff as' bs with
        | nil =>
          rw [hD, sdmMerge_nil_right] at ih
          rw [sdmMerge_nil_right, ih]
        | cons d ds =>
          have hk : k₁ < d.1 := hgt d (by simp [hD])
          rw [hD] at ih
          obtain ⟨kd, ed⟩ := d
          rw [sdmMerge_cons_lt _ _ _ _ hk, ih]
      · rw [sdmDiff_cons_eq_ne as' bs he]
        have hv : ∃ v, e₂ = DE.val v := by
          cases h₂ : e₂ with
          | del =>
            have hcontra := hnd (k₁, e₂) (by simp)
            rw [h₂] at hcontra
            exact (hcontra rfl).elim
          | val v => exact ⟨v, rfl⟩
        obtain ⟨v, rfl⟩ := hv
        rw [sdmMerge_cons_eq_val, ih]
    · rw [sdmDiff_cons_gt e₁ e₂ as' bs h]
      have hv : ∃ v, e₂ = DE.val v := by
        cases h₂ : e₂ with
        | del =>
          have hcontra := hnd (k₂, e₂) (by simp)
          rw [h₂] at hcontra
          exact (hcontra rfl).elim
        | val v => exact ⟨v, rfl⟩
      obtain ⟨v, rfl⟩ := hv
      have ih := sdm_round_trip ((k₁, e₁) :: as') bs
        (List.pairwise_cons.mpr ⟨ha₁, ha₂⟩) hb₂ (fun e he' => hnd e (by simp [he']))
      rw [sdmMerge_cons_gt_val _ _ _ _ h, ih]
  termination_by a b => a.length + b.length

/-- Association-list lookup: the value at the first occurrence of `k`.
Models `get` on the ordered maps (`BTreeMap`, `IndexMap`) used by the
resource model. -/
def alGet {K α : Type} [DecidableEq K] : List (K × α) → K → Option α
  | [], _ => none
  | (k₀, v₀) :: t, k => if k₀ = k then some v₀ else alGet t k

/-- Keys occur at most once (representation invariant of every map in the
resource model). -/
def NoDupKeys {K α : Type} (l : List (K × α)) : Prop :=
  (l.map (·.1)).Nodup

theorem alGet_eq_none_of_not_mem {K α : Type} [DecidableEq K] {l : List (K × α)} {k : K}
    (h : k ∉ l.map (·.1)) : alGet l k = none := by
  induction l with
  | nil => rfl
  | cons x t ih =>
    obtain ⟨k₀, v₀⟩ := x
    simp only [List.map_cons, List.mem_cons] at h
    push_neg at h
    have hne : k₀ ≠ k := fun hc => h.1 hc.symm
    rw [alGet, if_neg hne]
    exact ih h.2

theorem alGet_of_mem {K α : Type} [DecidableEq K] {l : List (K × α)} {k : K} {v : α}
    (hnd : NoDupKeys l) (h : (k, v) ∈ l) : alGet l k = some v := by
  induction l with
  | nil => simp at h
  | cons x t ih =>
    obtain ⟨k₀, v₀⟩ := x
    rw [NoDupKeys, List.map_cons, List.nodup_cons] at hnd
    rcases List.mem_cons.mp h with heq | hmem
    · rw [Prod.mk.injEq] at heq
      obtain ⟨h₁, h₂⟩ := heq
      subst h₁; subst h₂
      simp [alGet]
    · have hne : k₀ ≠ k := by
        intro hc
        apply hnd.1
        rw [hc]
        exact List.mem_map.mpr ⟨(k, v), hmem, rfl⟩
      rw [alGet, if_neg hne]
      exact ih hnd.2 hmem

/-- Lookup across a key-preserving entry-wise `filterMap`: the image of
the unique entry at `k`, when keys are duplicate-free. -/
theorem alGet_entryMap {K α β : Type} [DecidableEq K] (g : K → α → Option β) :
    ∀ (l : List (K × α)), NoDupKeys l → ∀ k,
      alGet (l.filterMap fun ke => (g ke.1 ke.2).map (fun e => (ke.1, e))) k
        = (alGet l k).bind (g k) := by
  intro l
  induction l with
  | nil => intro _ k; rfl
  | cons x t ih =>
    intro hnd k
    obtain ⟨k₀, v₀⟩ := x
    rw [NoDupKeys, List.map_cons, List.nodup_cons] at hnd
    by_cases hk : k₀ = k
    · subst hk
      cases hg : g k₀ v₀ with
      | none =>
        simp only [List.filterMap_cons, hg, Option.map_none']
        have hnot : k₀ ∉ (t.filterMap
            fun ke => (g ke.1 ke.2).map (fun e => (ke.1, e))).map (·.1) := by
          intro hc
          simp only [List.mem_map, List.mem_filterMap] at hc
          obtain ⟨p, ⟨q, hq, hgq⟩, hp⟩ := hc
          obtain ⟨e, _, rfl⟩ := Option.map_eq_some'.mp hgq
          exact hnd.1 (List.mem_map.mpr ⟨q, hq, hp⟩)
        rw [alGet_eq_none_of_not_mem hnot]
        simp [alGet, hg]
      | some e =>
        simp [List.filterMap_cons, hg, alGet]
    · cases hg : g k₀ v₀ with
      | none =>
        simp only [List.filterMap_cons, hg, Option.map_none']
        rw [ih hnd.2 k]
        simp [alGet, if_neg hk]
      | some e =>
        simp only [List.filterMap_cons, hg, Option.map_some']
        have h₁ : alGet ((k₀, v₀) :: t) k = alGet t k := by rw [alGet, if_neg hk]
        rw [alGet, if_neg hk, ih hnd.2 k, h₁]

theorem alGet_append {K α : Type} [DecidableEq K] (l₁ l₂ : List (K × α)) (k : K) :
    alGet (l₁ ++ l₂) k =
      match alGet l₁ k with
      | some v => some v
      | none => alGet l₂ k := by
  induction l₁ with
  | nil => simp [alGet]
  | cons x t ih =>
    obtain ⟨k₀, v₀⟩ := x
    by_cases hk : k₀ = k
    · subst hk; simp [alGet]
    · simpa [alGet, if_neg hk] using ih

/-- Modelled from the spec: `DeleteMap<K, V>`, the order-preserving
(insertion-ordered) delete-aware map.  Its implementation module is not
among the sources; lookups follow `IndexMap` semantics (first occurrence)
and equality is order-insensitive, as for `IndexMap`'s `PartialEq`. -/
abbrev DM (K V : Type) := List (K × DE V)

/-- The entry-wise rule of the spec's §4.2 flat `diff` for a key of
`modified`: drop unchanged keys, keep changed or new ones. -/
def dmDiffKeep {K V : Type} [DecidableEq K] [DecidableEq V] (a : DM K V) (k : K)
    (e : DE V) : Option (DE V) :=
  match alGet a k with
  | some e' => if e' = e then none else some e
  | none => some e

/-- Modelled from the spec (§4.2 `diff`, flat): key-wise tombstones for
removed keys, modified values for changed keys, new values for added
keys, nothing for unchanged keys. -/
def dmDiff {K V : Type} [DecidableEq K] [DecidableEq V] (a b : DM K V) : DM K V :=
  (b.filterMap fun ke => (dmDiffKeep a ke.1 ke.2).map (fun e => (ke.1, e)))
    ++ (a.filterMap fun ke =>
      ((if (alGet b ke.1).isSome then none else some (DE.del : DE V)).map
        (fun e => (ke.1, e))))

/-- The entry-wise rule of the spec's §4.2 flat `merge` for a key of the
base: tombstoned keys are removed, present diff values overwrite. -/
def dmMergeBase {K V : Type} [DecidableEq K] (d : DM K V) (k : K) (e : DE V) :
    Option (DE V) :=
  match alGet d k with
  | some (DE.val v) => some (DE.val v)
  | some DE.del => none
  | none => some e

/-- Modelled from the spec (§4.2 `merge`, flat): base keys filtered and
overwritten by the diff, then new present diff keys appended. -/
def dmMerge {K V : Type} [DecidableEq K] (a d : DM K V) : DM K V :=
  (a.filterMap fun ke => (dmMergeBase d ke.1 ke.2).map (fun e => (ke.1, e)))
    ++ (d.filterMap fun ke =>
      ((match ke.2 with
        | DE.val v => if (alGet a ke.1).isSome then none else some (DE.val v)
        | DE.del => none).map (fun e => (ke.1, e))))

theorem dmDiff_get {K V : Type} [DecidableEq K] [DecidableEq V] (a b : DM K V)
    (hna : NoDupKeys a) (hnb : NoDupKeys b) (k : K) :
    alGet (dmDiff a b) k =
      match alGet a k, alGet b k with
      | some ea, some eb => if ea = eb then none else some eb
      | none, some eb => some eb
      | some _, none => some DE.del
      | none, none => none := by
  rw [dmDiff, alGet_append, alGet_entryMap _ b hnb k,
    alGet_entryMap (fun k _ => if (alGet b k).isSome then none else some DE.del) a hna k]
  cases ha : alGet a k with
  | none =>
    cases hb : alGet b k with
    | none => simp [dmDiffKeep, ha]
    | some eb => simp [dmDiffKeep, ha]
  | some ea =>
    cases hb : alGet b k with
    | none => simp [dmDiffKeep, ha, hb]
    | some eb =>
      by_cases he : ea = eb
      · simp [dmDiffKeep, ha, hb, he]
      · simp [dmDiffKeep, ha, hb, he]

theorem dmMerge_get {K V : Type} [DecidableEq K] (a d : DM K V)
    (hna : NoDupKeys a) (hnd : NoDupKeys d) (k : K) :
    alGet (dmMerge a d) k =
      match alGet a k, alGet d k with
      | some _, some (DE.val v) => some (DE.val v)
      | some _, some DE.del => none
      | some e, none => some e
      | none, some (DE.val v) => some (DE.val v)
      | none, some DE.del => none
      | none, none => none := by
  rw [dmMerge, alGet_append, alGet_entryMap _ a hna k,
    alGet_entryMap (fun k e =>
      match e with
      | DE.val v => if (alGet a k).isSome then none else some (DE.val v)
      | DE.del => none) d hnd k]
  cases ha : alGet a k with
  | none =>
    cases hd : alGet d k with
    | none => simp
    | some ed => cases ed <;> simp [ha]
  | some ea =>
    cases hd : alGet d k with
    | none => simp [dmMergeBase, hd]
    | some ed => cases ed <;> simp [dmMergeBase, hd, ha]

theorem keys_entryMap_sublist {K α β : Type} (g : K → α → Option β) (l : List (K × α)) :
    ((l.filterMap fun ke => (g ke.1 ke.2).map (fun e => (ke.1, e))).map (·.1)).Sublist
      (l.map (·.1)) := by
  induction l with
  | nil => simp
  | cons x t ih =>
    obtain ⟨k₀, v₀⟩ := x
    cases hg : g k₀ v₀ with
    | none =>
      simp only [List.filterMap_cons, hg, Option.map_none', List.map_cons]
      exact ih.cons _
    | some e =>
      simp only [List.filterMap_cons, hg, Option.map_some', List.map_cons]
      exact ih.cons₂ _

theorem NoDupKeys_entryMap {K α β : Type} (g : K → α → Option β) {l : List (K × α)}
    (h : NoDupKeys l) :
    NoDupKeys (l.filterMap fun ke => (g ke.1 ke.2).map (fun e => (ke.1, e))) :=
  (keys_entryMap_sublist g l).nodup h

theorem mem_keys_iff_isSome {K α : Type} [DecidableEq K] (l : List (K × α)) (k : K) :
    k ∈ l.map (·.1) ↔ (alGet l k).isSome := by
  induction l with
  | nil => simp [alGet]
  | cons x t ih =>
    obtain ⟨k₀, v₀⟩ := x
    by_cases hk : k₀ = k
    · subst hk; simp [alGet]
    · simp only [List.map_cons, List.mem_cons, alGet, if_neg hk, ih]
      constructor
      · rintro (rfl | h)
        · exact absurd rfl hk
        · exact h
      · exact Or.inr

theorem keys_entryMap_subset {K α β : Type} (g : K → α → Option β) (l : List (K × α)) :
    ∀ k ∈ (l.filterMap fun ke => (g ke.1 ke.2).map (fun e => (ke.1, e))).map (·.1),
      k ∈ l.map (·.1) :=
  fun _ h => (keys_entryMap_sublist g l).subset h

theorem NoDupKeys_dmDiff {K V : Type} [DecidableEq K] [DecidableEq V] {a b : DM K V}
    (hna : NoDupKeys a) (hnb : NoDupKeys b) : NoDupKeys (dmDiff a b) := by
  rw [NoDupKeys, dmDiff, List.map_append, List.nodup_append]
  refine ⟨NoDupKeys_entryMap (dmDiffKeep a) hnb,
    NoDupKeys_entryMap (fun k _ => if (alGet b k).isSome then none else some (DE.del : DE V))
      hna, ?_⟩
  intro k hk₁ hk₂
  have h₁ : k ∈ b.map (·.1) := keys_entryMap_subset _ b k hk₁
  have h₂ : (alGet b k).isSome := (mem_keys_iff_isSome b k).mp h₁
  simp only [List.mem_map, List.mem_filterMap] at hk₂
  obtain ⟨p, ⟨q, hq, hgq⟩, hp⟩ := hk₂
  obtain ⟨e, hge, rfl⟩ := Option.map_eq_some'.mp hgq
  rw [show q.1 = k from hp] at hge
  rw [h₂] at hge
  simp at hge

theorem mem_of_alGet {K α : Type} [DecidableEq K] {l : List (K × α)} {k : K} {v : α}
    (h : alGet l k = some v) : (k, v) ∈ l := by
  induction l with
  | nil => simp [alGet] at h
  | cons x t ih =>
    obtain ⟨k₀, v₀⟩ := x
    by_cases hk : k₀ = k
    · subst hk
      rw [alGet, if_pos rfl] at h
      obtain rfl := Option.some.injEq .. ▸ h
      simp_all
    · rw [alGet, if_neg hk] at h
      exact List.mem_cons.mpr (Or.inr (ih h))

/-- Flat delete-aware-map round trip at the lookup level: merging
`diff(a, b)` onto `a` looks up exactly as `b`, for duplicate-free keys
and a tombstone-free `b`. -/
theorem dm_round_trip_get {K V : Type} [DecidableEq K] [DecidableEq V] (a b : DM K V)
    (hna : NoDupKeys a) (hnb : NoDupKeys b)
    (hnd : ∀ e ∈ b, e.2 ≠ DE.del) (k : K) :
    alGet (dmMerge a (dmDiff a b)) k = alGet b k := by
  rw [dmMerge_get a (dmDiff a b) hna (NoDupKeys_dmDiff hna hnb) k,
    dmDiff_get a b hna hnb k]
  cases ha : alGet a k with
  | none =>
    cases hb : alGet b k with
    | none => simp
    | some eb =>
      cases heb : eb with
      | val v => simp
      | del =>
        have hmem : (k, eb) ∈ b := mem_of_alGet hb
        exact absurd heb (by simpa using hnd (k, eb) hmem)
  | some ea =>
    cases hb : alGet b k with
    | none => simp
    | some eb =>
      by_cases he : ea = eb
      · subst he
        cases ea with
        | val v => simp
        | del =>
          have hmem : (k, DE.del) ∈ b := mem_of_alGet hb
          have hcontra := hnd (k, DE.del) hmem
          simp at hcontra
      · cases heb : eb with
        | val v =>
          rw [heb] at he
          simp [if_neg he]
        | del =>
          have hmem : (k, eb) ∈ b := mem_of_alGet hb
          exact absurd heb (by simpa using hnd (k, eb) hmem)

/-- Order-insensitive map equality (`IndexMap`'s `PartialEq` semantics):
every key looks up the same on both sides. -/
def dmEquivB {K V : Type} [DecidableEq K] [DecidableEq V] (a b : DM K V) : Bool :=
  a.all (fun ke => decide (alGet a ke.1 = alGet b ke.1)) &&
    b.all (fun ke => decide (alGet a ke.1 = alGet b ke.1))

theorem dmEquivB_iff {K V : Type} [DecidableEq K] [DecidableEq V] (a b : DM K V) :
    dmEquivB a b = true ↔ ∀ k, alGet a k = alGet b k := by
  rw [dmEquivB, Bool.and_eq_true, List.all_eq_true, List.all_eq_true]
  constructor
  · rintro ⟨h₁, h₂⟩ k
    cases ha : alGet a k with
    | some v => exact ha ▸ of_decide_eq_true (h₁ (k, v) (mem_of_alGet ha))
    | none =>
      cases hb : alGet b k with
      | some w =>
        have := of_decide_eq_true (h₂ (k, w) (mem_of_alGet hb))
        rw [ha, hb] at this
        exact this
      | none => rfl
  · intro h
    exact ⟨fun ke _ => decide_eq_true (h ke.1), fun ke _ => decide_eq_true (h ke.1)⟩

theorem dmEquivB_refl {K V : Type} [DecidableEq K] [DecidableEq V] (a : DM K V) :
    dmEquivB a a = true := (dmEquivB_iff a a).mpr (fun _ => rfl)

/-- Deep-diff rule for a key of `modified` (spec §4.2, recursing into the
nested mergeable sub-map): unchanged nested maps are dropped, changed
ones contribute their recursive diff, new ones are copied. -/
def dmDeepDiffKeep {K K' V : Type} [DecidableEq K] [DecidableEq K'] [DecidableEq V]
    (a : DM K (DM K' V)) (k : K) (e : DE (DM K' V)) : Option (DE (DM K' V)) :=
  match e with
  | DE.val vb =>
    match alGet a k with
    | some (DE.val va) =>
      if dmEquivB va vb then none else some (DE.val (dmDiff va vb))
    | _ => some (DE.val vb)
  | DE.del => some DE.del

/-- Modelled from the spec: `DeleteMap::deep_diff`, the delete-aware map
diff that recurses into nested delete-aware-map values. -/
def dmDeepDiff {K K' V : Type} [DecidableEq K] [DecidableEq K'] [DecidableEq V]
    (a b : DM K (DM K' V)) : DM K (DM K' V) :=
  (b.filterMap fun ke => (dmDeepDiffKeep a ke.1 ke.2).map (fun e => (ke.1, e)))
    ++ (a.filterMap fun ke =>
      ((if (alGet b ke.1).isSome then none else some (DE.del : DE (DM K' V))).map
        (fun e => (ke.1, e))))

/-- Deep-merge rule for a key of the base: tombstones remove the nested
map, present diff values merge recursively into it. -/
def dmDeepMergeBase {K K' V : Type} [DecidableEq K] [DecidableEq K']
    (d : DM K (DM K' V)) (k : K) (e : DE (DM K' V)) : Option (DE (DM K' V)) :=
  match alGet d k with
  | some (DE.val dv) =>
    match e with
    | DE.val va => some (DE.val (dmMerge va dv))
    | DE.del => some (DE.val dv)
  | some DE.del => none
  | none => some e

/-- Modelled from the spec: `DeleteMap::deep_merge`, the delete-aware map
merge that recurses into nested delete-aware-map values. -/
def dmDeepMerge {K K' V : Type} [DecidableEq K] [DecidableEq K']
    (a d : DM K (DM K' V)) : DM K (DM K' V) :=
  (a.filterMap fun ke => (dmDeepMergeBase d ke.1 ke.2).map (fun e => (ke.1, e)))
    ++ (d.filterMap fun ke =>
      ((match ke.2 with
        | DE.val dv => if (alGet a ke.1).isSome then none else some (DE.val dv)
        | DE.del => none).map (fun e => (ke.1, e))))

theorem NoDupKeys_dmDeepDiff {K K' V : Type} [DecidableEq K] [DecidableEq K']
    [DecidableEq V] {a b : DM K (DM K' V)}
    (hna : NoDupKeys a) (hnb : NoDupKeys b) : NoDupKeys (dmDeepDiff a b) := by
  rw [NoDupKeys, dmDeepDiff, List.map_append, List.nodup_append]
  refine ⟨NoDupKeys_entryMap (dmDeepDiffKeep a) hnb,
    NoDupKeys_entryMap
      (fun k _ => if (alGet b k).isSome then none else some (DE.del : DE (DM K' V)))
      hna, ?_⟩
  intro k hk₁ hk₂
  have h₁ : k ∈ b.map (·.1) := keys_entryMap_subset _ b k hk₁
  have h₂ : (alGet b k).isSome := (mem_keys_iff_isSome b k).mp h₁
  simp only [List.mem_map, List.mem_filterMap] at hk₂
  obtain ⟨p, ⟨q, hq, hgq⟩, hp⟩ := hk₂
  obtain ⟨e, hge, rfl⟩ := Option.map_eq_some'.mp hgq
  rw [show q.1 = k from hp] at hge
  rw [h₂] at hge
  simp at hge

theorem dmDeepDiff_get {K K' V : Type} [DecidableEq K] [DecidableEq K'] [DecidableEq V]
    (a b : DM K (DM K' V)) (hna : NoDupKeys a) (hnb : NoDupKeys b) (k : K) :
    alGet (dmDeepDiff a b) k =
      match alGet a k, alGet b k with
      | some ea, some eb => dmDeepDiffKeep a k eb
      | none, some eb => some eb
      | some _, none => some DE.del
      | none, none => none := by
  rw [dmDeepDiff, alGet_append, alGet_entryMap _ b hnb k,
    alGet_entryMap
      (fun k _ => if (alGet b k).isSome then none else some (DE.del : DE (DM K' V)))
      a hna k]
  cases ha : alGet a k with
  | none =>
    cases hb : alGet b k with
    | none => simp
    | some eb =>
      have hkeep : dmDeepDiffKeep a k eb = some eb := by
        cases eb <;> simp [dmDeepDiffKeep, ha]
      simp [hkeep]
  | some ea =>
    cases hb : alGet b k with
    | none => simp [hb]
    | some eb =>
      cases hkp : dmDeepDiffKeep a k eb with
      | none => simp [hb, hkp]
      | some e => simp [hb, hkp]

theorem dmDeepMerge_get {K K' V : Type} [DecidableEq K] [DecidableEq K'] [DecidableEq V]
    (a d : DM K (DM K' V)) (hna : NoDupKeys a) (hnd : NoDupKeys d) (k : K) :
    alGet (dmDeepMerge a d) k =
      match alGet a k, alGet d k with
      | some ea, some _ => dmDeepMergeBase d k ea
      | some ea, none => some ea
      | none, some (DE.val dv) => some (DE.val dv)
      | none, some DE.del => none
      | none, none => none := by
  rw [dmDeepMerge, alGet_append, alGet_entryMap _ a hna k,
    alGet_entryMap (fun k e =>
      match e with
      | DE.val dv => if (alGet a k).isSome then none else some (DE.val dv)
      | DE.del => none) d hnd k]
  cases ha : alGet a k with
  | none =>
    cases hd : alGet d k with
    | none => simp
    | some ed => cases ed <;> simp [ha]
  | some ea =>
    cases hd : alGet d k with
    | none => simp [dmDeepMergeBase, hd]
    | some ed =>
      cases hmb : dmDeepMergeBase d k ea with
      | none => cases ed <;> simp [hmb, ha]
      | some e => simp [hmb]

/-- Lookup-result equivalence for nested delete-aware maps: both absent,
both tombstones, or both present with order-insensitively equal nested
maps. -/
def deEquiv2 {K' V : Type} [DecidableEq K'] [DecidableEq V] :
    Option (DE (DM K' V)) → Option (DE (DM K' V)) → Bool
  | none, none => true
  | some DE.del, some DE.del => true
  | some (DE.val x), some (DE.val y) => dmEquivB x y
  | _, _ => false

/-- Order-insensitive equality of nested delete-aware maps
(`IndexMap`-style `PartialEq`, applied recursively one level deep). -/
def dm2EquivB {K K' V : Type} [DecidableEq K] [DecidableEq K'] [DecidableEq V]
    (a b : DM K (DM K' V)) : Bool :=
  a.all (fun ke => deEquiv2 (alGet a ke.1) (alGet b ke.1)) &&
    b.all (fun ke => deEquiv2 (alGet a ke.1) (alGet b ke.1))

theorem deEquiv2_refl {K' V : Type} [DecidableEq K'] [DecidableEq V]
    (o : Option (DE (DM K' V))) : deEquiv2 o o = true := by
  cases o with
  | none => rfl
  | some e =>
    cases e with
    | val x => simp [deEquiv2, dmEquivB_refl]
    | del => rfl

theorem dm2EquivB_iff {K K' V : Type} [DecidableEq K] [DecidableEq K'] [DecidableEq V]
    (a b : DM K (DM K' V)) :
    dm2EquivB a b = true ↔ ∀ k, deEquiv2 (alGet a k) (alGet b k) = true := by
  rw [dm2EquivB, Bool.and_eq_true, List.all_eq_true, List.all_eq_true]
  constructor
  · rintro ⟨h₁, h₂⟩ k
    cases ha : alGet a k with
    | some v => exact ha ▸ h₁ (k, v) (mem_of_alGet ha)
    | none =>
      cases hb : alGet b k with
      | some w =>
        have := h₂ (k, w) (mem_of_alGet hb)
        rw [ha, hb] at this
        exact this
      | none => rfl
  · intro h
    exact ⟨fun ke _ => h ke.1, fun ke _ => h ke.1⟩

/-- Wellformedness of a nested delete-aware map with tombstone-freedom:
duplicate-free keys at both levels and no tombstones anywhere (the
spec's invariant for every base or merged resource map). -/
def Dm2WF {K K' V : Type} (m : List (K × DE (List (K' × DE V)))) : Prop :=
  NoDupKeys m ∧ (∀ e ∈ m, e.2 ≠ DE.del) ∧
    ∀ e ∈ m, ∀ v, e.2 = DE.val v → NoDupKeys v ∧ ∀ p ∈ v, p.2 ≠ DE.del

/-- Deep delete-aware-map round trip (`deep_merge` after `deep_diff`):
up to the order-insensitive map equality of the source's `PartialEq`,
merging the deep diff of `a` and `b` onto `a` gives back `b`. -/
theorem dm_deep_round_trip {K K' V : Type} [DecidableEq K] [DecidableEq K']
    [DecidableEq V] (a b : DM K (DM K' V))
    (hwa : NoDupKeys a ∧ ∀ e ∈ a, ∀ v, e.2 = DE.val v → NoDupKeys v)
    (hwb : Dm2WF b) :
    dm2EquivB (dmDeepMerge a (dmDeepDiff a b)) b = true := by
  obtain ⟨hna, hia⟩ := hwa
  obtain ⟨hnb, hndb, hib⟩ := hwb
  rw [dm2EquivB_iff]
  intro k
  rw [dmDeepMerge_get a (dmDeepDiff a b) hna (NoDupKeys_dmDeepDiff hna hnb) k]
  cases ha : alGet a k with
  | none =>
    cases hb : alGet b k with
    | none =>
      have hdg : alGet (dmDeepDiff a b) k = none := by
        rw [dmDeepDiff_get a b hna hnb k, ha, hb]
      rw [hdg]
      simp [deEquiv2]
    | some eb =>
      cases heb : eb with
      | val vb =>
        have hdg : alGet (dmDeepDiff a b) k = some (DE.val vb) := by
          rw [dmDeepDiff_get a b hna hnb k, ha, hb, heb]
        rw [hdg]
        simp [deEquiv2, dmEquivB_refl]
      | del =>
        have hmem := hndb (k, eb) (mem_of_alGet hb)
        rw [heb] at hmem
        exact (hmem rfl).elim
  | some ea =>
    cases hb : alGet b k with
    | none =>
      have hdg : alGet (dmDeepDiff a b) k = some DE.del := by
        rw [dmDeepDiff_get a b hna hnb k, ha, hb]
      rw [hdg]
      simp only [dmDeepMergeBase, hdg]
      simp [deEquiv2]
    | some eb =>
      cases heb : eb with
      | del =>
        have hmem := hndb (k, eb) (mem_of_alGet hb)
        rw [heb] at hmem
        exact (hmem rfl).elim
      | val vb =>
        cases hea : ea with
        | del =>
          have ha' : alGet a k = some DE.del := by rw [ha, hea]
          have hdg : alGet (dmDeepDiff a b) k = some (DE.val vb) := by
            rw [dmDeepDiff_get a b hna hnb k, ha, hb, heb]
            simp [dmDeepDiffKeep, ha']
          rw [hdg]
          simp only [dmDeepMergeBase, hdg]
          simp [deEquiv2, dmEquivB_refl]
        | val va =>
          have ha' : alGet a k = some (DE.val va) := by rw [ha, hea]
          by_cases heq : dmEquivB va vb = true
          · have hdg : alGet (dmDeepDiff a b) k = none := by
              rw [dmDeepDiff_get a b hna hnb k, ha, hb, heb]
              simp [dmDeepDiffKeep, ha', heq]
            rw [hdg]
            simp [deEquiv2, heq]
          · have hdg : alGet (dmDeepDiff a b) k = some (DE.val (dmDiff va vb)) := by
              rw [dmDeepDiff_get a b hna hnb k, ha, hb, heb]
              simp [dmDeepDiffKeep, ha', heq]
            rw [hdg]
            simp only [dmDeepMergeBase, hdg]
            simp only [deEquiv2]
            rw [dmEquivB_iff]
            intro k'
            apply dm_round_trip_get va vb
            · exact hia (k, ea) (mem_of_alGet ha) va (by rw [hea])
            · exact (hib (k, eb) (mem_of_alGet hb) vb (by rw [heb])).1
            · exact (hib (k, eb) (mem_of_alGet hb) vb (by rw [heb])).2

/-- Modelled from the spec: `DeleteVec<V>`, the order-preserving
delete-aware sequence.  Entries carry a deletion flag; a diff marks
removed items with the flag, mirroring the delete-aware map rules keyed
by the item itself. -/
abbrev DV (V : Type) := List (V × Bool)

/-- Membership of an item (by value) in a delete-aware sequence. -/
def dvHas {V : Type} [DecidableEq V] (l : DV V) (x : V) : Bool :=
  l.any (fun p => decide (p.1 = x))

/-- Whether the diff marks item `x` as deleted. -/
def dvDelHas {V : Type} [DecidableEq V] (l : DV V) (x : V) : Bool :=
  l.any (fun p => decide (p.1 = x) && p.2)

/-- Modelled from the spec (§4.2 applied to the delete-aware sequence):
items only in `modified` become present additions, items only in `base`
become tombstones, common items are absent from the diff. -/
def dvDiff {V : Type} [DecidableEq V] (a b : DV V) : DV V :=
  (b.filter (fun p => !(dvHas a p.1))).map (fun p => (p.1, false))
    ++ (a.filter (fun p => !(dvHas b p.1))).map (fun p => (p.1, true))

/-- Modelled from the spec (§4.2): tombstoned items are removed, new
present items are appended, untouched items are carried over. -/
def dvMerge {V : Type} [DecidableEq V] (a d : DV V) : DV V :=
  a.filter (fun p => !(dvDelHas d p.1))
    ++ d.filter (fun p => !p.2 && !(dvHas a p.1))

/-- No deletion flags set (every base/modified sequence, per the spec's
tombstone invariant). -/
def DvLive {V : Type} (l : DV V) : Prop := ∀ p ∈ l, p.2 = false

/-- The order compatibility under which a delete-aware sequence can be
reconstructed by `merge` after `diff`: the common items appear in the
same relative order on both sides, and `modified` lists all common items
before its new items. -/
def DvCompat {V : Type} [DecidableEq V] (a b : DV V) : Prop :=
  a.filter (fun p => dvHas b p.1) = b.filter (fun p => dvHas a p.1)
    ∧ b = b.filter (fun p => dvHas a p.1) ++ b.filter (fun p => !(dvHas a p.1))

theorem dvDelHas_dvDiff {V : Type} [DecidableEq V] (a b : DV V) {x : V}
    (hx : dvHas a x = true) :
    dvDelHas (dvDiff a b) x = !(dvHas b x) := by
  rw [dvDiff, dvDelHas, List.any_append]
  have h₁ : ((b.filter (fun p => !(dvHas a p.1))).map (fun p => (p.1, false))).any
      (fun p => decide (p.1 = x) && p.2) = false := by
    rw [List.any_eq_false]
    rintro p hp
    simp only [List.mem_map] at hp
    obtain ⟨q, _, rfl⟩ := hp
    simp
  rw [h₁, Bool.false_or]
  cases hb : dvHas b x with
  | true =>
    simp only [Bool.not_true, List.any_eq_false]
    rintro p hp
    simp only [List.mem_map, List.mem_filter] at hp
    obtain ⟨q, ⟨_, hqb⟩, rfl⟩ := hp
    intro hcontra
    rw [Bool.and_eq_true, decide_eq_true_eq] at hcontra
    obtain ⟨hqx, _⟩ := hcontra
    rw [hqx] at hqb
    rw [hb] at hqb
    simp at hqb
  | false =>
    simp only [Bool.not_false, List.any_eq_true]
    rw [dvHas, List.any_eq_true] at hx
    obtain ⟨q, hq, hqx⟩ := hx
    have hqx' : q.1 = x := of_decide_eq_true hqx
    refine ⟨(q.1, true), ?_, by simp [hqx']⟩
    simp only [List.mem_map, List.mem_filter]
    refine ⟨q, ⟨hq, ?_⟩, rfl⟩
    rw [hqx', hb]
    rfl

/-- Delete-aware sequence round trip under the order-compatibility
conditions (tombstone-free inputs whose common items keep their relative
order and whose additions come last). -/
theorem dv_round_trip {V : Type} [DecidableEq V] (a b : DV V)
    (hb : DvLive b) (hc : DvCompat a b) :
    dvMerge a (dvDiff a b) = b := by
  obtain ⟨hc₁, hc₂⟩ := hc
  rw [dvMerge]
  have hpart1 : a.filter (fun p => !(dvDelHas (dvDiff a b) p.1))
      = a.filter (fun p => dvHas b p.1) := by
    apply List.filter_congr
    intro p hp
    have hx : dvHas a p.1 = true := by
      rw [dvHas, List.any_eq_true]
      exact ⟨p, hp, by simp⟩
    rw [dvDelHas_dvDiff a b hx, Bool.not_not]
  have hpart2 : (dvDiff a b).filter (fun p => !p.2 && !(dvHas a p.1))
      = b.filter (fun p => !(dvHas a p.1)) := by
    rw [dvDiff, List.filter_append]
    have h₂ : ((a.filter (fun p => !(dvHas b p.1))).map (fun p => (p.1, true))).filter
        (fun p => !p.2 && !(dvHas a p.1)) = [] := by
      rw [List.filter_eq_nil]
      intro p hp
      simp only [List.mem_map] at hp
      obtain ⟨q, _, rfl⟩ := hp
      simp
    rw [h₂, List.append_nil]
    have h₁ : ((b.filter (fun p => !(dvHas a p.1))).map (fun p => (p.1, false))).filter
        (fun p => !p.2 && !(dvHas a p.1))
        = (b.filter (fun p => !(dvHas a p.1))).map (fun p => (p.1, false)) := by
      rw [List.filter_eq_self]
      intro p hp
      simp only [List.mem_map, List.mem_filter] at hp
      obtain ⟨q, ⟨_, hqa⟩, rfl⟩ := hp
      simpa using hqa
    rw [h₁]
    have : ∀ p ∈ b.filter (fun p => !(dvHas a p.1)), ((p.1, false) : V × Bool) = p := by
      intro p hp
      have := hb p (List.mem_filter.mp hp).1
      rw [Prod.ext_iff]
      exact ⟨rfl, this.symm⟩
    calc (b.filter (fun p => !(dvHas a p.1))).map (fun p => (p.1, false))
        = (b.filter (fun p => !(dvHas a p.1))).map id := List.map_congr_left this
      _ = b.filter (fun p => !(dvHas a p.1)) := List.map_id _
  rw [hpart1, hpart2, hc₁]
  exact hc₂.symm

/-- A start-position entry of a map static resource
(uk_content::map::EntryPos, fields as used by mstatic.rs). -/
structure EntryPos where
  rotate : Byml
  translate : Byml
  player_state : Option String
deriving DecidableEq

/-- The CDungeon/MainField `Static` resource
(uk-content/src/map/mainfield/mstatic.rs): a plain sorted map of general
entry lists plus a nested delete-aware map of start positions.  The
`BTreeMap` is modelled by its sorted entry list. -/
structure Static where
  general : List (String × DV Byml)
  start_pos : DM String (DM String EntryPos)
deriving DecidableEq

namespace Static

/-- `impl Mergeable<Byml> for Static`, `diff` (mstatic.rs lines 133-152):
general keys present in `other` are recorded only when they differ
(recursive delete-aware-sequence diff, or the full value for new keys);
start positions take a deep delete-aware diff. -/
def diff (a b : Static) : Static where
  general := b.general.filterMap (fun ke =>
    (match alGet a.general ke.1 with
      | some selfEntries =>
        if selfEntries = ke.2 then none else some (dvDiff selfEntries ke.2)
      | none => some ke.2).map (fun e => (ke.1, e)))
  start_pos := dmDeepDiff a.start_pos b.start_pos

/-- `impl Mergeable<Byml> for Static`, `merge` (mstatic.rs lines 154-169):
iterates the base's general keys, merging any matching diff entry;
start positions take a deep delete-aware merge. -/
def merge (a d : Static) : Static where
  general := a.general.map (fun ke =>
    match alGet d.general ke.1 with
    | some diffEntries => (ke.1, dvMerge ke.2 diffEntries)
    | none => ke)
  start_pos := dmDeepMerge a.start_pos d.start_pos

/-- The source's `PartialEq` on `Static`: the general map is compared
entry-for-entry, the start-position `DeleteMap` order-insensitively
(`IndexMap` semantics). -/
def eqv (x y : Static) : Prop :=
  x.general = y.general ∧ dm2EquivB x.start_pos y.start_pos = true

end Static

/-- Conditional round trip for `Static`: if base and modified agree on
their general key list (the source's `merge` cannot create or drop
general keys), every modified general value is tombstone-free and
order-compatible with its base value, and the start-position maps are
wellformed, then `merge(a, diff(a, b))` equals `b` under the source's
equality. -/
theorem static_round_trip (a b : Static)
    (hkeys : a.general.map (·.1) = b.general.map (·.1))
    (hnd : NoDupKeys a.general)
    (hdv : ∀ k va vb, alGet a.general k = some va → alGet b.general k = some vb →
      DvLive vb ∧ DvCompat va vb)
    (hwa : NoDupKeys a.start_pos ∧
      ∀ e ∈ a.start_pos, ∀ v, e.2 = DE.val v → NoDupKeys v)
    (hwb : Dm2WF b.start_pos) :
    (Static.merge a (Static.diff a b)).eqv b := by
  have hndb : NoDupKeys b.general := by
    rw [NoDupKeys, ← hkeys]
    exact hnd
  constructor
  · show (a.general.map _) = b.general
    have hlen : a.general.length = b.general.length := by
      have := congrArg List.length hkeys
      simpa using this
    apply List.ext_getElem (by simpa using hlen)
    intro i h₁ h₂
    have h₁' : i < a.general.length := by simpa using h₁
    have h₂' : i < b.general.length := by simpa using h₂
    have hkey : (a.general[i]).1 = (b.general[i]).1 := by
      have := congrFun (congrArg (fun l => fun j => l.getD j "") hkeys) i
      simp only [List.getD_eq_getElem?_getD] at this
      rw [List.getElem?_map, List.getElem?_map] at this
      rw [List.getElem?_eq_getElem h₁', List.getElem?_eq_getElem h₂'] at this
      simpa using this
    set pa := a.general[i] with hpa
    set pb := b.general[i] with hpb
    have hga : alGet a.general pa.1 = some pa.2 := by
      apply alGet_of_mem hnd
      show ((pa.1, pa.2) : String × DV Byml) ∈ a.general
      rw [hpa]
      exact List.getElem_mem h₁'
    have hgb : alGet b.general pb.1 = some pb.2 := by
      apply alGet_of_mem hndb
      show ((pb.1, pb.2) : String × DV Byml) ∈ b.general
      rw [hpb]
      exact List.getElem_mem h₂'
    have hga' : alGet a.general pb.1 = some pa.2 := by
      rw [← hkey]
      exact hga
    have hdg : alGet (Static.diff a b).general pb.1
        = if pa.2 = pb.2 then none else some (dvDiff pa.2 pb.2) := by
      show alGet (b.general.filterMap _) pb.1 = _
      rw [alGet_entryMap (fun k v =>
        match alGet a.general k with
        | some selfEntries =>
          if selfEntries = v then none else some (dvDiff selfEntries v)
        | none => some v) b.general hndb pb.1, hgb, Option.some_bind, hga']
    rw [List.getElem_map, ← hpa]
    show (match alGet (Static.diff a b).general pa.1 with
      | some diffEntries => (pa.1, dvMerge pa.2 diffEntries)
      | none => pa) = pb
    rw [hkey, hdg]
    by_cases heq : pa.2 = pb.2
    · rw [if_pos heq]
      show pa = pb
      have : pa = (pa.1, pa.2) := rfl
      rw [this, hkey, heq]
    · rw [if_neg heq]
      obtain ⟨hlive, hcompat⟩ := hdv pb.1 pa.2 pb.2 hga' hgb
      show (pb.1, dvMerge pa.2 (dvDiff pa.2 pb.2)) = pb
      rw [dv_round_trip pa.2 pb.2 hlive hcompat]
  · exact dm_deep_round_trip a.start_pos b.start_pos hwa hwb

/-- A game-flag data pack field (uk-content/src/data/gamedata.rs):
a declared data type plus a sorted delete-aware map of flags keyed by a
32-bit hash. -/
structure GameData where
  data_type : String
  flags : SDM Nat Byml
deriving DecidableEq

/-- `GameData::diff` (gamedata.rs lines 71-81): asserts equal data types
(a mismatch is a fatal panic), then diffs the flag maps key-wise. -/
def gdDiff (a b : GameData) : PanicOr GameData :=
  if a.data_type = b.data_type then
    PanicOr.ok { data_type := a.data_type, flags := sdmDiff a.flags b.flags }
  else
    PanicOr.panicked ("Attempted to diff different gamedata types: "
      ++ a.data_type ++ " and " ++ b.data_type)

/-- `GameData::merge` (gamedata.rs lines 83-93): asserts equal data types
(a mismatch is a fatal panic), then merges the flag maps key-wise. -/
def gdMerge (a d : GameData) : PanicOr GameData :=
  if a.data_type = d.data_type then
    PanicOr.ok { data_type := a.data_type, flags := sdmMerge a.flags d.flags }
  else
    PanicOr.panicked ("Attempted to merge different gamedata types: "
      ++ a.data_type ++ " and " ++ d.data_type)

/-- Rust `n as f32` for a `usize` count: round to the nearest
single-precision float, ties to even.  Exact for `n ≤ 2^24`; above that
the value is rounded to the granularity `2^(⌊log₂ n⌋ - 23)` of the
binade.  (A `usize` is below `2^64`, far under the `f32` overflow
threshold near `2^128`, so saturation never occurs.) -/
def f32round (n : Nat) : Nat :=
  if n ≤ 2 ^ 24 then n
  else
    let g := 2 ^ (Nat.log2 n - 23)
    let q := n / g
    let r := n % g
    if 2 * r < g then q * g
    else if g < 2 * r then (q + 1) * g
    else if q % 2 = 0 then q * g
    else (q + 1) * g

/-- `(self.flags.len() as f32 / 4096.).ceil() as usize` (gamedata.rs
line 57): the `f32` division by the power of two `4096` and the ceiling
are exact, so the result is the integer ceiling of the *rounded* count. -/
def shardCount (n : Nat) : Nat := (f32round n + 4095) / 4096

/-- `GameData::divide` (gamedata.rs lines 56-67): split the flags into
`shardCount` consecutive shards of at most 4096 entries, all carrying
the pack's data type. -/
def gdDivide (g : GameData) : List GameData :=
  (List.range (shardCount g.flags.length)).map (fun i =>
    { data_type := g.data_type, flags := (g.flags.drop (i * 4096)).take 4096 })

/-- The values iterator of a sorted delete-aware map (`flags.values()`):
the non-tombstoned values in key order. -/
def sdmValues {K V : Type} (m : SDM K V) : List V :=
  m.filterMap (fun e => match e.2 with | DE.val v => some v | DE.del => none)

/-- `impl From<GameData> for Byml` (gamedata.rs lines 47-53): a
single-entry hash from the data type to the array of flag values. -/
def gdToByml (g : GameData) : Byml :=
  Byml.hash [(g.data_type, Byml.arr (sdmValues g.flags))]

/-- Sorted insertion into a `SortedDeleteMap` (equal keys overwrite). -/
def sdmInsert {K V : Type} [LinearOrder K] : SDM K V → K → DE V → SDM K V
  | [], k, e => [(k, e)]
  | (k₀, e₀) :: t, k, e =>
    if k < k₀ then (k, e) :: (k₀, e₀) :: t
    else if k₀ < k then (k₀, e₀) :: sdmInsert t k e
    else (k, e) :: t

/-- Collecting an iterator of key/value pairs into a `SortedDeleteMap`
(`collect::<SortedDeleteMap<_, _>>()`), by repeated sorted insertion. -/
def sdmOfList {K V : Type} [LinearOrder K] (l : List (K × V)) : SDM K V :=
  l.foldl (fun m kv => sdmInsert m kv.1 (DE.val kv.2)) []

/-- One flag entry of `TryFrom<&Byml> for GameData` (gamedata.rs lines
31-41): the item must be a hash with a `HashValue` integer; its key is
that integer cast to `u32` (`as u32`, i.e. modulo `2^32`). -/
def gdParseItem (item : Byml) : Except String (Nat × Byml) := do
  let _ ← item.as_hash
  match item.get "HashValue" with
  | none => Except.error "bgdata file entry missing HashValue"
  | some hv => do
    let i ← hv.as_int
    Except.ok (((i % (2 ^ 32 : Int)).toNat, item))

/-- `impl TryFrom<&Byml> for GameData` (gamedata.rs lines 14-45): read
the first hash entry as data type and flag array. -/
def gdFromByml (byml : Byml) : Except String GameData := do
  let h ← byml.as_hash
  match h with
  | [] => Except.error "bgdata file missing data type key"
  | (dt, v) :: _ =>
    let items ← v.as_array
    let entries ← items.mapM gdParseItem
    Except.ok { data_type := dt, flags := sdmOfList entries }

/-- Rust `str::trim_start_matches('/')`: strip every leading slash. -/
def rustTrimSlashes (s : String) : String := ⟨s.data.dropWhile (fun c => c = '/')⟩

/-- Rust `str::starts_with(pat)` at the character level. -/
def rustStartsWith (s pat : String) : Bool := pat.data.isPrefixOf s.data

/-- Rust `str::trim_start_matches("revival_")` on the character list:
strip the prefix as often as it occurs. -/
def trimRevivalChars (l : List Char) : List Char :=
  if h : ("revival_".data).isPrefixOf l then
    trimRevivalChars (l.drop 8)
  else l
  termination_by l.length
  decreasing_by
    have hp : ("revival_".data) <+: l := List.isPrefixOf_iff_prefix.mp h
    have hlen : ("revival_".data).length ≤ l.length := hp.length_le
    have h8 : (8 : Nat) ≤ l.length := by
      simpa using hlen
    simp only [List.length_drop]
    omega

/-- Rust `str::trim_start_matches("revival_")`. -/
def rustTrimRevival (s : String) : String := ⟨trimRevivalChars s.data⟩

/-- The canonical data type for a gamedata pack slot, from the fold's
initial accumulator in `extract_sarcwriter_gamedata!` (gamedata.rs
lines 168-174): `string32_data` holds `string_data`, `revival_*` slots
drop the prefix, all others use the slot name itself. -/
def canonType (key : String) : String :=
  if key = "string32_data" then "string_data" else rustTrimRevival key

/-- The game-flag data pack (gamedata.rs lines 96-116): one `GameData`
per flag family. -/
structure GameDataPack where
  bool_array_data : GameData
  bool_data : GameData
  f32_array_data : GameData
  f32_data : GameData
  revival_bool_data : GameData
  revival_s32_data : GameData
  s32_array_data : GameData
  s32_data : GameData
  string32_data : GameData
  string64_array_data : GameData
  string64_data : GameData
  string256_array_data : GameData
  string256_data : GameData
  vector2f_array_data : GameData
  vector2f_data : GameData
  vector3f_array_data : GameData
  vector3f_data : GameData
  vector4f_data : GameData
deriving DecidableEq

/-- Model of `roead::sarc::SarcWriter` as used by the gamedata pack: the
target endianness and the appended files.  Payloads are held as parsed
byml documents, identifying the external codec's lossless byte
round-trip with the identity. -/
structure GdSarcWriter where
  endian : Endian
  files : List (String × Byml)
deriving DecidableEq

/-- The files one pack slot contributes (`build_gamedata_pack!`,
gamedata.rs lines 184-197): the slot's shards, enumerated and named
`/{slot}_{i}.bgdata`, serialized at the writer's endianness. -/
def gdFieldFiles (name : String) (g : GameData) : List (String × Byml) :=
  (gdDivide g).enum.map (fun p =>
    ("/" ++ name ++ "_" ++ toString p.1 ++ ".bgdata", gdToByml p.2))

/-- `GameDataPack::into_sarc_writer` (gamedata.rs lines 248-273). -/
def gdpIntoSarcWriter (p : GameDataPack) (e : Endian) : GdSarcWriter :=
  { endian := e
    files :=
      gdFieldFiles "bool_array_data" p.bool_array_data
      ++ gdFieldFiles "bool_data" p.bool_data
      ++ gdFieldFiles "f32_array_data" p.f32_array_data
      ++ gdFieldFiles "f32_data" p.f32_data
      ++ gdFieldFiles "revival_bool_data" p.revival_bool_data
      ++ gdFieldFiles "revival_s32_data" p.revival_s32_data
      ++ gdFieldFiles "s32_array_data" p.s32_array_data
      ++ gdFieldFiles "s32_data" p.s32_data
      ++ gdFieldFiles "string32_data" p.string32_data
      ++ gdFieldFiles "string64_array_data" p.string64_array_data
      ++ gdFieldFiles "string64_data" p.string64_data
      ++ gdFieldFiles "string256_array_data" p.string256_array_data
      ++ gdFieldFiles "string256_data" p.string256_data
      ++ gdFieldFiles "vector2f_array_data" p.vector2f_array_data
      ++ gdFieldFiles "vector2f_data" p.vector2f_data
      ++ gdFieldFiles "vector3f_array_data" p.vector3f_array_data
      ++ gdFieldFiles "vector3f_data" p.vector3f_data
      ++ gdFieldFiles "vector4f_data" p.vector4f_data }

/-- One slot of `extract_sarcwriter_gamedata!` (gamedata.rs lines
151-182): parse every file whose slash-trimmed name starts with the slot
name, then fold the shards together by `merge` starting from an empty
map with the slot's canonical data type.  Parse failures are recoverable
errors; a data-type mismatch inside `merge` panics. -/
def gdpExtractField (w : GdSarcWriter) (key : String) :
    Except String (PanicOr GameData) := do
  let parsed ← (w.files.filter
      (fun f => rustStartsWith (rustTrimSlashes f.1) key)).mapM
    (fun f => gdFromByml f.2)
  Except.ok (parsed.foldl (fun acc gd => acc.bind (fun a => gdMerge a gd))
    (PanicOr.ok { data_type := canonType key, flags := [] }))

/-- `GameDataPack::from_sarc_writer` (gamedata.rs lines 200-222). -/
def gdpFromSarcWriter (w : GdSarcWriter) : Except String (PanicOr GameDataPack) := do
  let f₁ ← gdpExtractField w "bool_array_data"
  let f₂ ← gdpExtractField w "bool_data"
  let f₃ ← gdpExtractField w "f32_array_data"
  let f₄ ← gdpExtractField w "f32_data"
  let f₅ ← gdpExtractField w "revival_bool_data"
  let f₆ ← gdpExtractField w "revival_s32_data"
  let f₇ ← gdpExtractField w "s32_array_data"
  let f₈ ← gdpExtractField w "s32_data"
  let f₉ ← gdpExtractField w "string32_data"
  let f₁₀ ← gdpExtractField w "string64_array_data"
  let f₁₁ ← gdpExtractField w "string64_data"
  let f₁₂ ← gdpExtractField w "string256_array_data"
  let f₁₃ ← gdpExtractField w "string256_data"
  let f₁₄ ← gdpExtractField w "vector2f_array_data"
  let f₁₅ ← gdpExtractField w "vector2f_data"
  let f₁₆ ← gdpExtractField w "vector3f_array_data"
  let f₁₇ ← gdpExtractField w "vector3f_data"
  let f₁₈ ← gdpExtractField w "vector4f_data"
  Except.ok <|
    f₁.bind fun g₁ => f₂.bind fun g₂ => f₃.bind fun g₃ => f₄.bind fun g₄ =>
    f₅.bind fun g₅ => f₆.bind fun g₆ => f₇.bind fun g₇ => f₈.bind fun g₈ =>
    f₉.bind fun g₉ => f₁₀.bind fun g₁₀ => f₁₁.bind fun g₁₁ => f₁₂.bind fun g₁₂ =>
    f₁₃.bind fun g₁₃ => f₁₄.bind fun g₁₄ => f₁₅.bind fun g₁₅ => f₁₆.bind fun g₁₆ =>
    f₁₇.bind fun g₁₇ => f₁₈.bind fun g₁₈ =>
    PanicOr.ok
      { bool_array_data := g₁, bool_data := g₂, f32_array_data := g₃
        f32_data := g₄, revival_bool_data := g₅, revival_s32_data := g₆
        s32_array_data := g₇, s32_data := g₈, string32_data := g₉
        string64_array_data := g₁₀, string64_data := g₁₁
        string256_array_data := g₁₂, string256_data := g₁₃
        vector2f_array_data := g₁₄, vector2f_data := g₁₅
        vector3f_array_data := g₁₆, vector3f_data := g₁₇
        vector4f_data := g₁₈ }

/-- `BinaryResource` (uk-mod/src/resource.rs lines 356-363): an opaque
platform-agnostic byte payload, or side-by-side per-platform payloads. -/
inductive BinaryResource where
  | agnostic (data : Bytes)
  | platform (wiiu : Option Bytes) (nx : Option Bytes)
deriving DecidableEq, Repr

/-- `impl Mergeable for BinaryResource`, `diff` (resource.rs lines
366-377): agnostic payloads are replaced wholesale; platform payloads
are kept only when they differ (`(u1 != u2).then(..).flatten()`); mixed
variants panic. -/
def brDiff (a b : BinaryResource) : PanicOr BinaryResource :=
  match a, b with
  | .agnostic _, .agnostic d => PanicOr.ok (.agnostic d)
  | .platform u₁ n₁, .platform u₂ n₂ =>
    PanicOr.ok (.platform (if u₁ ≠ u₂ then u₂ else none) (if n₁ ≠ n₂ then n₂ else none))
  | _, _ => PanicOr.panicked "Attempted to diff incompatible binary resource types"

/-- `impl Mergeable for BinaryResource`, `merge` (resource.rs lines
379-391): the diff's payloads win when present (`u2.or(u1)`); mixed
variants panic. -/
def brMerge (a d : BinaryResource) : PanicOr BinaryResource :=
  match a, d with
  | .agnostic _, .agnostic b => PanicOr.ok (.agnostic b)
  | .platform u₁ n₁, .platform u₂ n₂ =>
    PanicOr.ok (.platform (u₂.or u₁) (n₂.or n₁))
  | _, _ => PanicOr.panicked "Attempted to merge incompatible binary resource types"

/-- `BinaryResource::to_binary` (resource.rs lines 393-404): agnostic
data is returned unchanged; a platform resource yields the payload for
the requested endianness or a recoverable error when it is absent. -/
def brToBinary (r : BinaryResource) (endian : Endian) : Except String Bytes :=
  match r with
  | .agnostic data => Except.ok data
  | .platform wiiu nx =>
    match (match endian with | .big => wiiu | .little => nx) with
    | some data => Except.ok data
    | none => Except.error "Resource missing binary data for target platform"

/-- Model of an external `roead::aamp::ParameterIO` document (the
ordered parameter format); its structure is irrelevant to the claims and
kept opaque. -/
structure ParamFile where
  raw : List Nat
deriving DecidableEq, Repr

/-- Modelled from the spec: `Mergeable` for `GameDataPack` (its impl is
not among the sources; §4.2 prescribes field-wise recursion), diffing
each flag family; any data-type mismatch panic propagates. -/
def gdpDiff (a b : GameDataPack) : PanicOr GameDataPack :=
  (gdDiff a.bool_array_data b.bool_array_data).bind fun g₁ =>
  (gdDiff a.bool_data b.bool_data).bind fun g₂ =>
  (gdDiff a.f32_array_data b.f32_array_data).bind fun g₃ =>
  (gdDiff a.f32_data b.f32_data).bind fun g₄ =>
  (gdDiff a.revival_bool_data b.revival_bool_data).bind fun g₅ =>
  (gdDiff a.revival_s32_data b.revival_s32_data).bind fun g₆ =>
  (gdDiff a.s32_array_data b.s32_array_data).bind fun g₇ =>
  (gdDiff a.s32_data b.s32_data).bind fun g₈ =>
  (gdDiff a.string32_data b.string32_data).bind fun g₉ =>
  (gdDiff a.string64_array_data b.string64_array_data).bind fun g₁₀ =>
  (gdDiff a.string64_data b.string64_data).bind fun g₁₁ =>
  (gdDiff a.string256_array_data b.string256_array_data).bind fun g₁₂ =>
  (gdDiff a.string256_data b.string256_data).bind fun g₁₃ =>
  (gdDiff a.vector2f_array_data b.vector2f_array_data).bind fun g₁₄ =>
  (gdDiff a.vector2f_data b.vector2f_data).bind fun g₁₅ =>
  (gdDiff a.vector3f_array_data b.vector3f_array_data).bind fun g₁₆ =>
  (gdDiff a.vector3f_data b.vector3f_data).bind fun g₁₇ =>
  (gdDiff a.vector4f_data b.vector4f_data).bind fun g₁₈ =>
  PanicOr.ok
    { bool_array_data := g₁, bool_data := g₂, f32_array_data := g₃
      f32_data := g₄, revival_bool_data := g₅, revival_s32_data := g₆
      s32_array_data := g₇, s32_data := g₈, string32_data := g₉
      string64_array_data := g₁₀, string64_data := g₁₁
      string256_array_data := g₁₂, string256_data := g₁₃
      vector2f_array_data := g₁₄, vector2f_data := g₁₅
      vector3f_array_data := g₁₆, vector3f_data := g₁₇
      vector4f_data := g₁₈ }

/-- Modelled from the spec: `Mergeable` for `GameDataPack`, merging each
flag family field-wise. -/
def gdpMerge (a d : GameDataPack) : PanicOr GameDataPack :=
  (gdMerge a.bool_array_data d.bool_array_data).bind fun g₁ =>
  (gdMerge a.bool_data d.bool_data).bind fun g₂ =>
  (gdMerge a.f32_array_data d.f32_array_data).bind fun g₃ =>
  (gdMerge a.f32_data d.f32_data).bind fun g₄ =>
  (gdMerge a.revival_bool_data d.revival_bool_data).bind fun g₅ =>
  (gdMerge a.revival_s32_data d.revival_s32_data).bind fun g₆ =>
  (gdMerge a.s32_array_data d.s32_array_data).bind fun g₇ =>
  (gdMerge a.s32_data d.s32_data).bind fun g₈ =>
  (gdMerge a.string32_data d.string32_data).bind fun g₉ =>
  (gdMerge a.string64_array_data d.string64_array_data).bind fun g₁₀ =>
  (gdMerge a.string64_data d.string64_data).bind fun g₁₁ =>
  (gdMerge a.string256_array_data d.string256_array_data).bind fun g₁₂ =>
  (gdMerge a.string256_data d.string256_data).bind fun g₁₃ =>
  (gdMerge a.vector2f_array_data d.vector2f_array_data).bind fun g₁₄ =>
  (gdMerge a.vector2f_data d.vector2f_data).bind fun g₁₅ =>
  (gdMerge a.vector3f_array_data d.vector3f_array_data).bind fun g₁₆ =>
  (gdMerge a.vector3f_data d.vector3f_data).bind fun g₁₇ =>
  (gdMerge a.vector4f_data d.vector4f_data).bind fun g₁₈ =>
  PanicOr.ok
    { bool_array_data := g₁, bool_data := g₂, f32_array_data := g₃
      f32_data := g₄, revival_bool_data := g₅, revival_s32_data := g₆
      s32_array_data := g₇, s32_data := g₈, string32_data := g₉
      string64_array_data := g₁₀, string64_data := g₁₁
      string256_array_data := g₁₂, string256_data := g₁₃
      vector2f_array_data := g₁₄, vector2f_data := g₁₅
      vector3f_array_data := g₁₆, vector3f_data := g₁₇
      vector4f_data := g₁₈ }

/-- `MergeableResource` (resource.rs lines 38-88).  The embedding covers
the variants whose payload types are defined in the sources at hand —
`GameDataPack`, `Static` — plus the two generic fallbacks; the omitted
variants follow the identical same-variant dispatch pattern. -/
inductive MergeableResource where
  | gameDataPack (v : GameDataPack)
  | staticRes (v : Static)
  | genericAamp (v : ParamFile)
  | genericByml (v : Byml)
deriving DecidableEq

/-- `impl Mergeable for MergeableResource`, `diff` (resource.rs lines
91-176): matching typed variants dispatch to the payload's own diff;
every other combination — including a pair of generic fallback
resources, which have no match arm — hits the catch-all panic. -/
def mrDiff (a b : MergeableResource) : PanicOr MergeableResource :=
  match a, b with
  | .gameDataPack x, .gameDataPack y => (gdpDiff x y).map .gameDataPack
  | .staticRes x, .staticRes y => PanicOr.ok (.staticRes (Static.diff x y))
  | _, _ => PanicOr.panicked "Tried to diff incompatible resources"

/-- `impl Mergeable for MergeableResource`, `merge` (resource.rs lines
178-263): same dispatch structure as `diff`. -/
def mrMerge (a d : MergeableResource) : PanicOr MergeableResource :=
  match a, d with
  | .gameDataPack x, .gameDataPack y => (gdpMerge x y).map .gameDataPack
  | .staticRes x, .staticRes y => PanicOr.ok (.staticRes (Static.merge x y))
  | _, _ => PanicOr.panicked "Tried to merge incompatible resources"

/-- `SarcMap` (resource.rs line 322): an archive as a sorted delete-aware
map from entry path to canonical resource key. -/
structure SarcMap where
  entries : SDM String String
deriving DecidableEq

/-- `SarcMap` diff: delegates to the delete-aware map (resource.rs lines
325-327). -/
def smDiff (a b : SarcMap) : SarcMap := ⟨sdmDiff a.entries b.entries⟩

/-- `SarcMap` merge: delegates to the delete-aware map (resource.rs lines
329-331). -/
def smMerge (a d : SarcMap) : SarcMap := ⟨sdmMerge a.entries d.entries⟩

/-- `ResourceData` (resource.rs lines 406-411): an opaque binary blob, a
typed mergeable resource, or a nested archive map. -/
inductive ResourceData where
  | binary (v : BinaryResource)
  | mergeable (v : MergeableResource)
  | sarc (v : SarcMap)
deriving DecidableEq

/-- Iteration over a sorted delete-aware map (`.iter()`): the
non-tombstoned key/value pairs in order. -/
def sdmIter {K V : Type} (m : SDM K V) : List (K × V) :=
  m.filterMap (fun e => match e.2 with | DE.val v => some (e.1, v) | DE.del => none)

/-- Injective flattening standing for `SarcWriter::to_binary` (external
roead): the archive bytes determined by endianness and entry list. -/
def sarcWriterBytes (e : Endian) (files : List (String × Bytes)) : Bytes :=
  (match e with | .big => [0] | .little => [1])
    ++ files.foldr (fun f acc =>
      f.1.data.map Char.toNat ++ [0, f.2.length] ++ f.2 ++ acc) []

mutual

/-- The entry loop of `SarcMap::to_binary` (resource.rs lines 341-351):
look up each entry's canonical key in the resource table and serialize
it; the first missing key or serialization failure aborts the whole
archive with that error (`collect::<Result<_>>()?`). -/
def sarcEntriesToBinary (mrEnc : MergeableResource → Endian → Bytes) (fuel : Nat)
    (endian : Endian) (resources : List (String × ResourceData)) :
    List (String × String) → Except String (List (String × Bytes))
  | [] => Except.ok []
  | (path, canon) :: rest =>
    match alGet resources canon with
    | none => Except.error ("Missing resource for SARC: " ++ canon)
    | some r =>
      match rdToBinary mrEnc fuel r endian resources with
      | Except.error m => Except.error m
      | Except.ok data =>
        match sarcEntriesToBinary mrEnc fuel endian resources rest with
        | Except.error m => Except.error m
        | Except.ok rest' => Except.ok ((path, data) :: rest')
  termination_by l => (fuel, l.length + 1)

/-- `ResourceData::to_binary` (resource.rs lines 683-693), parameterized
by the external per-type mergeable codec `mrEnc` and a recursion budget
modelling the call stack (archive entries may reference further
archives). -/
def rdToBinary (mrEnc : MergeableResource → Endian → Bytes) (fuel : Nat)
    (r : ResourceData) (endian : Endian)
    (resources : List (String × ResourceData)) : Except String Bytes :=
  match r with
  | .binary v => brToBinary v endian
  | .mergeable v => Except.ok (mrEnc v endian)
  | .sarc sm =>
    match fuel with
    | 0 => Except.error "recursion limit exceeded"
    | fuel' + 1 =>
      (sarcEntriesToBinary mrEnc fuel' endian resources (sdmIter sm.entries)).map
        (sarcWriterBytes endian)
  termination_by (fuel, 0)

end

/-- `SarcMap::to_binary` (resource.rs lines 335-354). -/
def smToBinary (mrEnc : MergeableResource → Endian → Bytes) (fuel : Nat)
    (sm : SarcMap) (endian : Endian)
    (resources : List (String × ResourceData)) : Except String Bytes :=
  (sarcEntriesToBinary mrEnc fuel endian resources (sdmIter sm.entries)).map
    (sarcWriterBytes endian)

/-- `ResourceData::from_binary` (resource.rs lines 414-681) specialized
to a path matching no known resource schema, on a buffer that is not
yaz0-compressed (so `decompress_if` is the identity): sniff the byte
header.  `b"AAMP"` is `[65, 65, 77, 80]`, `b"BY"` is `[66, 89]`,
`b"YB"` is `[89, 66]`; the final branch is the source's `todo!()`,
which panics. -/
def fromBinarySniff (data : Bytes) : PanicOr ResourceData :=
  if data.length > 4 ∧ data.take 4 = [65, 65, 77, 80] then
    PanicOr.ok (.binary (.agnostic data))
  else if data.length > 2 ∧ (data.take 2 = [66, 89] ∨ data.take 2 = [89, 66]) then
    PanicOr.ok (.binary (.platform
      (if data.take 2 = [66, 89] then some data else none)
      (if data.take 2 = [89, 66] then some data else none)))
  else
    PanicOr.panicked "not yet implemented"

/-- `Manifest` (crates/uk-mod/src/lib.rs lines 21-27): the base-content
and add-on-content path sets (`BTreeSet`s, modelled by their sorted
lists). -/
structure Manifest where
  content_files : List String
  aoc_files : List String
deriving DecidableEq

/-- Rust `str::replace(".s", ".")`: replace every non-overlapping
occurrence, scanning left to right, without rescanning replacements. -/
def replaceDotS : List Char → List Char
  | [] => []
  | [c] => [c]
  | c₁ :: c₂ :: rest =>
    if c₁ = '.' ∧ c₂ = 's' then '.' :: replaceDotS rest
    else c₁ :: replaceDotS (c₂ :: rest)

/-- The canonical de-suffixed resource key of a manifest path. -/
def canonPath (s : String) : String := ⟨replaceDotS s.data⟩

/-- `Manifest::resources` (crates/uk-mod/src/lib.rs lines 37-46): every
content path de-suffixed, then every add-on-content path de-suffixed and
prefixed with the fixed virtual directory token (`["Aoc/0010/", ..]
.join("")`). -/
def manifestResources (m : Manifest) : List String :=
  m.content_files.map canonPath
    ++ m.aoc_files.map (fun s => "Aoc/0010/" ++ canonPath s)

/-- C10: `BinaryResource::to_binary` returns the stored bytes unchanged
for `Agnostic` at any endianness; for `Platform` it returns the wiiu
payload on Big and the nx payload on Little, and errors exactly when the
requested payload is absent. -/
theorem c10_binary_to_binary :
    (∀ d e, brToBinary (.agnostic d) e = Except.ok d)
    ∧ (∀ w n, brToBinary (.platform w n) Endian.big =
        match w with
        | some d => Except.ok d
        | none => Except.error "Resource missing binary data for target platform")
    ∧ (∀ w n, brToBinary (.platform w n) Endian.little =
        match n with
        | some d => Except.ok d
        | none => Except.error "Resource missing binary data for target platform")
    ∧ (∀ w n e, (brToBinary (.platform w n) e).isOk = false ↔
        (match e with | Endian.big => w | Endian.little => n) = none) := by
  refine ⟨fun d e => rfl, fun w n => ?_, fun w n => ?_, fun w n e => ?_⟩
  · cases w <;> rfl
  · cases n <;> rfl
  · cases e with
    | big => cases w <;> simp [brToBinary, Except.isOk, Except.toBool]
    | little => cases n <;> simp [brToBinary, Except.isOk, Except.toBool]

/-- C8: on a path matching no schema, the byte sniffer maps an `AAMP`
header (with more than 4 bytes) to the agnostic parameter-format
fallback holding the bytes unchanged, a `BY` header (more than 2 bytes)
to a platform resource with only the wiiu payload, and a `YB` header to
one with only the nx payload. -/
theorem c8_sniff_fallbacks :
    (∀ x rest, fromBinarySniff (65 :: 65 :: 77 :: 80 :: x :: rest)
      = PanicOr.ok (.binary (.agnostic (65 :: 65 :: 77 :: 80 :: x :: rest))))
    ∧ (∀ x rest, fromBinarySniff (66 :: 89 :: x :: rest)
      = PanicOr.ok (.binary (.platform (some (66 :: 89 :: x :: rest)) none)))
    ∧ (∀ x rest, fromBinarySniff (89 :: 66 :: x :: rest)
      = PanicOr.ok (.binary (.platform none (some (89 :: 66 :: x :: rest))))) := by
  refine ⟨fun x rest => ?_, fun x rest => ?_, fun x rest => ?_⟩
  · rw [fromBinarySniff, if_pos]
    exact ⟨by simp, by simp [List.take]⟩
  · rw [fromBinarySniff, if_neg, if_pos]
    · rw [if_pos (by simp [List.take]), if_neg (by simp [List.take])]
    · exact ⟨by simp, Or.inl (by simp [List.take])⟩
    · rintro ⟨-, h⟩
      simp [List.take] at h
  · rw [fromBinarySniff, if_neg, if_pos]
    · rw [if_neg (by simp [List.take]), if_pos (by simp [List.take])]
    · exact ⟨by simp, Or.inr (by simp [List.take])⟩
    · rintro ⟨-, h⟩
      simp [List.take] at h

/-- C2: on a path matching no schema and a buffer whose header is
neither `AAMP` nor `BY`/`YB`, the source's fallthrough is `todo!()`: it
panics instead of returning the recoverable unsupported-format error the
specification requires. -/
theorem c2_unsupported_format_panics :
    fromBinarySniff [0, 0, 0, 0, 0] = PanicOr.panicked "not yet implemented" := by
  rfl

/-- C4 fails as stated: diffing two equal `Agnostic` resources records
the full modified payload, not nothing, so the diff holds `modified`'s
value even though it does not differ from the base's. -/
theorem c4_counterexample :
    brDiff (.agnostic [0, 1]) (.agnostic [0, 1]) = PanicOr.ok (.agnostic [0, 1]) := by
  rfl

/-- C4 amended: a `Platform` payload slot of `BinaryResource::diff`
records `modified`'s payload exactly when the payloads differ and
nothing when they are equal, and `Static::diff` records a general key
exactly when the values differ (the recursive sub-diff when the base has
the key, `modified`'s value verbatim otherwise); the `Agnostic` variant,
however, always holds `modified`'s full payload, even when unchanged. -/
theorem c4_amended :
    (∀ u₁ n₁ u₂ n₂ du dn,
      brDiff (.platform u₁ n₁) (.platform u₂ n₂) = PanicOr.ok (.platform du dn) →
        (u₁ = u₂ → du = none) ∧ (du ≠ none → u₁ ≠ u₂ ∧ du = u₂) ∧
        (n₁ = n₂ → dn = none) ∧ (dn ≠ none → n₁ ≠ n₂ ∧ dn = n₂))
    ∧ (∀ a b : Static, NoDupKeys b.general → ∀ k v,
        alGet a.general k = some v → alGet b.general k = some v →
        alGet (Static.diff a b).general k = none)
    ∧ (∀ a b : Static, NoDupKeys b.general → ∀ k d,
        alGet (Static.diff a b).general k = some d →
        ∃ vb, alGet b.general k = some vb ∧ alGet a.general k ≠ some vb ∧
          d = (match alGet a.general k with
            | some va => dvDiff va vb
            | none => vb))
    ∧ (∀ d, brDiff (.agnostic d) (.agnostic d) = PanicOr.ok (.agnostic d)) := by
  refine ⟨?_, ?_, ?_, fun d => rfl⟩
  · intro u₁ n₁ u₂ n₂ du dn h
    rw [brDiff] at h
    have h' := h
    simp only [PanicOr.ok.injEq, BinaryResource.platform.injEq] at h'
    obtain ⟨hdu, hdn⟩ := h'
    constructor
    · intro he
      rw [← hdu, if_neg (by simp [he])]
    constructor
    · intro hne
      rw [← hdu] at hne ⊢
      by_cases he : u₁ = u₂
      · rw [if_neg (by simp [he])] at hne
        exact absurd rfl hne
      · rw [if_pos he] at hne ⊢
        exact ⟨he, rfl⟩
    constructor
    · intro he
      rw [← hdn, if_neg (by simp [he])]
    · intro hne
      rw [← hdn] at hne ⊢
      by_cases he : n₁ = n₂
      · rw [if_neg (by simp [he])] at hne
        exact absurd rfl hne
      · rw [if_pos he] at hne ⊢
        exact ⟨he, rfl⟩
  · intro a b hndb k v hga hgb
    show alGet (b.general.filterMap _) k = none
    rw [alGet_entryMap (fun k v =>
      match alGet a.general k with
      | some selfEntries =>
        if selfEntries = v then none else some (dvDiff selfEntries v)
      | none => some v) b.general hndb k, hgb, Option.some_bind, hga]
    simp
  · intro a b hndb k d hd
    have hd' : (alGet b.general k).bind (fun v =>
        match alGet a.general k with
        | some selfEntries =>
          if selfEntries = v then none else some (dvDiff selfEntries v)
        | none => some v) = some d := by
      rw [← alGet_entryMap (fun k v =>
        match alGet a.general k with
        | some selfEntries =>
          if selfEntries = v then none else some (dvDiff selfEntries v)
        | none => some v) b.general hndb k]
      exact hd
    cases hgb : alGet b.general k with
    | none =>
      rw [hgb] at hd'
      simp at hd'
    | some vb =>
      rw [hgb, Option.some_bind] at hd'
      refine ⟨vb, rfl, ?_, ?_⟩
      · cases hga : alGet a.general k with
        | none => simp
        | some va =>
          rw [hga] at hd'
          have hd'' : (if va = vb then none
              else some (dvDiff va vb)) = some d := hd'
          intro hc
          have hvv : va = vb := by simpa using hc
          rw [if_pos hvv] at hd''
          simp at hd''
      · cases hga : alGet a.general k with
        | none =>
          rw [hga] at hd'
          simpa using hd'.symm
        | some va =>
          rw [hga] at hd'
          have hd'' : (if va = vb then none
              else some (dvDiff va vb)) = some d := hd'
          by_cases he : va = vb
          · rw [if_pos he] at hd''
            simp at hd''
          · rw [if_neg he] at hd''
            simpa using hd''.symm

/-- Witness for the amended C4 at concrete inputs: equal platform
payloads diff to nothing, and an unchanged general key is absent from a
concrete `Static` diff. -/
theorem c4_amended_witness :
    ((some [0] : Option Bytes) = some [0] → (none : Option Bytes) = none)
    ∧ alGet (Static.diff ⟨[("A", [(Byml.null, false)])], []⟩
        ⟨[("A", [(Byml.null, false)])], []⟩).general "A" = none := by
  constructor
  · intro h
    rcases c4_amended with ⟨hp, -, -, -⟩
    exact (hp (some [0]) none (some [0]) none none none rfl).1 h
  · rcases c4_amended with ⟨-, hs, -, -⟩
    exact hs ⟨[("A", [(Byml.null, false)])], []⟩ ⟨[("A", [(Byml.null, false)])], []⟩
      (by simp [NoDupKeys]) "A" [(Byml.null, false)] (by rfl) (by rfl)

/-- The variant tag of a mergeable resource (which schema it declares). -/
def mrTag : MergeableResource → Nat
  | .gameDataPack _ => 0
  | .staticRes _ => 1
  | .genericAamp _ => 2
  | .genericByml _ => 3

/-- C5 fails as stated: two generic parameter-format fallback resources
are the *same* variant, yet `MergeableResource::diff` has no match arm
for them and hits the catch-all panic. -/
theorem c5_counterexample :
    mrDiff (.genericAamp ⟨[]⟩) (.genericAamp ⟨[]⟩)
      = PanicOr.panicked "Tried to diff incompatible resources"
    ∧ mrMerge (.genericAamp ⟨[]⟩) (.genericAamp ⟨[]⟩)
      = PanicOr.panicked "Tried to merge incompatible resources" := ⟨rfl, rfl⟩

/-- C5 amended: diffing or merging `MergeableResource`s of different
variants, or `GameData` of different declared data types, panics rather
than returning a recoverable error; for matching *typed* variants the
catch-all panic arm is unreachable (dispatch goes to the payload's own
diff/merge, and equal-data-type `GameData` operations always succeed) —
but the generic fallback variants hit the panic arm even when both
operands are the same variant. -/
theorem c5_amended :
    (∀ a b, mrTag a ≠ mrTag b →
      mrDiff a b = PanicOr.panicked "Tried to diff incompatible resources"
      ∧ mrMerge a b = PanicOr.panicked "Tried to merge incompatible resources")
    ∧ (∀ x y, mrDiff (.gameDataPack x) (.gameDataPack y)
        = (gdpDiff x y).map .gameDataPack
      ∧ mrMerge (.gameDataPack x) (.gameDataPack y)
        = (gdpMerge x y).map .gameDataPack)
    ∧ (∀ x y, mrDiff (.staticRes x) (.staticRes y)
        = PanicOr.ok (.staticRes (Static.diff x y))
      ∧ mrMerge (.staticRes x) (.staticRes y)
        = PanicOr.ok (.staticRes (Static.merge x y)))
    ∧ (∀ x y, mrDiff (.genericAamp x) (.genericAamp y)
        = PanicOr.panicked "Tried to diff incompatible resources")
    ∧ (∀ x y, mrDiff (.genericByml x) (.genericByml y)
        = PanicOr.panicked "Tried to diff incompatible resources")
    ∧ (∀ a b : GameData, a.data_type ≠ b.data_type →
        gdDiff a b = PanicOr.panicked ("Attempted to diff different gamedata types: "
          ++ a.data_type ++ " and " ++ b.data_type)
        ∧ gdMerge a b = PanicOr.panicked ("Attempted to merge different gamedata types: "
          ++ a.data_type ++ " and " ++ b.data_type))
    ∧ (∀ a b : GameData, a.data_type = b.data_type →
        gdDiff a b = PanicOr.ok { data_type := a.data_type, flags := sdmDiff a.flags b.flags }
        ∧ gdMerge a b = PanicOr.ok { data_type := a.data_type, flags := sdmMerge a.flags b.flags }) := by
  refine ⟨?_, fun x y => ⟨rfl, rfl⟩, fun x y => ⟨rfl, rfl⟩, fun x y => rfl,
    fun x y => rfl, ?_, ?_⟩
  · intro a b h
    cases a <;> cases b <;> first
      | (exact absurd rfl h)
      | (exact ⟨rfl, rfl⟩)
  · intro a b h
    rw [gdDiff, if_neg h, gdMerge, if_neg h]
    exact ⟨rfl, rfl⟩
  · intro a b h
    rw [gdDiff, if_pos h, gdMerge, if_pos h]
    exact ⟨rfl, rfl⟩

/-- Witness for the amended C5 at concrete inputs: a cross-variant pair
panics, and concrete same/different data-type gamedata behave as
stated. -/
theorem c5_amended_witness :
    mrDiff (.genericAamp ⟨[0]⟩) (.genericByml Byml.null)
      = PanicOr.panicked "Tried to diff incompatible resources"
    ∧ gdDiff ⟨"bool_data", []⟩ ⟨"s32_data", []⟩
      = PanicOr.panicked "Attempted to diff different gamedata types: bool_data and s32_data"
    ∧ gdDiff ⟨"bool_data", []⟩ ⟨"bool_data", []⟩ = PanicOr.ok ⟨"bool_data", []⟩ := by
  refine ⟨?_, ?_, ?_⟩
  · exact (c5_amended.1 (.genericAamp ⟨[0]⟩) (.genericByml Byml.null) (by decide)).1
  · exact (c5_amended.2.2.2.2.2.1 ⟨"bool_data", []⟩ ⟨"s32_data", []⟩ (by decide)).1
  · have h := (c5_amended.2.2.2.2.2.2 ⟨"bool_data", []⟩ ⟨"bool_data", []⟩ rfl).1
    rw [h, sdmDiff_nil_left]

/-- C1 fails as stated: for `BinaryResource::Platform`, dropping a
payload cannot round-trip — `diff` flattens the change to `None` and
`merge` resurrects the base payload, so `merge(a, diff(a, b)) = a ≠ b`. -/
theorem c1_counterexample :
    (brDiff (.platform (some [0]) none) (.platform none none)).bind
      (brMerge (.platform (some [0]) none))
      = PanicOr.ok (.platform (some [0]) none)
    ∧ BinaryResource.platform (some [0]) none ≠ .platform none none := by
  refine ⟨?_, by decide⟩
  rfl

/-- C1 amended: `merge(a, diff(a, b)) == b` holds for `GameData` of
equal data type on sorted, tombstone-free maps; for `Static` when the
general key lists agree and each modified general value is tombstone-free
and order-compatible with its base value (the source's `merge` iterates
only base keys, so added or removed general keys cannot round-trip);
for `BinaryResource::Agnostic` unconditionally; and for `Platform`
provided no payload present in `a` is absent from `b` (the diff cannot
express payload deletion).  The instance `b = a` (merge of a self-diff)
holds under the same wellformedness, and unconditionally for
`Platform`. -/
theorem c1_amended :
    (∀ a b : GameData, a.data_type = b.data_type →
      SdmSorted a.flags → SdmSorted b.flags → SdmNoDel b.flags →
      (gdDiff a b).bind (gdMerge a) = PanicOr.ok b)
    ∧ (∀ a b : Static,
        a.general.map (·.1) = b.general.map (·.1) →
        NoDupKeys a.general →
        (∀ k va vb, alGet a.general k = some va → alGet b.general k = some vb →
          DvLive vb ∧ DvCompat va vb) →
        (NoDupKeys a.start_pos ∧
          ∀ e ∈ a.start_pos, ∀ v, e.2 = DE.val v → NoDupKeys v) →
        Dm2WF b.start_pos →
        (Static.merge a (Static.diff a b)).eqv b)
    ∧ (∀ d₁ d₂ : Bytes, (brDiff (.agnostic d₁) (.agnostic d₂)).bind
        (brMerge (.agnostic d₁)) = PanicOr.ok (.agnostic d₂))
    ∧ (∀ u₁ n₁ u₂ n₂ : Option Bytes, (u₂ = none → u₁ = none) → (n₂ = none → n₁ = none) →
        (brDiff (.platform u₁ n₁) (.platform u₂ n₂)).bind
          (brMerge (.platform u₁ n₁)) = PanicOr.ok (.platform u₂ n₂))
    ∧ (∀ u n : Option Bytes, (brDiff (.platform u n) (.platform u n)).bind
        (brMerge (.platform u n)) = PanicOr.ok (.platform u n)) := by
  refine ⟨?_, ?_, fun d₁ d₂ => rfl, ?_, ?_⟩
  · intro a b hdt hsa hsb hnd
    rw [gdDiff, if_pos hdt]
    show gdMerge a _ = _
    rw [gdMerge, if_pos rfl]
    rw [sdm_round_trip a.flags b.flags hsa hsb hnd]
    cases b with
    | mk dt fl =>
      simp only [PanicOr.ok.injEq, GameData.mk.injEq]
      exact ⟨hdt, trivial⟩
  · exact fun a b h₁ h₂ h₃ h₄ h₅ => static_round_trip a b h₁ h₂ h₃ h₄ h₅
  · intro u₁ n₁ u₂ n₂ hu hn
    rw [brDiff]
    simp only [PanicOr.bind, brMerge]
    congr 1
    congr 1
    · by_cases he : u₁ = u₂
      · subst he
        rw [if_neg (by simp)]
        cases hu2 : u₁ with
        | none => rfl
        | some x => rfl
      · rw [if_pos he]
        cases hu2 : u₂ with
        | none => exact absurd (hu hu2) (hu2 ▸ he)
        | some x => rfl
    · by_cases he : n₁ = n₂
      · subst he
        rw [if_neg (by simp)]
        cases n₁ <;> rfl
      · rw [if_pos he]
        cases hn2 : n₂ with
        | none => exact absurd (hn hn2) (hn2 ▸ he)
        | some x => rfl
  · intro u n
    rw [brDiff, if_neg (by simp), if_neg (by simp)]
    simp only [PanicOr.bind, brMerge]
    cases u <;> cases n <;> rfl

/-- Witness for the amended C1 at concrete inputs: a gamedata pack
gaining a flag, a static resource losing a start position, and a
platform resource keeping both payloads all round-trip. -/
theorem c1_amended_witness :
    (gdDiff ⟨"bool_data", [(1, DE.val Byml.null)]⟩
        ⟨"bool_data", [(1, DE.val (Byml.bool true)), (2, DE.val Byml.null)]⟩).bind
      (gdMerge ⟨"bool_data", [(1, DE.val Byml.null)]⟩)
      = PanicOr.ok ⟨"bool_data", [(1, DE.val (Byml.bool true)), (2, DE.val Byml.null)]⟩
    ∧ (Static.merge ⟨[("A", [(Byml.null, false)])], [("M", DE.val [("P",
          DE.val ⟨Byml.null, Byml.null, none⟩)])]⟩
        (Static.diff ⟨[("A", [(Byml.null, false)])], [("M", DE.val [("P",
          DE.val ⟨Byml.null, Byml.null, none⟩)])]⟩
          ⟨[("A", [(Byml.null, false)])], []⟩)).eqv
      ⟨[("A", [(Byml.null, false)])], []⟩
    ∧ (brDiff (.platform (some [0]) (some [1])) (.platform (some [2]) (some [1]))).bind
        (brMerge (.platform (some [0]) (some [1])))
        = PanicOr.ok (.platform (some [2]) (some [1])) := by
  refine ⟨?_, ?_, ?_⟩
  · exact c1_amended.1 ⟨"bool_data", [(1, DE.val Byml.null)]⟩
      ⟨"bool_data", [(1, DE.val (Byml.bool true)), (2, DE.val Byml.null)]⟩
      rfl (by simp [SdmSorted]) (by simp [SdmSorted]) (by simp [SdmNoDel])
  · refine c1_amended.2.1 _ _ rfl (by simp [NoDupKeys]) ?_ ⟨by simp [NoDupKeys], ?_⟩
      ⟨by simp [NoDupKeys], by simp, by simp⟩
    · intro k va vb h₁ h₂
      by_cases hk : "A" = k
      · rw [alGet, if_pos hk] at h₁ h₂
        obtain rfl : [(Byml.null, false)] = va := by simpa using h₁
        obtain rfl : [(Byml.null, false)] = vb := by simpa using h₂
        exact ⟨by simp [DvLive], ⟨by decide, by decide⟩⟩
      · rw [alGet, if_neg hk] at h₁
        simp [alGet] at h₁
    · intro e he v hv
      simp only [List.mem_singleton] at he
      subst he
      simp only at hv
      have : [("P", DE.val (⟨Byml.null, Byml.null, none⟩ : EntryPos))] = v := by
        simpa using hv
      subst this
      simp [NoDupKeys]
  · exact c1_amended.2.2.2.1 (some [0]) (some [1]) (some [2]) (some [1])
      (by simp) (by simp)

/-- C3 fails as stated: with two archive entries whose first canonical
key is missing from the table, the whole serialization returns a single
error — the second entry is never surfaced, even though on its own it
serializes fine. -/
theorem c3_counterexample :
    smToBinary (fun _ _ => []) 1
      ⟨[("a.txt", DE.val "canonA"), ("b.txt", DE.val "canonB")]⟩ Endian.big
      [("canonB", .binary (.agnostic [1]))]
      = Except.error "Missing resource for SARC: canonA"
    ∧ rdToBinary (fun _ _ => []) 1 (.binary (.agnostic [1])) Endian.big
      [("canonB", .binary (.agnostic [1]))]
      = Except.ok [1] := by
  constructor
  · rw [smToBinary]
    rw [show sdmIter (⟨[("a.txt", DE.val "canonA"), ("b.txt", DE.val "canonB")]⟩
        : SarcMap).entries = [("a.txt", "canonA"), ("b.txt", "canonB")] from rfl]
    rw [sarcEntriesToBinary]
    rw [show alGet [("canonB", ResourceData.binary (.agnostic [1]))] "canonA"
        = none from rfl]
    rfl
  · rw [rdToBinary]
    rfl

/-- C3 amended: an archive entry whose canonical key is absent from the
resource table is surfaced as a recoverable error naming that key — but
the first such failure aborts serialization of the whole archive
(`collect::<Result<_>>()?`); the remaining entries are not serialized. -/
theorem c3_amended (mrEnc : MergeableResource → Endian → Bytes) (fuel : Nat)
    (endian : Endian) (resources : List (String × ResourceData)) (sm : SarcMap)
    (pre : List (String × String)) (path canon : String)
    (post : List (String × String))
    (hsplit : sdmIter sm.entries = pre ++ (path, canon) :: post)
    (hpre : ∀ pc ∈ pre, ∃ r bs, alGet resources pc.2 = some r
      ∧ rdToBinary mrEnc fuel r endian resources = Except.ok bs)
    (hmiss : alGet resources canon = none) :
    smToBinary mrEnc fuel sm endian resources
      = Except.error ("Missing resource for SARC: " ++ canon) := by
  rw [smToBinary, hsplit]
  have hloop : ∀ pre' : List (String × String),
      (∀ pc ∈ pre', ∃ r bs, alGet resources pc.2 = some r
        ∧ rdToBinary mrEnc fuel r endian resources = Except.ok bs) →
      sarcEntriesToBinary mrEnc fuel endian resources (pre' ++ (path, canon) :: post)
        = Except.error ("Missing resource for SARC: " ++ canon) := by
    intro pre'
    induction pre' with
    | nil =>
      intro _
      rw [List.nil_append, sarcEntriesToBinary, hmiss]
    | cons pc rest ih =>
      intro hall
      obtain ⟨p₀, c₀⟩ := pc
      obtain ⟨r, bs, hr, hb⟩ := hall (p₀, c₀) (by simp)
      have hr' : alGet resources c₀ = some r := hr
      rw [List.cons_append, sarcEntriesToBinary, hr']
      simp only [hb, ih (fun q hq => hall q (by simp [hq]))]
  rw [hloop pre hpre]
  rfl

/-- Witness for the amended C3: a concrete archive whose first entry
serializes and whose second is missing aborts with the second entry's
canonical key. -/
theorem c3_amended_witness :
    smToBinary (fun _ _ => []) 1
      ⟨[("a.txt", DE.val "canonA"), ("b.txt", DE.val "canonB")]⟩ Endian.big
      [("canonA", .binary (.agnostic [7]))]
      = Except.error "Missing resource for SARC: canonB" := by
  apply c3_amended (fun _ _ => []) 1 Endian.big
    [("canonA", .binary (.agnostic [7]))]
    ⟨[("a.txt", DE.val "canonA"), ("b.txt", DE.val "canonB")]⟩
    [("a.txt", "canonA")] "b.txt" "canonB" []
  · rfl
  · intro pc hpc
    simp only [List.mem_singleton] at hpc
    subst hpc
    refine ⟨.binary (.agnostic [7]), [7], rfl, ?_⟩
    rw [rdToBinary]
    rfl
  · rfl

/-- General Rust `str::replace` on character lists (the claim-side
description): scan left to right, replace each non-overlapping match of
`pat` by `rep` without rescanning the replacement. -/
def rustReplaceGo (pat rep : List Char) : List Char → List Char
  | [] => []
  | c :: rest =>
    if pat ≠ [] ∧ pat.isPrefixOf (c :: rest) then
      rep ++ rustReplaceGo pat rep ((c :: rest).drop pat.length)
    else c :: rustReplaceGo pat rep rest
  termination_by l => l.length
  decreasing_by
    · simp only [List.length_drop, List.length_cons]
      rename_i h
      have hlen : pat.length ≤ (c :: rest).length :=
        (List.isPrefixOf_iff_prefix.mp h.2).length_le
      have hpos : 0 < pat.length := List.length_pos.mpr h.1
      simp only [List.length_cons] at hlen
      omega
    · simp

/-- The hard-coded `.s → .` scanner agrees with the general Rust
`replace` at the claim's pattern. -/
theorem replaceDotS_eq_general :
    ∀ l : List Char, replaceDotS l = rustReplaceGo ".s".data ".".data l := by
  suffices h : ∀ (n : Nat) (l : List Char), l.length = n →
      replaceDotS l = rustReplaceGo ".s".data ".".data l by
    exact fun l => h l.length l rfl
  intro n
  induction n using Nat.strong_induction_on with
  | _ n ih =>
  intro l hn
  cases l with
  | nil =>
    rw [show replaceDotS [] = [] from rfl, rustReplaceGo]
  | cons c₁ rest =>
    cases rest with
    | nil =>
      have h1 : rustReplaceGo ".s".data ".".data [c₁]
          = c₁ :: rustReplaceGo ".s".data ".".data [] := by
        conv_lhs => rw [rustReplaceGo]
        rw [if_neg (by
          rintro ⟨-, hp⟩
          rw [show ".s".data = ['.', 's'] from rfl] at hp
          simp [List.isPrefixOf] at hp)]
      rw [h1, rustReplaceGo]
      rfl
    | cons c₂ r =>
      have hpre : (".s".data).isPrefixOf (c₁ :: c₂ :: r) = true
          ↔ (c₁ = '.' ∧ c₂ = 's') := by
        rw [show ".s".data = ['.', 's'] from rfl]
        simp only [List.isPrefixOf, Bool.and_eq_true, beq_iff_eq, and_true]
        constructor
        · rintro ⟨h1, h2⟩
          exact ⟨h1.symm, h2.symm⟩
        · rintro ⟨h1, h2⟩
          exact ⟨h1.symm, h2.symm⟩
      rw [replaceDotS]
      by_cases hc : c₁ = '.' ∧ c₂ = 's'
      · rw [if_pos hc, rustReplaceGo, if_pos ⟨by decide, hpre.mpr hc⟩]
        have hr : r.length < n := by
          rw [← hn]
          simp only [List.length_cons]
          omega
        rw [ih r.length hr r rfl]
        rfl
      · rw [if_neg hc, rustReplaceGo, if_neg]
        · have hr : (c₂ :: r).length < n := by
            rw [← hn]
            simp only [List.length_cons]
            omega
          rw [ih (c₂ :: r).length hr (c₂ :: r) rfl]
        · rintro ⟨-, hp⟩
          exact hc (hpre.mp hp)

/-- C9: `Manifest::resources` yields exactly one canonical key per
listed path — each base-content path with the `.s` compression marker
replaced by `.` (Rust `replace`, every occurrence), followed by each
add-on-content path likewise de-suffixed and prefixed with the fixed
virtual directory token `Aoc/0010/`; no other transformation is
applied. -/
theorem c9_manifest_resources (m : Manifest) :
    manifestResources m
      = m.content_files.map (fun s => (⟨rustReplaceGo ".s".data ".".data s.data⟩ : String))
        ++ m.aoc_files.map (fun s =>
          "Aoc/0010/" ++ (⟨rustReplaceGo ".s".data ".".data s.data⟩ : String))
    ∧ (manifestResources m).length = m.content_files.length + m.aoc_files.length := by
  constructor
  · rw [manifestResources]
    congr 1
    · apply List.map_congr_left
      intro s _
      rw [canonPath, replaceDotS_eq_general]
    · apply List.map_congr_left
      intro s _
      rw [canonPath, replaceDotS_eq_general]
  · simp [manifestResources]

theorem chunks_join {α : Type} (C : Nat) :
    ∀ (t : Nat) (l : List α),
      ((List.range t).map (fun i => (l.drop (i * C)).take C)).flatten = l.take (t * C) := by
  intro t
  induction t with
  | zero => intro l; simp
  | succ t ih =>
    intro l
    rw [List.range_succ, List.map_append, List.flatten_append]
    rw [ih l]
    simp only [List.map_cons, List.map_nil, List.flatten_cons, List.flatten_nil,
      List.append_nil]
    rw [← List.take_add]
    congr 1
    rw [Nat.succ_mul]

theorem gdDivide_length (g : GameData) :
    (gdDivide g).length = shardCount g.flags.length := by
  simp [gdDivide]

theorem gdDivide_join (g : GameData) :
    ((gdDivide g).map (·.flags)).flatten
      = g.flags.take (shardCount g.flags.length * 4096) := by
  rw [gdDivide, List.map_map]
  exact chunks_join 4096 (shardCount g.flags.length) g.flags

theorem log2_16777217 : Nat.log2 16777217 = 24 := by
  rw [Nat.log2_eq_log_two]
  apply Nat.log_eq_of_pow_le_of_lt_pow <;> norm_num

theorem f32round_16777217 : f32round 16777217 = 16777216 := by
  simp only [f32round, log2_16777217]
  norm_num

theorem shardCount_16777217 : shardCount 16777217 = 4096 := by
  rw [shardCount, f32round_16777217]

/-- A gamedata pack with 2^24 + 1 flags (keys 0, 1, 2, ...). -/
def bigGameData : GameData :=
  { data_type := "bool_data",
    flags := (List.range 16777217).map (fun k => (k, DE.val Byml.null)) }

/-- C6 is right and the code is wrong at `N = 2^24 + 1`: the claim's
integer ceiling requires 4097 shards, but `divide`'s `f32` arithmetic
rounds 16777217 down to 16777216 and emits 4096 shards, silently
dropping the final flag (only 16777216 entries survive in the
concatenation of the shards). -/
theorem c6_shard_count_loss :
    (gdDivide bigGameData).length = 4096
    ∧ (16777217 + 4096 - 1) / 4096 = 4097
    ∧ bigGameData.flags.length = 16777217
    ∧ ((gdDivide bigGameData).map (·.flags)).flatten.length = 16777216 := by
  have hlen : bigGameData.flags.length = 16777217 := by
    rw [bigGameData]
    simp
  refine ⟨?_, by norm_num, hlen, ?_⟩
  · rw [gdDivide_length, hlen, shardCount_16777217]
  · rw [gdDivide_join, List.length_take, hlen, shardCount_16777217]
    norm_num

/-- Wellformedness of one flag entry: a live hash value whose
`HashValue` integer reproduces its key under the `u32` cast (the shape
every parsed flag has by construction of `TryFrom`). -/
def flagEntryOk (k : Nat) : DE Byml → Bool
  | DE.val (Byml.hash entries) =>
    match (Byml.hash entries).get "HashValue" with
    | some (Byml.int i) => decide ((i % (2 ^ 32 : Int)).toNat = k)
    | _ => false
  | _ => false

/-- Wellformedness of a gamedata pack slot: the slot's canonical data
type, sorted wellformed flags, and at most `2^24` of them (so the `f32`
shard count is exact). -/
def gdSlotWF (slot : String) (g : GameData) : Prop :=
  g.data_type = canonType slot ∧ SdmSorted g.flags
    ∧ (∀ e ∈ g.flags, flagEntryOk e.1 e.2 = true) ∧ g.flags.length ≤ 2 ^ 24

theorem exBind_ok {ε α β : Type} (a : α) (f : α → Except ε β) :
    (Except.ok a : Except ε α) >>= f = f a := rfl

theorem gdParseItem_ok {k : Nat} {v : Byml} (h : flagEntryOk k (DE.val v) = true) :
    gdParseItem v = Except.ok (k, v) := by
  cases v with
  | hash entries =>
    rw [flagEntryOk] at h
    cases hget : Byml.get "HashValue" (Byml.hash entries) with
    | none => rw [hget] at h; simp at h
    | some hv =>
      rw [hget] at h
      cases hv with
      | int i =>
        simp only [decide_eq_true_eq] at h
        show Byml.as_hash (Byml.hash entries) >>= _ = _
        rw [Byml.as_hash, exBind_ok]
        simp only [hget]
        rw [Byml.as_int, exBind_ok, h]
      | null => simp at h
      | bool b => simp at h
      | str t => simp at h
      | arr a => simp at h
      | hash hh => simp at h
  | null => simp [flagEntryOk] at h
  | bool b => simp [flagEntryOk] at h
  | int j => simp [flagEntryOk] at h
  | str t => simp [flagEntryOk] at h
  | arr a => simp [flagEntryOk] at h

theorem mapM_ok_of_forall {α β : Type} (f : α → Except String β) (g : α → β) :
    ∀ l : List α, (∀ x ∈ l, f x = Except.ok (g x)) → l.mapM f = Except.ok (l.map g)
  | [], _ => rfl
  | a :: t, h => by
    rw [List.mapM_cons, h a (by simp), exBind_ok,
      mapM_ok_of_forall f g t (fun x hx => h x (by simp [hx])), exBind_ok]
    rfl

/-- Parsing the serialized values of a wellformed flag map recovers every
key/value pair in order. -/
theorem sdm_parse_round :
    ∀ {fl : SDM Nat Byml}, (∀ e ∈ fl, flagEntryOk e.1 e.2 = true) →
      (sdmValues fl).mapM gdParseItem =
        Except.ok (fl.map (fun e =>
          (e.1, match e.2 with | DE.val v => v | DE.del => Byml.null)))
  | [], _ => rfl
  | (k, e) :: t, hok => by
    have hk := hok (k, e) (by simp)
    cases e with
    | del => simp [flagEntryOk] at hk
    | val v =>
      have ht := sdm_parse_round (fun x hx => hok x (List.mem_cons_of_mem _ hx))
      simp only [sdmValues, List.filterMap_cons] at ht ⊢
      rw [List.mapM_cons, gdParseItem_ok hk, exBind_ok, ht, exBind_ok]
      rfl

theorem sdmInsert_append_last {K V : Type} [LinearOrder K] :
    ∀ (m : SDM K V) (k : K) (e : DE V), (∀ p ∈ m, p.1 < k) →
      sdmInsert m k e = m ++ [(k, e)]
  | [], _, _, _ => rfl
  | (k₀, e₀) :: t, k, e, h => by
    have hk₀ : k₀ < k := h (k₀, e₀) (by simp)
    rw [sdmInsert, if_neg (by exact not_lt_of_gt hk₀), if_pos hk₀,
      sdmInsert_append_last t k e (fun p hp => h p (by simp [hp]))]
    rfl

theorem sdmOfList_go {K V : Type} [LinearOrder K] :
    ∀ (l : List (K × V)) (acc : SDM K V),
      (∀ p ∈ acc, ∀ q ∈ l, p.1 < q.1) → l.Pairwise (fun x y => x.1 < y.1) →
      l.foldl (fun m kv => sdmInsert m kv.1 (DE.val kv.2)) acc
        = acc ++ l.map (fun kv => (kv.1, DE.val kv.2))
  | [], acc, _, _ => by simp
  | kv :: t, acc, hcross, hsort => by
    rw [List.foldl_cons,
      sdmInsert_append_last acc kv.1 (DE.val kv.2)
        (fun p hp => hcross p hp kv (by simp)),
      sdmOfList_go t (acc ++ [(kv.1, DE.val kv.2)])
        (fun p hp q hq => by
          rcases List.mem_append.mp hp with hp' | hp'
          · exact hcross p hp' q (by simp [hq])
          · simp only [List.mem_singleton] at hp'
            subst hp'
            exact (List.pairwise_cons.mp hsort).1 q hq)
        (List.pairwise_cons.mp hsort).2]
    simp

/-- Collecting strictly ascending pairs into a `SortedDeleteMap` keeps
them verbatim as live entries. -/
theorem sdmOfList_asc {K V : Type} [LinearOrder K] (l : List (K × V))
    (h : l.Pairwise (fun x y => x.1 < y.1)) :
    sdmOfList l = l.map (fun kv => (kv.1, DE.val kv.2)) := by
  rw [sdmOfList, sdmOfList_go l [] (by simp) h]
  rfl

/-- Round trip of one gamedata shard through its byml serialization. -/
theorem gdFromByml_gdToByml (g : GameData)
    (hsorted : SdmSorted g.flags)
    (hok : ∀ e ∈ g.flags, flagEntryOk e.1 e.2 = true) :
    gdFromByml (gdToByml g) = Except.ok g := by
  simp only [gdFromByml, gdToByml, Byml.as_hash, Byml.as_array, exBind_ok]
  rw [sdm_parse_round hok, exBind_ok]
  have hmapkeys : (g.flags.map (fun e =>
      (e.1, match e.2 with | DE.val v => v | DE.del => Byml.null))).Pairwise
        (fun x y => x.1 < y.1) :=
    List.pairwise_map.mpr hsorted
  rw [sdmOfList_asc _ hmapkeys, List.map_map]
  have hid : ∀ e ∈ g.flags,
      ((fun kv => (kv.1, DE.val kv.2)) ∘ (fun e =>
        (e.1, match e.2 with | DE.val v => v | DE.del => Byml.null))) e = e := by
    intro e he
    have hk := hok e he
    cases hval : e.2 with
    | del => rw [hval] at hk; simp [flagEntryOk] at hk
    | val v =>
      rw [Function.comp_apply, hval]
      show (e.1, DE.val v) = e
      rw [← hval]
  rw [List.map_congr_left hid, List.map_id']

/-- Merging a block of strictly larger live keys onto a map appends it. -/
theorem sdmMerge_append {K V : Type} [LinearOrder K] :
    ∀ (m s : SDM K V), (∀ p ∈ m, ∀ q ∈ s, p.1 < q.1) → SdmNoDel s →
      sdmMerge m s = m ++ s
  | m, [], _, _ => by rw [sdmMerge_nil_right, List.append_nil]
  | [], q :: s', _, hnd => by
    simp only [sdmMerge, List.nil_append]
    apply List.filter_eq_self.mpr
    intro e he
    cases hv : e.2 with
    | del => exact absurd hv (hnd e he)
    | val v => rfl
  | (k₁, e₁) :: m', q :: s', h, hnd => by
    obtain ⟨k₂, e₂⟩ := q
    rw [sdmMerge_cons_lt e₁ e₂ m' s' (h (k₁, e₁) (by simp) (k₂, e₂) (by simp)),
      sdmMerge_append m' ((k₂, e₂) :: s')
        (fun p hp => h p (List.mem_cons_of_mem _ hp)) hnd,
      List.cons_append]

/-- Folding `merge` over shards with matching data type and ascending
disjoint live flag blocks concatenates the blocks. -/
theorem gd_fold (dt : String) :
    ∀ (shards : List GameData) (acc : SDM Nat Byml),
      (∀ s ∈ shards, s.data_type = dt) →
      SdmSorted (acc ++ (shards.map (·.flags)).flatten) →
      SdmNoDel ((shards.map (·.flags)).flatten) →
      shards.foldl (fun acc gd => acc.bind (fun a => gdMerge a gd))
          (PanicOr.ok { data_type := dt, flags := acc })
        = PanicOr.ok { data_type := dt
                       flags := acc ++ (shards.map (·.flags)).flatten }
  | [], acc, _, _, _ => by simp
  | s :: t, acc, hdt, hsort, hnd => by
    simp only [List.map_cons, List.flatten_cons] at hsort hnd ⊢
    obtain ⟨hsa, hsrest, hcross⟩ := List.pairwise_append.mp hsort
    have hflags : sdmMerge acc s.flags = acc ++ s.flags := by
      apply sdmMerge_append acc s.flags
      · intro p hp q hq
        exact hcross p hp q (List.mem_append_left _ hq)
      · intro e he
        exact hnd e (List.mem_append_left _ he)
    have hmerge : gdMerge { data_type := dt, flags := acc } s
        = PanicOr.ok { data_type := dt, flags := acc ++ s.flags } := by
      rw [gdMerge, if_pos (hdt s (by simp)).symm, hflags]
    rw [List.foldl_cons]
    show List.foldl _ (PanicOr.bind (PanicOr.ok { data_type := dt, flags := acc })
      (fun a => gdMerge a s)) t = _
    rw [show PanicOr.bind (PanicOr.ok { data_type := dt, flags := acc })
        (fun a => gdMerge a s) = gdMerge { data_type := dt, flags := acc } s from rfl,
      hmerge,
      gd_fold dt t (acc ++ s.flags)
        (fun s' hs' => hdt s' (List.mem_cons_of_mem _ hs'))
        (by rw [List.append_assoc]; exact hsort)
        (fun e he => hnd e (List.mem_append_right _ he)),
      List.append_assoc]

theorem mapM_map {α β γ : Type} (h : α → β) (f : β → Except String γ) :
    ∀ l : List α, (l.map h).mapM f = l.mapM (fun a => f (h a))
  | [] => rfl
  | a :: t => by
    rw [List.map_cons, List.mapM_cons, List.mapM_cons, mapM_map h f t]

/-- Every shard of `divide` carries the pack's data type and inherits the
flag map's wellformedness. -/
theorem gdDivide_props (g : GameData) (hs : SdmSorted g.flags)
    (hok : ∀ e ∈ g.flags, flagEntryOk e.1 e.2 = true) :
    ∀ s ∈ gdDivide g, s.data_type = g.data_type ∧ SdmSorted s.flags
      ∧ (∀ e ∈ s.flags, flagEntryOk e.1 e.2 = true) := by
  intro s hsmem
  obtain ⟨i, _, rfl⟩ := List.mem_map.mp hsmem
  have hsub : ((g.flags.drop (i * 4096)).take 4096).Sublist g.flags :=
    (List.take_sublist _ _).trans (List.drop_sublist _ _)
  exact ⟨rfl, hs.sublist hsub, fun e he => hok e (hsub.subset he)⟩

/-- Parsing a slot's own serialized shard files back recovers the shard
list. -/
theorem mapM_fieldFiles (name : String) (g : GameData) (hs : SdmSorted g.flags)
    (hok : ∀ e ∈ g.flags, flagEntryOk e.1 e.2 = true) :
    (gdFieldFiles name g).mapM (fun f => gdFromByml f.2)
      = Except.ok (gdDivide g) := by
  rw [gdFieldFiles, mapM_map,
    mapM_ok_of_forall _ (fun p => p.2) (gdDivide g).enum
      (fun p hp => by
        have hmem : p.2 ∈ gdDivide g := by
          have h2 : p.2 ∈ (gdDivide g).enum.map Prod.snd := List.mem_map_of_mem _ hp
          rwa [List.enum_map_snd] at h2
        obtain ⟨_, hsrt, hok'⟩ := gdDivide_props g hs hok p.2 hmem
        exact gdFromByml_gdToByml p.2 hsrt hok')]
  show Except.ok ((gdDivide g).enum.map Prod.snd) = _
  rw [List.enum_map_snd]

/-- Trimming the leading slash of a shard file name exposes the slot
name followed by an underscore. -/
theorem trimSlashes_fieldName (k' : String) (c : Char) (cs : List Char)
    (hk : k'.data = c :: cs) (hc : c ≠ '/') (i : Nat) :
    rustTrimSlashes ("/" ++ k' ++ "_" ++ toString i ++ ".bgdata")
      = ⟨(k'.data ++ ['_']) ++ ((toString i).data ++ ".bgdata".data)⟩ := by
  rw [rustTrimSlashes]
  congr 1
  rw [String.data_append, String.data_append, String.data_append,
    String.data_append, show "/".data = ['/'] from rfl]
  simp only [List.append_assoc, List.singleton_append]
  show List.dropWhile (fun c => decide (c = '/'))
    ('/' :: (k'.data ++ '_' :: ((toString i).data ++ ".bgdata".data)))
    = k'.data ++ '_' :: ((toString i).data ++ ".bgdata".data)
  rw [List.dropWhile_cons, if_pos (by decide), hk, List.cons_append,
    List.dropWhile_cons, if_neg (by simpa using hc), ← List.cons_append, ← hk]

theorem startsWith_fieldName_self (key : String) (c : Char) (cs : List Char)
    (hk : key.data = c :: cs) (hc : c ≠ '/') (i : Nat) :
    rustStartsWith (rustTrimSlashes ("/" ++ key ++ "_" ++ toString i ++ ".bgdata"))
      key = true := by
  rw [trimSlashes_fieldName key c cs hk hc i, rustStartsWith]
  exact List.isPrefixOf_iff_prefix.mpr
    (by rw [List.append_assoc]; exact List.prefix_append _ _)

theorem startsWith_fieldName_ne (key k' : String) (c : Char) (cs : List Char)
    (hk : k'.data = c :: cs) (hc : c ≠ '/')
    (h₁ : key.data.isPrefixOf (k'.data ++ ['_']) = false)
    (h₂ : (k'.data ++ ['_']).isPrefixOf key.data = false) (i : Nat) :
    rustStartsWith (rustTrimSlashes ("/" ++ k' ++ "_" ++ toString i ++ ".bgdata"))
      key = false := by
  rw [rustStartsWith, trimSlashes_fieldName k' c cs hk hc i]
  cases hp : key.data.isPrefixOf ((k'.data ++ ['_'])
      ++ ((toString i).data ++ ".bgdata".data)) with
  | false => rfl
  | true =>
    have hpre := List.isPrefixOf_iff_prefix.mp hp
    rcases List.prefix_or_prefix_of_prefix hpre (List.prefix_append _ _) with h | h
    · rw [List.isPrefixOf_iff_prefix.mpr h] at h₁
      exact absurd h₁ (by simp)
    · rw [List.isPrefixOf_iff_prefix.mpr h] at h₂
      exact absurd h₂ (by simp)

theorem filter_fieldFiles_self (key : String) (g : GameData) (c : Char)
    (cs : List Char) (hk : key.data = c :: cs) (hc : c ≠ '/') :
    (gdFieldFiles key g).filter
        (fun f => rustStartsWith (rustTrimSlashes f.1) key)
      = gdFieldFiles key g := by
  apply List.filter_eq_self.mpr
  intro f hf
  obtain ⟨p, _, rfl⟩ := List.mem_map.mp hf
  exact startsWith_fieldName_self key c cs hk hc p.1

theorem filter_fieldFiles_ne (key k' : String) (g : GameData) (c : Char)
    (cs : List Char) (hk : k'.data = c :: cs) (hc : c ≠ '/')
    (h₁ : key.data.isPrefixOf (k'.data ++ ['_']) = false)
    (h₂ : (k'.data ++ ['_']).isPrefixOf key.data = false) :
    (gdFieldFiles k' g).filter
        (fun f => rustStartsWith (rustTrimSlashes f.1) key) = [] := by
  apply List.filter_eq_nil_iff.mpr
  intro f hf
  obtain ⟨p, _, rfl⟩ := List.mem_map.mp hf
  simp [startsWith_fieldName_ne key k' c cs hk hc h₁ h₂ p.1]

/-- Below `2^24` flags the `f32` cast is exact, so the shards cover the
whole flag list. -/
theorem take_shardCount (n : Nat) (hle : n ≤ 2 ^ 24) : n ≤ shardCount n * 4096 := by
  rw [shardCount, f32round, if_pos hle]
  have hdm := Nat.div_add_mod (n + 4095) 4096
  have hm : (n + 4095) % 4096 < 4096 := Nat.mod_lt _ (by norm_num)
  omega

/-- One slot of `from_sarc_writer` on a writer whose matching files are
exactly the slot's own wellformed shard files recovers the slot. -/
theorem extractField_of_filter (w : GdSarcWriter) (key : String) (g : GameData)
    (hfilter : w.files.filter
        (fun f => rustStartsWith (rustTrimSlashes f.1) key) = gdFieldFiles key g)
    (hdt : g.data_type = canonType key)
    (hs : SdmSorted g.flags)
    (hok : ∀ e ∈ g.flags, flagEntryOk e.1 e.2 = true)
    (hle : g.flags.length ≤ 2 ^ 24) :
    gdpExtractField w key = Except.ok (PanicOr.ok g) := by
  have htake : g.flags.take (shardCount g.flags.length * 4096) = g.flags :=
    List.take_of_length_le (take_shardCount g.flags.length hle)
  have hjoin : ((gdDivide g).map (·.flags)).flatten = g.flags := by
    rw [gdDivide_join, htake]
  rw [gdpExtractField, hfilter, mapM_fieldFiles key g hs hok, exBind_ok]
  rw [gd_fold (canonType key) (gdDivide g) []
    (fun s hs' => (gdDivide_props g hs hok s hs').1.trans hdt)
    (by rw [List.nil_append, hjoin]; exact hs)
    (by
      rw [hjoin]
      intro e he
      have := hok e he
      intro hdel
      rw [hdel] at this
      simp [flagEntryOk] at this)]
  rw [List.nil_append, hjoin, ← hdt]

/-- Filtering the pack's serialized files by `bool_array_data` keeps exactly that
slot's files. -/
theorem filterInto_bool_array_data (p : GameDataPack) (e : Endian) :
    (gdpIntoSarcWriter p e).files.filter
        (fun f => rustStartsWith (rustTrimSlashes f.1) "bool_array_data")
      = gdFieldFiles "bool_array_data" p.bool_array_data := by
  simp only [gdpIntoSarcWriter, List.filter_append]
  rw [
    filter_fieldFiles_self "bool_array_data" p.bool_array_data 'b' _ rfl (by decide),
    filter_fieldFiles_ne "bool_array_data" "bool_data" p.bool_data 'b' _ rfl (by decide)
      (by decide) (by decide),
    filter_fieldFiles_ne "bool_array_data" "f32_array_data" p.f32_array_data 'f' _ rfl (by decide)
      (by decide) (by decide),
    filter_fieldFiles_ne "bool_array_data" "f32_data" p.f32_data 'f' _ rfl (by decide)
      (by decide) (by decide),
    filter_fieldFiles_ne "bool_array_data" "revival_bool_data" p.revival_bool_data 'r' _ rfl (by decide)
      (by decide) (by decide),
    filter_fieldFiles_ne "bool_array_data" "revival_s32_data" p.revival_s32_data 'r' _ rfl (by decide)
      (by decide) (by decide),
    filter_fieldFiles_ne "bool_array_data" "s32_array_data" p.s32_array_data 's' _ rfl (by decide)
      (by decide) (by decide),
    filter_fieldFiles_ne "bool_array_data" "s32_data" p.s32_data 's' _ rfl (by decide)
      (by decide) (by decide),
    filter_fieldFiles_ne "bool_array_data" "string32_data" p.string32_data 's' _ rfl (by decide)
      (by decide) (by decide),
    filter_fieldFiles_ne "bool_array_data" "string64_array_data" p.string64_array_data 's' _ rfl (by decide)
      (by decide) (by decide),
    filter_fieldFiles_ne "bool_array_data" "string64_data" p.string64_data 's' _ rfl (by decide)
      (by decide) (by decide),
    filter_fieldFiles_ne "bool_array_data" "string256_array_data" p.string256_array_data 's' _ rfl (by decide)
      (by decide) (by decide),
    filter_fieldFiles_ne "bool_array_data" "string256_data" p.string256_data 's' _ rfl (by decide)
      (by decide) (by decide),
    filter_fieldFiles_ne "bool_array_data" "vector2f_array_data" p.vector2f_array_data 'v' _ rfl (by decide)
      (by decide) (by decide),
    filter_fieldFiles_ne "bool_array_data" "vector2f_data" p.vector2f_data 'v' _ rfl (by decide)
      (by decide) (by decide),
    filter_fieldFiles_ne "bool_array_data" "vector3f_array_data" p.vector3f_array_data 'v' _ rfl (by decide)
      (by decide) (by decide),
    filter_fieldFiles_ne "bool_array_data" "vector3f_data" p.vector3f_data 'v' _ rfl (by decide)
      (by decide) (by decide),
    filter_fieldFiles_ne "bool_array_data" "vector4f_data" p.vector4f_data 'v' _ rfl (by decide)
      (by decide) (by decide)]
  simp

/-- Filtering the pack's serialized files by `bool_data` keeps exactly that
slot's files. -/
theorem filterInto_bool_data (p : GameDataPack) (e : Endian) :
    (gdpIntoSarcWriter p e).files.filter
        (fun f => rustStartsWith (rustTrimSlashes f.1) "bool_data")
      = gdFieldFiles "bool_data" p.bool_data := by
  simp only [gdpIntoSarcWriter, List.filter_append]
  rw [
    filter_fieldFiles_ne "bool_data" "bool_array_data" p.bool_array_data 'b' _ rfl (by decide)
      (by decide) (by decide),
    filter_fieldFiles_self "bool_data" p.bool_data 'b' _ rfl (by decide),
    filter_fieldFiles_ne "bool_data" "f32_array_data" p.f32_array_data 'f' _ rfl (by decide)
      (by decide) (by decide),
    filter_fieldFiles_ne "bool_data" "f32_data" p.f32_data 'f' _ rfl (by decide)
      (by decide) (by decide),
    filter_fieldFiles_ne "bool_data" "revival_bool_data" p.revival_bool_data 'r' _ rfl (by decide)
      (by decide) (by decide),
    filter_fieldFiles_ne "bool_data" "revival_s32_data" p.revival_s32_data 'r' _ rfl (by decide)
      (by decide) (by decide),
    filter_fieldFiles_ne "bool_data" "s32_array_data" p.s32_array_data 's' _ rfl (by decide)
      (by decide) (by decide),
    filter_fieldFiles_ne "bool_data" "s32_data" p.s32_data 's' _ rfl (by decide)
      (by decide) (by decide),
    filter_fieldFiles_ne "bool_data" "string32_data" p.string32_data 's' _ rfl (by decide)
      (by decide) (by decide),
    filter_fieldFiles_ne "bool_data" "string64_array_data" p.string64_array_data 's' _ rfl (by decide)
      (by decide) (by decide),
    filter_fieldFiles_ne "bool_data" "string64_data" p.string64_data 's' _ rfl (by decide)
      (by decide) (by decide),
    filter_fieldFiles_ne "bool_data" "string256_array_data" p.string256_array_data 's' _ rfl (by decide)
      (by decide) (by decide),
    filter_fieldFiles_ne "bool_data" "string256_data" p.string256_data 's' _ rfl (by decide)
      (by decide) (by decide),
    filter_fieldFiles_ne "bool_data" "vector2f_array_data" p.vector2f_array_data 'v' _ rfl (by decide)
      (by decide) (by decide),
    filter_fieldFiles_ne "bool_data" "vector2f_data" p.vector2f_data 'v' _ rfl (by decide)
      (by decide) (by decide),
    filter_fieldFiles_ne "bool_data" "vector3f_array_data" p.vector3f_array_data 'v' _ rfl (by decide)
      (by decide) (by decide),
    filter_fieldFiles_ne "bool_data" "vector3f_data" p.vector3f_data 'v' _ rfl (by decide)
      (by decide) (by decide),
    filter_fieldFiles_ne "bool_data" "vector4f_data" p.vector4f_data 'v' _ rfl (by decide)
      (by decide) (by decide)]
  simp

/-- Filtering the pack's serialized files by `f32_array_data` keeps exactly that
slot's files. -/
theorem filterInto_f32_array_data (p : GameDataPack) (e : Endian) :
    (gdpIntoSarcWriter p e).files.filter
        (fun f => rustStartsWith (rustTrimSlashes f.1) "f32_array_data")
      = gdFieldFiles "f32_array_data" p.f32_array_data := by
  simp only [gdpIntoSarcWriter, List.filter_append]
  rw [
    filter_fieldFiles_ne "f32_array_data" "bool_array_data" p.bool_array_data 'b' _ rfl (by decide)
      (by decide) (by decide),
    filter_fieldFiles_ne "f32_array_data" "bool_data" p.bool_data 'b' _ rfl (by decide)
      (by decide) (by decide),
    filter_fieldFiles_self "f32_array_data" p.f32_array_data 'f' _ rfl (by decide),
    filter_fieldFiles_ne "f32_array_data" "f32_data" p.f32_data 'f' _ rfl (by decide)
      (by decide) (by decide),
    filter_fieldFiles_ne "f32_array_data" "revival_bool_data" p.revival_bool_data 'r' _ rfl (by decide)
      (by decide) (by decide),
    filter_fieldFiles_ne "f32_array_data" "revival_s32_data" p.revival_s32_data 'r' _ rfl (by decide)
      (by decide) (by decide),
    filter_fieldFiles_ne "f32_array_data" "s32_array_data" p.s32_array_data 's' _ rfl (by decide)
      (by decide) (by decide),
    filter_fieldFiles_ne "f32_array_data" "s32_data" p.s32_data 's' _ rfl (by decide)
      (by decide) (by decide),
    filter_fieldFiles_ne "f32_array_data" "string32_data" p.string32_data 's' _ rfl (by decide)
      (by decide) (by decide),
    filter_fieldFiles_ne "f32_array_data" "string64_array_data" p.string64_array_data 's' _ rfl (by decide)
      (by decide) (by decide),
    filter_fieldFiles_ne "f32_array_data" "string64_data" p.string64_data 's' _ rfl (by decide)
      (by decide) (by decide),
    filter_fieldFiles_ne "f32_array_data" "string256_array_data" p.string256_array_data 's' _ rfl (by decide)
      (by decide) (by decide),
    filter_fieldFiles_ne "f32_array_data" "string256_data" p.string256_data 's' _ rfl (by decide)
      (by decide) (by decide),
    filter_fieldFiles_ne "f32_array_data" "vector2f_array_data" p.vector2f_array_data 'v' _ rfl (by decide)
      (by decide) (by decide),
    filter_fieldFiles_ne "f32_array_data" "vector2f_data" p.vector2f_data 'v' _ rfl (by decide)
      (by decide) (by decide),
    filter_fieldFiles_ne "f32_array_data" "vector3f_array_data" p.vector3f_array_data 'v' _ rfl (by decide)
      (by decide) (by decide),
    filter_fieldFiles_ne "f32_array_data" "vector3f_data" p.vector3f_data 'v' _ rfl (by decide)
      (by decide) (by decide),
    filter_fieldFiles_ne "f32_array_data" "vector4f_data" p.vector4f_data 'v' _ rfl (by decide)
      (by decide) (by decide)]
  simp

/-- Filtering the pack's serialized files by `f32_data` keeps exactly that
slot's files. -/
theorem filterInto_f32_data (p : GameDataPack) (e : Endian) :
    (gdpIntoSarcWriter p e).files.filter
        (fun f => rustStartsWith (rustTrimSlashes f.1) "f32_data")
      = gdFieldFiles "f32_data" p.f32_data := by
  simp only [gdpIntoSarcWriter, List.filter_append]
  rw [
    filter_fieldFiles_ne "f32_data" "bool_array_data" p.bool_array_data 'b' _ rfl (by decide)
      (by decide) (by decide),
    filter_fieldFiles_ne "f32_data" "bool_data" p.bool_data 'b' _ rfl (by decide)
      (by decide) (by decide),
    filter_fieldFiles_ne "f32_data" "f32_array_data" p.f32_array_data 'f' _ rfl (by decide)
      (by decide) (by decide),
    filter_fieldFiles_self "f32_data" p.f32_data 'f' _ rfl (by decide),
    filter_fieldFiles_ne "f32_data" "revival_bool_data" p.revival_bool_data 'r' _ rfl (by decide)
      (by decide) (by decide),
    filter_fieldFiles_ne "f32_data" "revival_s32_data" p.revival_s32_data 'r' _ rfl (by decide)
      (by decide) (by decide),
    filter_fieldFiles_ne "f32_data" "s32_array_data" p.s32_array_data 's' _ rfl (by decide)
      (by decide) (by decide),
    filter_fieldFiles_ne "f32_data" "s32_data" p.s32_data 's' _ rfl (by decide)
      (by decide) (by decide),
    filter_fieldFiles_ne "f32_data" "string32_data" p.string32_data 's' _ rfl (by decide)
      (by decide) (by decide),
    filter_fieldFiles_ne "f32_data" "string64_array_data" p.string64_array_data 's' _ rfl (by decide)
      (by decide) (by decide),
    filter_fieldFiles_ne "f32_data" "string64_data" p.string64_data 's' _ rfl (by decide)
      (by decide) (by decide),
    filter_fieldFiles_ne "f32_data" "string256_array_data" p.string256_array_data 's' _ rfl (by decide)
      (by decide) (by decide),
    filter_fieldFiles_ne "f32_data" "string256_data" p.string256_data 's' _ rfl (by decide)
      (by decide) (by decide),
    filter_fieldFiles_ne "f32_data" "vector2f_array_data" p.vector2f_array_data 'v' _ rfl (by decide)
      (by decide) (by decide),
    filter_fieldFiles_ne "f32_data" "vector2f_data" p.vector2f_data 'v' _ rfl (by decide)
      (by decide) (by decide),
    filter_fieldFiles_ne "f32_data" "vector3f_array_data" p.vector3f_array_data 'v' _ rfl (by decide)
      (by decide) (by decide),
    filter_fieldFiles_ne "f32_data" "vector3f_data" p.vector3f_data 'v' _ rfl (by decide)
      (by decide) (by decide),
    filter_fieldFiles_ne "f32_data" "vector4f_data" p.vector4f_data 'v' _ rfl (by decide)
      (by decide) (by decide)]
  simp

/-- Filtering the pack's serialized files by `revival_bool_data` keeps exactly that
slot's files. -/
theorem filterInto_revival_bool_data (p : GameDataPack) (e : Endian) :
    (gdpIntoSarcWriter p e).files.filter
        (fun f => rustStartsWith (rustTrimSlashes f.1) "revival_bool_data")
      = gdFieldFiles "revival_bool_data" p.revival_bool_data := by
  simp only [gdpIntoSarcWriter, List.filter_append]
  rw [
    filter_fieldFiles_ne "revival_bool_data" "bool_array_data" p.bool_array_data 'b' _ rfl (by decide)
      (by decide) (by decide),
    filter_fieldFiles_ne "revival_bool_data" "bool_data" p.bool_data 'b' _ rfl (by decide)
      (by decide) (by decide),
    filter_fieldFiles_ne "revival_bool_data" "f32_array_data" p.f32_array_data 'f' _ rfl (by decide)
      (by decide) (by decide),
    filter_fieldFiles_ne "revival_bool_data" "f32_data" p.f32_data 'f' _ rfl (by decide)
      (by decide) (by decide),
    filter_fieldFiles_self "revival_bool_data" p.revival_bool_data 'r' _ rfl (by decide),
    filter_fieldFiles_ne "revival_bool_data" "revival_s32_data" p.revival_s32_data 'r' _ rfl (by decide)
      (by decide) (by decide),
    filter_fieldFiles_ne "revival_bool_data" "s32_array_data" p.s32_array_data 's' _ rfl (by decide)
      (by decide) (by decide),
    filter_fieldFiles_ne "revival_bool_data" "s32_data" p.s32_data 's' _ rfl (by decide)
      (by decide) (by decide),
    filter_fieldFiles_ne "revival_bool_data" "string32_data" p.string32_data 's' _ rfl (by decide)
      (by decide) (by decide),
    filter_fieldFiles_ne "revival_bool_data" "string64_array_data" p.string64_array_data 's' _ rfl (by decide)
      (by decide) (by decide),
    filter_fieldFiles_ne "revival_bool_data" "string64_data" p.string64_data 's' _ rfl (by decide)
      (by decide) (by decide),
    filter_fieldFiles_ne "revival_bool_data" "string256_array_data" p.string256_array_data 's' _ rfl (by decide)
      (by decide) (by decide),
    filter_fieldFiles_ne "revival_bool_data" "string256_data" p.string256_data 's' _ rfl (by decide)
      (by decide) (by decide),
    filter_fieldFiles_ne "revival_bool_data" "vector2f_array_data" p.vector2f_array_data 'v' _ rfl (by decide)
      (by decide) (by decide),
    filter_fieldFiles_ne "revival_bool_data" "vector2f_data" p.vector2f_data 'v' _ rfl (by decide)
      (by decide) (by decide),
    filter_fieldFiles_ne "revival_bool_data" "vector3f_array_data" p.vector3f_array_data 'v' _ rfl (by decide)
      (by decide) (by decide),
    filter_fieldFiles_ne "revival_bool_data" "vector3f_data" p.vector3f_data 'v' _ rfl (by decide)
      (by decide) (by decide),
    filter_fieldFiles_ne "revival_bool_data" "vector4f_data" p.vector4f_data 'v' _ rfl (by decide)
      (by decide) (by decide)]
  simp

/-- Filtering the pack's serialized files by `revival_s32_data` keeps exactly that
slot's files. -/
theorem filterInto_revival_s32_data (p : GameDataPack) (e : Endian) :
    (gdpIntoSarcWriter p e).files.filter
        (fun f => rustStartsWith (rustTrimSlashes f.1) "revival_s32_data")
      = gdFieldFiles "revival_s32_data" p.revival_s32_data := by
  simp only [gdpIntoSarcWriter, List.filter_append]
  rw [
    filter_fieldFiles_ne "revival_s32_data" "bool_array_data" p.bool_array_data 'b' _ rfl (by decide)
      (by decide) (by decide),
    filter_fieldFiles_ne "revival_s32_data" "bool_data" p.bool_data 'b' _ rfl (by decide)
      (by decide) (by decide),
    filter_fieldFiles_ne "revival_s32_data" "f32_array_data" p.f32_array_data 'f' _ rfl (by decide)
      (by decide) (by decide),
    filter_fieldFiles_ne "revival_s32_data" "f32_data" p.f32_data 'f' _ rfl (by decide)
      (by decide) (by decide),
    filter_fieldFiles_ne "revival_s32_data" "revival_bool_data" p.revival_bool_data 'r' _ rfl (by decide)
      (by decide) (by decide),
    filter_fieldFiles_self "revival_s32_data" p.revival_s32_data 'r' _ rfl (by decide),
    filter_fieldFiles_ne "revival_s32_data" "s32_array_data" p.s32_array_data 's' _ rfl (by decide)
      (by decide) (by decide),
    filter_fieldFiles_ne "revival_s32_data" "s32_data" p.s32_data 's' _ rfl (by decide)
      (by decide) (by decide),
    filter_fieldFiles_ne "revival_s32_data" "string32_data" p.string32_data 's' _ rfl (by decide)
      (by decide) (by decide),
    filter_fieldFiles_ne "revival_s32_data" "string64_array_data" p.string64_array_data 's' _ rfl (by decide)
      (by decide) (by decide),
    filter_fieldFiles_ne "revival_s32_data" "string64_data" p.string64_data 's' _ rfl (by decide)
      (by decide) (by decide),
    filter_fieldFiles_ne "revival_s32_data" "string256_array_data" p.string256_array_data 's' _ rfl (by decide)
      (by decide) (by decide),
    filter_fieldFiles_ne "revival_s32_data" "string256_data" p.string256_data 's' _ rfl (by decide)
      (by decide) (by decide),
    filter_fieldFiles_ne "revival_s32_data" "vector2f_array_data" p.vector2f_array_data 'v' _ rfl (by decide)
      (by decide) (by decide),
    filter_fieldFiles_ne "revival_s32_data" "vector2f_data" p.vector2f_data 'v' _ rfl (by decide)
      (by decide) (by decide),
    filter_fieldFiles_ne "revival_s32_data" "vector3f_array_data" p.vector3f_array_data 'v' _ rfl (by decide)
      (by decide) (by decide),
    filter_fieldFiles_ne "revival_s32_data" "vector3f_data" p.vector3f_data 'v' _ rfl (by decide)
      (by decide) (by decide),
    filter_fieldFiles_ne "revival_s32_data" "vector4f_data" p.vector4f_data 'v' _ rfl (by decide)
      (by decide) (by decide)]
  simp

/-- Filtering the pack's serialized files by `s32_array_data` keeps exactly that
slot's files. -/
theorem filterInto_s32_array_data (p : GameDataPack) (e : Endian) :
    (gdpIntoSarcWriter p e).files.filter
        (fun f => rustStartsWith (rustTrimSlashes f.1) "s32_array_data")
      = gdFieldFiles "s32_array_data" p.s32_array_data := by
  simp only [gdpIntoSarcWriter, List.filter_append]
  rw [
    filter_fieldFiles_ne "s32_array_data" "bool_array_data" p.bool_array_data 'b' _ rfl (by decide)
      (by decide) (by decide),
    filter_fieldFiles_ne "s32_array_data" "bool_data" p.bool_data 'b' _ rfl (by decide)
      (by decide) (by decide),
    filter_fieldFiles_ne "s32_array_data" "f32_array_data" p.f32_array_data 'f' _ rfl (by decide)
      (by decide) (by decide),
    filter_fieldFiles_ne "s32_array_data" "f32_data" p.f32_data 'f' _ rfl (by decide)
      (by decide) (by decide),
    filter_fieldFiles_ne "s32_array_data" "revival_bool_data" p.revival_bool_data 'r' _ rfl (by decide)
      (by decide) (by decide),
    filter_fieldFiles_ne "s32_array_data" "revival_s32_data" p.revival_s32_data 'r' _ rfl (by decide)
      (by decide) (by decide),
    filter_fieldFiles_self "s32_array_data" p.s32_array_data 's' _ rfl (by decide),
    filter_fieldFiles_ne "s32_array_data" "s32_data" p.s32_data 's' _ rfl (by decide)
      (by decide) (by decide),
    filter_fieldFiles_ne "s32_array_data" "string32_data" p.string32_data 's' _ rfl (by decide)
      (by decide) (by decide),
    filter_fieldFiles_ne "s32_array_data" "string64_array_data" p.string64_array_data 's' _ rfl (by decide)
      (by decide) (by decide),
    filter_fieldFiles_ne "s32_array_data" "string64_data" p.string64_data 's' _ rfl (by decide)
      (by decide) (by decide),
    filter_fieldFiles_ne "s32_array_data" "string256_array_data" p.string256_array_data 's' _ rfl (by decide)
      (by decide) (by decide),
    filter_fieldFiles_ne "s32_array_data" "string256_data" p.string256_data 's' _ rfl (by decide)
      (by decide) (by decide),
    filter_fieldFiles_ne "s32_array_data" "vector2f_array_data" p.vector2f_array_data 'v' _ rfl (by decide)
      (by decide) (by decide),
    filter_fieldFiles_ne "s32_array_data" "vector2f_data" p.vector2f_data 'v' _ rfl (by decide)
      (by decide) (by decide),
    filter_fieldFiles_ne "s32_array_data" "vector3f_array_data" p.vector3f_array_data 'v' _ rfl (by decide)
      (by decide) (by decide),
    filter_fieldFiles_ne "s32_array_data" "vector3f_data" p.vector3f_data 'v' _ rfl (by decide)
      (by decide) (by decide),
    filter_fieldFiles_ne "s32_array_data" "vector4f_data" p.vector4f_data 'v' _ rfl (by decide)
      (by decide) (by decide)]
  simp

/-- Filtering the pack's serialized files by `s32_data` keeps exactly that
slot's files. -/
theorem filterInto_s32_data (p : GameDataPack) (e : Endian) :
    (gdpIntoSarcWriter p e).files.filter
        (fun f => rustStartsWith (rustTrimSlashes f.1) "s32_data")
      = gdFieldFiles "s32_data" p.s32_data := by
  simp only [gdpIntoSarcWriter, List.filter_append]
  rw [
    filter_fieldFiles_ne "s32_data" "bool_array_data" p.bool_array_data 'b' _ rfl (by decide)
      (by decide) (by decide),
    filter_fieldFiles_ne "s32_data" "bool_data" p.bool_data 'b' _ rfl (by decide)
      (by decide) (by decide),
    filter_fieldFiles_ne "s32_data" "f32_array_data" p.f32_array_data 'f' _ rfl (by decide)
      (by decide) (by decide),
    filter_fieldFiles_ne "s32_data" "f32_data" p.f32_data 'f' _ rfl (by decide)
      (by decide) (by decide),
    filter_fieldFiles_ne "s32_data" "revival_bool_data" p.revival_bool_data 'r' _ rfl (by decide)
      (by decide) (by decide),
    filter_fieldFiles_ne "s32_data" "revival_s32_data" p.revival_s32_data 'r' _ rfl (by decide)
      (by decide) (by decide),
    filter_fieldFiles_ne "s32_data" "s32_array_data" p.s32_array_data 's' _ rfl (by decide)
      (by decide) (by decide),
    filter_fieldFiles_self "s32_data" p.s32_data 's' _ rfl (by decide),
    filter_fieldFiles_ne "s32_data" "string32_data" p.string32_data 's' _ rfl (by decide)
      (by decide) (by decide),
    filter_fieldFiles_ne "s32_data" "string64_array_data" p.string64_array_data 's' _ rfl (by decide)
      (by decide) (by decide),
    filter_fieldFiles_ne "s32_data" "string64_data" p.string64_data 's' _ rfl (by decide)
      (by decide) (by decide),
    filter_fieldFiles_ne "s32_data" "string256_array_data" p.string256_array_data 's' _ rfl (by decide)
      (by decide) (by decide),
    filter_fieldFiles_ne "s32_data" "string256_data" p.string256_data 's' _ rfl (by decide)
      (by decide) (by decide),
    filter_fieldFiles_ne "s32_data" "vector2f_array_data" p.vector2f_array_data 'v' _ rfl (by decide)
      (by decide) (by decide),
    filter_fieldFiles_ne "s32_data" "vector2f_data" p.vector2f_data 'v' _ rfl (by decide)
      (by decide) (by decide),
    filter_fieldFiles_ne "s32_data" "vector3f_array_data" p.vector3f_array_data 'v' _ rfl (by decide)
      (by decide) (by decide),
    filter_fieldFiles_ne "s32_data" "vector3f_data" p.vector3f_data 'v' _ rfl (by decide)
      (by decide) (by decide),
    filter_fieldFiles_ne "s32_data" "vector4f_data" p.vector4f_data 'v' _ rfl (by decide)
      (by decide) (by decide)]
  simp

/-- Filtering the pack's serialized files by `string32_data` keeps exactly that
slot's files. -/
theorem filterInto_string32_data (p : GameDataPack) (e : Endian) :
    (gdpIntoSarcWriter p e).files.filter
        (fun f => rustStartsWith (rustTrimSlashes f.1) "string32_data")
      = gdFieldFiles "string32_data" p.string32_data := by
  simp only [gdpIntoSarcWriter, List.filter_append]
  rw [
    filter_fieldFiles_ne "string32_data" "bool_array_data" p.bool_array_data 'b' _ rfl (by decide)
      (by decide) (by decide),
    filter_fieldFiles_ne "string32_data" "bool_data" p.bool_data 'b' _ rfl (by decide)
      (by decide) (by decide),
    filter_fieldFiles_ne "string32_data" "f32_array_data" p.f32_array_data 'f' _ rfl (by decide)
      (by decide) (by decide),
    filter_fieldFiles_ne "string32_data" "f32_data" p.f32_data 'f' _ rfl (by decide)
      (by decide) (by decide),
    filter_fieldFiles_ne "string32_data" "revival_bool_data" p.revival_bool_data 'r' _ rfl (by decide)
      (by decide) (by decide),
    filter_fieldFiles_ne "string32_data" "revival_s32_data" p.revival_s32_data 'r' _ rfl (by decide)
      (by decide) (by decide),
    filter_fieldFiles_ne "string32_data" "s32_array_data" p.s32_array_data 's' _ rfl (by decide)
      (by decide) (by decide),
    filter_fieldFiles_ne "string32_data" "s32_data" p.s32_data 's' _ rfl (by decide)
      (by decide) (by decide),
    filter_fieldFiles_self "string32_data" p.string32_data 's' _ rfl (by decide),
    filter_fieldFiles_ne "string32_data" "string64_array_data" p.string64_array_data 's' _ rfl (by decide)
      (by decide) (by decide),
    filter_fieldFiles_ne "string32_data" "string64_data" p.string64_data 's' _ rfl (by decide)
      (by decide) (by decide),
    filter_fieldFiles_ne "string32_data" "string256_array_data" p.string256_array_data 's' _ rfl (by decide)
      (by decide) (by decide),
    filter_fieldFiles_ne "string32_data" "string256_data" p.string256_data 's' _ rfl (by decide)
      (by decide) (by decide),
    filter_fieldFiles_ne "string32_data" "vector2f_array_data" p.vector2f_array_data 'v' _ rfl (by decide)
      (by decide) (by decide),
    filter_fieldFiles_ne "string32_data" "vector2f_data" p.vector2f_data 'v' _ rfl (by decide)
      (by decide) (by decide),
    filter_fieldFiles_ne "string32_data" "vector3f_array_data" p.vector3f_array_data 'v' _ rfl (by decide)
      (by decide) (by decide),
    filter_fieldFiles_ne "string32_data" "vector3f_data" p.vector3f_data 'v' _ rfl (by decide)
      (by decide) (by decide),
    filter_fieldFiles_ne "string32_data" "vector4f_data" p.vector4f_data 'v' _ rfl (by decide)
      (by decide) (by decide)]
  simp

/-- Filtering the pack's serialized files by `string64_array_data` keeps exactly that
slot's files. -/
theorem filterInto_string64_array_data (p : GameDataPack) (e : Endian) :
    (gdpIntoSarcWriter p e).files.filter
        (fun f => rustStartsWith (rustTrimSlashes f.1) "string64_array_data")
      = gdFieldFiles "string64_array_data" p.string64_array_data := by
  simp only [gdpIntoSarcWriter, List.filter_append]
  rw [
    filter_fieldFiles_ne "string64_array_data" "bool_array_data" p.bool_array_data 'b' _ rfl (by decide)
      (by decide) (by decide),
    filter_fieldFiles_ne "string64_array_data" "bool_data" p.bool_data 'b' _ rfl (by decide)
      (by decide) (by decide),
    filter_fieldFiles_ne "string64_array_data" "f32_array_data" p.f32_array_data 'f' _ rfl (by decide)
      (by decide) (by decide),
    filter_fieldFiles_ne "string64_array_data" "f32_data" p.f32_data 'f' _ rfl (by decide)
      (by decide) (by decide),
    filter_fieldFiles_ne "string64_array_data" "revival_bool_data" p.revival_bool_data 'r' _ rfl (by decide)
      (by decide) (by decide),
    filter_fieldFiles_ne "string64_array_data" "revival_s32_data" p.revival_s32_data 'r' _ rfl (by decide)
      (by decide) (by decide),
    filter_fieldFiles_ne "string64_array_data" "s32_array_data" p.s32_array_data 's' _ rfl (by decide)
      (by decide) (by decide),
    filter_fieldFiles_ne "string64_array_data" "s32_data" p.s32_data 's' _ rfl (by decide)
      (by decide) (by decide),
    filter_fieldFiles_ne "string64_array_data" "string32_data" p.string32_data 's' _ rfl (by decide)
      (by decide) (by decide),
    filter_fieldFiles_self "string64_array_data" p.string64_array_data 's' _ rfl (by decide),
    filter_fieldFiles_ne "string64_array_data" "string64_data" p.string64_data 's' _ rfl (by decide)
      (by decide) (by decide),
    filter_fieldFiles_ne "string64_array_data" "string256_array_data" p.string256_array_data 's' _ rfl (by decide)
      (by decide) (by decide),
    filter_fieldFiles_ne "string64_array_data" "string256_data" p.string256_data 's' _ rfl (by decide)
      (by decide) (by decide),
    filter_fieldFiles_ne "string64_array_data" "vector2f_array_data" p.vector2f_array_data 'v' _ rfl (by decide)
      (by decide) (by decide),
    filter_fieldFiles_ne "string64_array_data" "vector2f_data" p.vector2f_data 'v' _ rfl (by decide)
      (by decide) (by decide),
    filter_fieldFiles_ne "string64_array_data" "vector3f_array_data" p.vector3f_array_data 'v' _ rfl (by decide)
      (by decide) (by decide),
    filter_fieldFiles_ne "string64_array_data" "vector3f_data" p.vector3f_data 'v' _ rfl (by decide)
      (by decide) (by decide),
    filter_fieldFiles_ne "string64_array_data" "vector4f_data" p.vector4f_data 'v' _ rfl (by decide)
      (by decide) (by decide)]
  simp

/-- Filtering the pack's serialized files by `string64_data` keeps exactly that
slot's files. -/
theorem filterInto_string64_data (p : GameDataPack) (e : Endian) :
    (gdpIntoSarcWriter p e).files.filter
        (fun f => rustStartsWith (rustTrimSlashes f.1) "string64_data")
      = gdFieldFiles "string64_data" p.string64_data := by
  simp only [gdpIntoSarcWriter, List.filter_append]
  rw [
    filter_fieldFiles_ne "string64_data" "bool_array_data" p.bool_array_data 'b' _ rfl (by decide)
      (by decide) (by decide),
    filter_fieldFiles_ne "string64_data" "bool_data" p.bool_data 'b' _ rfl (by decide)
      (by decide) (by decide),
    filter_fieldFiles_ne "string64_data" "f32_array_data" p.f32_array_data 'f' _ rfl (by decide)
      (by decide) (by decide),
    filter_fieldFiles_ne "string64_data" "f32_data" p.f32_data 'f' _ rfl (by decide)
      (by decide) (by decide),
    filter_fieldFiles_ne "string64_data" "revival_bool_data" p.revival_bool_data 'r' _ rfl (by decide)
      (by decide) (by decide),
    filter_fieldFiles_ne "string64_data" "revival_s32_data" p.revival_s32_data 'r' _ rfl (by decide)
      (by decide) (by decide),
    filter_fieldFiles_ne "string64_data" "s32_array_data" p.s32_array_data 's' _ rfl (by decide)
      (by decide) (by decide),
    filter_fieldFiles_ne "string64_data" "s32_data" p.s32_data 's' _ rfl (by decide)
      (by decide) (by decide),
    filter_fieldFiles_ne "string64_data" "string32_data" p.string32_data 's' _ rfl (by decide)
      (by decide) (by decide),
    filter_fieldFiles_ne "string64_data" "string64_array_data" p.string64_array_data 's' _ rfl (by decide)
      (by decide) (by decide),
    filter_fieldFiles_self "string64_data" p.string64_data 's' _ rfl (by decide),
    filter_fieldFiles_ne "string64_data" "string256_array_data" p.string256_array_data 's' _ rfl (by decide)
      (by decide) (by decide),
    filter_fieldFiles_ne "string64_data" "string256_data" p.string256_data 's' _ rfl (by decide)
      (by decide) (by decide),
    filter_fieldFiles_ne "string64_data" "vector2f_array_data" p.vector2f_array_data 'v' _ rfl (by decide)
      (by decide) (by decide),
    filter_fieldFiles_ne "string64_data" "vector2f_data" p.vector2f_data 'v' _ rfl (by decide)
      (by decide) (by decide),
    filter_fieldFiles_ne "string64_data" "vector3f_array_data" p.vector3f_array_data 'v' _ rfl (by decide)
      (by decide) (by decide),
    filter_fieldFiles_ne "string64_data" "vector3f_data" p.vector3f_data 'v' _ rfl (by decide)
      (by decide) (by decide),
    filter_fieldFiles_ne "string64_data" "vector4f_data" p.vector4f_data 'v' _ rfl (by decide)
      (by decide) (by decide)]
  simp

/-- Filtering the pack's serialized files by `string256_array_data` keeps exactly that
slot's files. -/
theorem filterInto_string256_array_data (p : GameDataPack) (e : Endian) :
    (gdpIntoSarcWriter p e).files.filter
        (fun f => rustStartsWith (rustTrimSlashes f.1) "string256_array_data")
      = gdFieldFiles "string256_array_data" p.string256_array_data := by
  simp only [gdpIntoSarcWriter, List.filter_append]
  rw [
    filter_fieldFiles_ne "string256_array_data" "bool_array_data" p.bool_array_data 'b' _ rfl (by decide)
      (by decide) (by decide),
    filter_fieldFiles_ne "string256_array_data" "bool_data" p.bool_data 'b' _ rfl (by decide)
      (by decide) (by decide),
    filter_fieldFiles_ne "string256_array_data" "f32_array_data" p.f32_array_data 'f' _ rfl (by decide)
      (by decide) (by decide),
    filter_fieldFiles_ne "string256_array_data" "f32_data" p.f32_data 'f' _ rfl (by decide)
      (by decide) (by decide),
    filter_fieldFiles_ne "string256_array_data" "revival_bool_data" p.revival_bool_data 'r' _ rfl (by decide)
      (by decide) (by decide),
    filter_fieldFiles_ne "string256_array_data" "revival_s32_data" p.revival_s32_data 'r' _ rfl (by decide)
      (by decide) (by decide),
    filter_fieldFiles_ne "string256_array_data" "s32_array_data" p.s32_array_data 's' _ rfl (by decide)
      (by decide) (by decide),
    filter_fieldFiles_ne "string256_array_data" "s32_data" p.s32_data 's' _ rfl (by decide)
      (by decide) (by decide),
    filter_fieldFiles_ne "string256_array_data" "string32_data" p.string32_data 's' _ rfl (by decide)
      (by decide) (by decide),
    filter_fieldFiles_ne "string256_array_data" "string64_array_data" p.string64_array_data 's' _ rfl (by decide)
      (by decide) (by decide),
    filter_fieldFiles_ne "string256_array_data" "string64_data" p.string64_data 's' _ rfl (by decide)
      (by decide) (by decide),
    filter_fieldFiles_self "string256_array_data" p.string256_array_data 's' _ rfl (by decide),
    filter_fieldFiles_ne "string256_array_data" "string256_data" p.string256_data 's' _ rfl (by decide)
      (by decide) (by decide),
    filter_fieldFiles_ne "string256_array_data" "vector2f_array_data" p.vector2f_array_data 'v' _ rfl (by decide)
      (by decide) (by decide),
    filter_fieldFiles_ne "string256_array_data" "vector2f_data" p.vector2f_data 'v' _ rfl (by decide)
      (by decide) (by decide),
    filter_fieldFiles_ne "string256_array_data" "vector3f_array_data" p.vector3f_array_data 'v' _ rfl (by decide)
      (by decide) (by decide),
    filter_fieldFiles_ne "string256_array_data" "vector3f_data" p.vector3f_data 'v' _ rfl (by decide)
      (by decide) (by decide),
    filter_fieldFiles_ne "string256_array_data" "vector4f_data" p.vector4f_data 'v' _ rfl (by decide)
      (by decide) (by decide)]
  simp

/-- Filtering the pack's serialized files by `string256_data` keeps exactly that
slot's files. -/
theorem filterInto_string256_data (p : GameDataPack) (e : Endian) :
    (gdpIntoSarcWriter p e).files.filter
        (fun f => rustStartsWith (rustTrimSlashes f.1) "string256_data")
      = gdFieldFiles "string256_data" p.string256_data := by
  simp only [gdpIntoSarcWriter, List.filter_append]
  rw [
    filter_fieldFiles_ne "string256_data" "bool_array_data" p.bool_array_data 'b' _ rfl (by decide)
      (by decide) (by decide),
    filter_fieldFiles_ne "string256_data" "bool_data" p.bool_data 'b' _ rfl (by decide)
      (by decide) (by decide),
    filter_fieldFiles_ne "string256_data" "f32_array_data" p.f32_array_data 'f' _ rfl (by decide)
      (by decide) (by decide),
    filter_fieldFiles_ne "string256_data" "f32_data" p.f32_data 'f' _ rfl (by decide)
      (by decide) (by decide),
    filter_fieldFiles_ne "string256_data" "revival_bool_data" p.revival_bool_data 'r' _ rfl (by decide)
      (by decide) (by decide),
    filter_fieldFiles_ne "string256_data" "revival_s32_data" p.revival_s32_data 'r' _ rfl (by decide)
      (by decide) (by decide),
    filter_fieldFiles_ne "string256_data" "s32_array_data" p.s32_array_data 's' _ rfl (by decide)
      (by decide) (by decide),
    filter_fieldFiles_ne "string256_data" "s32_data" p.s32_data 's' _ rfl (by decide)
      (by decide) (by decide),
    filter_fieldFiles_ne "string256_data" "string32_data" p.string32_data 's' _ rfl (by decide)
      (by decide) (by decide),
    filter_fieldFiles_ne "string256_data" "string64_array_data" p.string64_array_data 's' _ rfl (by decide)
      (by decide) (by decide),
    filter_fieldFiles_ne "string256_data" "string64_data" p.string64_data 's' _ rfl (by decide)
      (by decide) (by decide),
    filter_fieldFiles_ne "string256_data" "string256_array_data" p.string256_array_data 's' _ rfl (by decide)
      (by decide) (by decide),
    filter_fieldFiles_self "string256_data" p.string256_data 's' _ rfl (by decide),
    filter_fieldFiles_ne "string256_data" "vector2f_array_data" p.vector2f_array_data 'v' _ rfl (by decide)
      (by decide) (by decide),
    filter_fieldFiles_ne "string256_data" "vector2f_data" p.vector2f_data 'v' _ rfl (by decide)
      (by decide) (by decide),
    filter_fieldFiles_ne "string256_data" "vector3f_array_data" p.vector3f_array_data 'v' _ rfl (by decide)
      (by decide) (by decide),
    filter_fieldFiles_ne "string256_data" "vector3f_data" p.vector3f_data 'v' _ rfl (by decide)
      (by decide) (by decide),
    filter_fieldFiles_ne "string256_data" "vector4f_data" p.vector4f_data 'v' _ rfl (by decide)
      (by decide) (by decide)]
  simp

/-- Filtering the pack's serialized files by `vector2f_array_data` keeps exactly that
slot's files. -/
theorem filterInto_vector2f_array_data (p : GameDataPack) (e : Endian) :
    (gdpIntoSarcWriter p e).files.filter
        (fun f => rustStartsWith (rustTrimSlashes f.1) "vector2f_array_data")
      = gdFieldFiles "vector2f_array_data" p.vector2f_array_data := by
  simp only [gdpIntoSarcWriter, List.filter_append]
  rw [
    filter_fieldFiles_ne "vector2f_array_data" "bool_array_data" p.bool_array_data 'b' _ rfl (by decide)
      (by decide) (by decide),
    filter_fieldFiles_ne "vector2f_array_data" "bool_data" p.bool_data 'b' _ rfl (by decide)
      (by decide) (by decide),
    filter_fieldFiles_ne "vector2f_array_data" "f32_array_data" p.f32_array_data 'f' _ rfl (by decide)
      (by decide) (by decide),
    filter_fieldFiles_ne "vector2f_array_data" "f32_data" p.f32_data 'f' _ rfl (by decide)
      (by decide) (by decide),
    filter_fieldFiles_ne "vector2f_array_data" "revival_bool_data" p.revival_bool_data 'r' _ rfl (by decide)
      (by decide) (by decide),
    filter_fieldFiles_ne "vector2f_array_data" "revival_s32_data" p.revival_s32_data 'r' _ rfl (by decide)
      (by decide) (by decide),
    filter_fieldFiles_ne "vector2f_array_data" "s32_array_data" p.s32_array_data 's' _ rfl (by decide)
      (by decide) (by decide),
    filter_fieldFiles_ne "vector2f_array_data" "s32_data" p.s32_data 's' _ rfl (by decide)
      (by decide) (by decide),
    filter_fieldFiles_ne "vector2f_array_data" "string32_data" p.string32_data 's' _ rfl (by decide)
      (by decide) (by decide),
    filter_fieldFiles_ne "vector2f_array_data" "string64_array_data" p.string64_array_data 's' _ rfl (by decide)
      (by decide) (by decide),
    filter_fieldFiles_ne "vector2f_array_data" "string64_data" p.string64_data 's' _ rfl (by decide)
      (by decide) (by decide),
    filter_fieldFiles_ne "vector2f_array_data" "string256_array_data" p.string256_array_data 's' _ rfl (by decide)
      (by decide) (by decide),
    filter_fieldFiles_ne "vector2f_array_data" "string256_data" p.string256_data 's' _ rfl (by decide)
      (by decide) (by decide),
    filter_fieldFiles_self "vector2f_array_data" p.vector2f_array_data 'v' _ rfl (by decide),
    filter_fieldFiles_ne "vector2f_array_data" "vector2f_data" p.vector2f_data 'v' _ rfl (by decide)
      (by decide) (by decide),
    filter_fieldFiles_ne "vector2f_array_data" "vector3f_array_data" p.vector3f_array_data 'v' _ rfl (by decide)
      (by decide) (by decide),
    filter_fieldFiles_ne "vector2f_array_data" "vector3f_data" p.vector3f_data 'v' _ rfl (by decide)
      (by decide) (by decide),
    filter_fieldFiles_ne "vector2f_array_data" "vector4f_data" p.vector4f_data 'v' _ rfl (by decide)
      (by decide) (by decide)]
  simp

/-- Filtering the pack's serialized files by `vector2f_data` keeps exactly that
slot's files. -/
theorem filterInto_vector2f_data (p : GameDataPack) (e : Endian) :
    (gdpIntoSarcWriter p e).files.filter
        (fun f => rustStartsWith (rustTrimSlashes f.1) "vector2f_data")
      = gdFieldFiles "vector2f_data" p.vector2f_data := by
  simp only [gdpIntoSarcWriter, List.filter_append]
  rw [
    filter_fieldFiles_ne "vector2f_data" "bool_array_data" p.bool_array_data 'b' _ rfl (by decide)
      (by decide) (by decide),
    filter_fieldFiles_ne "vector2f_data" "bool_data" p.bool_data 'b' _ rfl (by decide)
      (by decide) (by decide),
    filter_fieldFiles_ne "vector2f_data" "f32_array_data" p.f32_array_data 'f' _ rfl (by decide)
      (by decide) (by decide),
    filter_fieldFiles_ne "vector2f_data" "f32_data" p.f32_data 'f' _ rfl (by decide)
      (by decide) (by decide),
    filter_fieldFiles_ne "vector2f_data" "revival_bool_data" p.revival_bool_data 'r' _ rfl (by decide)
      (by decide) (by decide),
    filter_fieldFiles_ne "vector2f_data" "revival_s32_data" p.revival_s32_data 'r' _ rfl (by decide)
      (by decide) (by decide),
    filter_fieldFiles_ne "vector2f_data" "s32_array_data" p.s32_array_data 's' _ rfl (by decide)
      (by decide) (by decide),
    filter_fieldFiles_ne "vector2f_data" "s32_data" p.s32_data 's' _ rfl (by decide)
      (by decide) (by decide),
    filter_fieldFiles_ne "vector2f_data" "string32_data" p.string32_data 's' _ rfl (by decide)
      (by decide) (by decide),
    filter_fieldFiles_ne "vector2f_data" "string64_array_data" p.string64_array_data 's' _ rfl (by decide)
      (by decide) (by decide),
    filter_fieldFiles_ne "vector2f_data" "string64_data" p.string64_data 's' _ rfl (by decide)
      (by decide) (by decide),
    filter_fieldFiles_ne "vector2f_data" "string256_array_data" p.string256_array_data 's' _ rfl (by decide)
      (by decide) (by decide),
    filter_fieldFiles_ne "vector2f_data" "string256_data" p.string256_data 's' _ rfl (by decide)
      (by decide) (by decide),
    filter_fieldFiles_ne "vector2f_data" "vector2f_array_data" p.vector2f_array_data 'v' _ rfl (by decide)
      (by decide) (by decide),
    filter_fieldFiles_self "vector2f_data" p.vector2f_data 'v' _ rfl (by decide),
    filter_fieldFiles_ne "vector2f_data" "vector3f_array_data" p.vector3f_array_data 'v' _ rfl (by decide)
      (by decide) (by decide),
    filter_fieldFiles_ne "vector2f_data" "vector3f_data" p.vector3f_data 'v' _ rfl (by decide)
      (by decide) (by decide),
    filter_fieldFiles_ne "vector2f_data" "vector4f_data" p.vector4f_data 'v' _ rfl (by decide)
      (by decide) (by decide)]
  simp

/-- Filtering the pack's serialized files by `vector3f_array_data` keeps exactly that
slot's files. -/
theorem filterInto_vector3f_array_data (p : GameDataPack) (e : Endian) :
    (gdpIntoSarcWriter p e).files.filter
        (fun f => rustStartsWith (rustTrimSlashes f.1) "vector3f_array_data")
      = gdFieldFiles "vector3f_array_data" p.vector3f_array_data := by
  simp only [gdpIntoSarcWriter, List.filter_append]
  rw [
    filter_fieldFiles_ne "vector3f_array_data" "bool_array_data" p.bool_array_data 'b' _ rfl (by decide)
      (by decide) (by decide),
    filter_fieldFiles_ne "vector3f_array_data" "bool_data" p.bool_data 'b' _ rfl (by decide)
      (by decide) (by decide),
    filter_fieldFiles_ne "vector3f_array_data" "f32_array_data" p.f32_array_data 'f' _ rfl (by decide)
      (by decide) (by decide),
    filter_fieldFiles_ne "vector3f_array_data" "f32_data" p.f32_data 'f' _ rfl (by decide)
      (by decide) (by decide),
    filter_fieldFiles_ne "vector3f_array_data" "revival_bool_data" p.revival_bool_data 'r' _ rfl (by decide)
      (by decide) (by decide),
    filter_fieldFiles_ne "vector3f_array_data" "revival_s32_data" p.revival_s32_data 'r' _ rfl (by decide)
      (by decide) (by decide),
    filter_fieldFiles_ne "vector3f_array_data" "s32_array_data" p.s32_array_data 's' _ rfl (by decide)
      (by decide) (by decide),
    filter_fieldFiles_ne "vector3f_array_data" "s32_data" p.s32_data 's' _ rfl (by decide)
      (by decide) (by decide),
    filter_fieldFiles_ne "vector3f_array_data" "string32_data" p.string32_data 's' _ rfl (by decide)
      (by decide) (by decide),
    filter_fieldFiles_ne "vector3f_array_data" "string64_array_data" p.string64_array_data 's' _ rfl (by decide)
      (by decide) (by decide),
    filter_fieldFiles_ne "vector3f_array_data" "string64_data" p.string64_data 's' _ rfl (by decide)
      (by decide) (by decide),
    filter_fieldFiles_ne "vector3f_array_data" "string256_array_data" p.string256_array_data 's' _ rfl (by decide)
      (by decide) (by decide),
    filter_fieldFiles_ne "vector3f_array_data" "string256_data" p.string256_data 's' _ rfl (by decide)
      (by decide) (by decide),
    filter_fieldFiles_ne "vector3f_array_data" "vector2f_array_data" p.vector2f_array_data 'v' _ rfl (by decide)
      (by decide) (by decide),
    filter_fieldFiles_ne "vector3f_array_data" "vector2f_data" p.vector2f_data 'v' _ rfl (by decide)
      (by decide) (by decide),
    filter_fieldFiles_self "vector3f_array_data" p.vector3f_array_data 'v' _ rfl (by decide),
    filter_fieldFiles_ne "vector3f_array_data" "vector3f_data" p.vector3f_data 'v' _ rfl (by decide)
      (by decide) (by decide),
    filter_fieldFiles_ne "vector3f_array_data" "vector4f_data" p.vector4f_data 'v' _ rfl (by decide)
      (by decide) (by decide)]
  simp

/-- Filtering the pack's serialized files by `vector3f_data` keeps exactly that
slot's files. -/
theorem filterInto_vector3f_data (p : GameDataPack) (e : Endian) :
    (gdpIntoSarcWriter p e).files.filter
        (fun f => rustStartsWith (rustTrimSlashes f.1) "vector3f_data")
      = gdFieldFiles "vector3f_data" p.vector3f_data := by
  simp only [gdpIntoSarcWriter, List.filter_append]
  rw [
    filter_fieldFiles_ne "vector3f_data" "bool_array_data" p.bool_array_data 'b' _ rfl (by decide)
      (by decide) (by decide),
    filter_fieldFiles_ne "vector3f_data" "bool_data" p.bool_data 'b' _ rfl (by decide)
      (by decide) (by decide),
    filter_fieldFiles_ne "vector3f_data" "f32_array_data" p.f32_array_data 'f' _ rfl (by decide)
      (by decide) (by decide),
    filter_fieldFiles_ne "vector3f_data" "f32_data" p.f32_data 'f' _ rfl (by decide)
      (by decide) (by decide),
    filter_fieldFiles_ne "vector3f_data" "revival_bool_data" p.revival_bool_data 'r' _ rfl (by decide)
      (by decide) (by decide),
    filter_fieldFiles_ne "vector3f_data" "revival_s32_data" p.revival_s32_data 'r' _ rfl (by decide)
      (by decide) (by decide),
    filter_fieldFiles_ne "vector3f_data" "s32_array_data" p.s32_array_data 's' _ rfl (by decide)
      (by decide) (by decide),
    filter_fieldFiles_ne "vector3f_data" "s32_data" p.s32_data 's' _ rfl (by decide)
      (by decide) (by decide),
    filter_fieldFiles_ne "vector3f_data" "string32_data" p.string32_data 's' _ rfl (by decide)
      (by decide) (by decide),
    filter_fieldFiles_ne "vector3f_data" "string64_array_data" p.string64_array_data 's' _ rfl (by decide)
      (by decide) (by decide),
    filter_fieldFiles_ne "vector3f_data" "string64_data" p.string64_data 's' _ rfl (by decide)
      (by decide) (by decide),
    filter_fieldFiles_ne "vector3f_data" "string256_array_data" p.string256_array_data 's' _ rfl (by decide)
      (by decide) (by decide),
    filter_fieldFiles_ne "vector3f_data" "string256_data" p.string256_data 's' _ rfl (by decide)
      (by decide) (by decide),
    filter_fieldFiles_ne "vector3f_data" "vector2f_array_data" p.vector2f_array_data 'v' _ rfl (by decide)
      (by decide) (by decide),
    filter_fieldFiles_ne "vector3f_data" "vector2f_data" p.vector2f_data 'v' _ rfl (by decide)
      (by decide) (by decide),
    filter_fieldFiles_ne "vector3f_data" "vector3f_array_data" p.vector3f_array_data 'v' _ rfl (by decide)
      (by decide) (by decide),
    filter_fieldFiles_self "vector3f_data" p.vector3f_data 'v' _ rfl (by decide),
    filter_fieldFiles_ne "vector3f_data" "vector4f_data" p.vector4f_data 'v' _ rfl (by decide)
      (by decide) (by decide)]
  simp

/-- Filtering the pack's serialized files by `vector4f_data` keeps exactly that
slot's files. -/
theorem filterInto_vector4f_data (p : GameDataPack) (e : Endian) :
    (gdpIntoSarcWriter p e).files.filter
        (fun f => rustStartsWith (rustTrimSlashes f.1) "vector4f_data")
      = gdFieldFiles "vector4f_data" p.vector4f_data := by
  simp only [gdpIntoSarcWriter, List.filter_append]
  rw [
    filter_fieldFiles_ne "vector4f_data" "bool_array_data" p.bool_array_data 'b' _ rfl (by decide)
      (by decide) (by decide),
    filter_fieldFiles_ne "vector4f_data" "bool_data" p.bool_data 'b' _ rfl (by decide)
      (by decide) (by decide),
    filter_fieldFiles_ne "vector4f_data" "f32_array_data" p.f32_array_data 'f' _ rfl (by decide)
      (by decide) (by decide),
    filter_fieldFiles_ne "vector4f_data" "f32_data" p.f32_data 'f' _ rfl (by decide)
      (by decide) (by decide),
    filter_fieldFiles_ne "vector4f_data" "revival_bool_data" p.revival_bool_data 'r' _ rfl (by decide)
      (by decide) (by decide),
    filter_fieldFiles_ne "vector4f_data" "revival_s32_data" p.revival_s32_data 'r' _ rfl (by decide)
      (by decide) (by decide),
    filter_fieldFiles_ne "vector4f_data" "s32_array_data" p.s32_array_data 's' _ rfl (by decide)
      (by decide) (by decide),
    filter_fieldFiles_ne "vector4f_data" "s32_data" p.s32_data 's' _ rfl (by decide)
      (by decide) (by decide),
    filter_fieldFiles_ne "vector4f_data" "string32_data" p.string32_data 's' _ rfl (by decide)
      (by decide) (by decide),
    filter_fieldFiles_ne "vector4f_data" "string64_array_data" p.string64_array_data 's' _ rfl (by decide)
      (by decide) (by decide),
    filter_fieldFiles_ne "vector4f_data" "string64_data" p.string64_data 's' _ rfl (by decide)
      (by decide) (by decide),
    filter_fieldFiles_ne "vector4f_data" "string256_array_data" p.string256_array_data 's' _ rfl (by decide)
      (by decide) (by decide),
    filter_fieldFiles_ne "vector4f_data" "string256_data" p.string256_data 's' _ rfl (by decide)
      (by decide) (by decide),
    filter_fieldFiles_ne "vector4f_data" "vector2f_array_data" p.vector2f_array_data 'v' _ rfl (by decide)
      (by decide) (by decide),
    filter_fieldFiles_ne "vector4f_data" "vector2f_data" p.vector2f_data 'v' _ rfl (by decide)
      (by decide) (by decide),
    filter_fieldFiles_ne "vector4f_data" "vector3f_array_data" p.vector3f_array_data 'v' _ rfl (by decide)
      (by decide) (by decide),
    filter_fieldFiles_ne "vector4f_data" "vector3f_data" p.vector3f_data 'v' _ rfl (by decide)
      (by decide) (by decide),
    filter_fieldFiles_self "vector4f_data" p.vector4f_data 'v' _ rfl (by decide)]
  simp

theorem trimRevivalChars_no (l : List Char)
    (h : ("revival_".data).isPrefixOf l = false) : trimRevivalChars l = l := by
  rw [trimRevivalChars]
  rw [dif_neg (by simp [h])]

theorem trimRevivalChars_yes (l : List Char)
    (h : ("revival_".data).isPrefixOf l = true) :
    trimRevivalChars l = trimRevivalChars (l.drop 8) := by
  conv_lhs => rw [trimRevivalChars]
  rw [dif_pos h]


theorem canonType_eval_bool_array_data : canonType "bool_array_data" = "bool_array_data" := by
  rw [canonType, if_neg (by decide), rustTrimRevival,
    trimRevivalChars_no _ (by decide)]

theorem canonType_eval_bool_data : canonType "bool_data" = "bool_data" := by
  rw [canonType, if_neg (by decide), rustTrimRevival,
    trimRevivalChars_no _ (by decide)]

theorem canonType_eval_f32_array_data : canonType "f32_array_data" = "f32_array_data" := by
  rw [canonType, if_neg (by decide), rustTrimRevival,
    trimRevivalChars_no _ (by decide)]

theorem canonType_eval_f32_data : canonType "f32_data" = "f32_data" := by
  rw [canonType, if_neg (by decide), rustTrimRevival,
    trimRevivalChars_no _ (by decide)]

theorem canonType_eval_revival_bool_data : canonType "revival_bool_data" = "bool_data" := by
  rw [canonType, if_neg (by decide), rustTrimRevival,
    trimRevivalChars_yes _ (by decide),
    show ("revival_bool_data".data.drop 8) = "bool_data".data from rfl,
    trimRevivalChars_no _ (by decide)]

theorem canonType_eval_revival_s32_data : canonType "revival_s32_data" = "s32_data" := by
  rw [canonType, if_neg (by decide), rustTrimRevival,
    trimRevivalChars_yes _ (by decide),
    show ("revival_s32_data".data.drop 8) = "s32_data".data from rfl,
    trimRevivalChars_no _ (by decide)]

theorem canonType_eval_s32_array_data : canonType "s32_array_data" = "s32_array_data" := by
  rw [canonType, if_neg (by decide), rustTrimRevival,
    trimRevivalChars_no _ (by decide)]

theorem canonType_eval_s32_data : canonType "s32_data" = "s32_data" := by
  rw [canonType, if_neg (by decide), rustTrimRevival,
    trimRevivalChars_no _ (by decide)]

theorem canonType_eval_string32_data : canonType "string32_data" = "string_data" := by
  rw [canonType, if_pos rfl]

theorem canonType_eval_string64_array_data : canonType "string64_array_data" = "string64_array_data" := by
  rw [canonType, if_neg (by decide), rustTrimRevival,
    trimRevivalChars_no _ (by decide)]

theorem canonType_eval_string64_data : canonType "string64_data" = "string64_data" := by
  rw [canonType, if_neg (by decide), rustTrimRevival,
    trimRevivalChars_no _ (by decide)]

theorem canonType_eval_string256_array_data : canonType "string256_array_data" = "string256_array_data" := by
  rw [canonType, if_neg (by decide), rustTrimRevival,
    trimRevivalChars_no _ (by decide)]

theorem canonType_eval_string256_data : canonType "string256_data" = "string256_data" := by
  rw [canonType, if_neg (by decide), rustTrimRevival,
    trimRevivalChars_no _ (by decide)]

theorem canonType_eval_vector2f_array_data : canonType "vector2f_array_data" = "vector2f_array_data" := by
  rw [canonType, if_neg (by decide), rustTrimRevival,
    trimRevivalChars_no _ (by decide)]

theorem canonType_eval_vector2f_data : canonType "vector2f_data" = "vector2f_data" := by
  rw [canonType, if_neg (by decide), rustTrimRevival,
    trimRevivalChars_no _ (by decide)]

theorem canonType_eval_vector3f_array_data : canonType "vector3f_array_data" = "vector3f_array_data" := by
  rw [canonType, if_neg (by decide), rustTrimRevival,
    trimRevivalChars_no _ (by decide)]

theorem canonType_eval_vector3f_data : canonType "vector3f_data" = "vector3f_data" := by
  rw [canonType, if_neg (by decide), rustTrimRevival,
    trimRevivalChars_no _ (by decide)]

theorem canonType_eval_vector4f_data : canonType "vector4f_data" = "vector4f_data" := by
  rw [canonType, if_neg (by decide), rustTrimRevival,
    trimRevivalChars_no _ (by decide)]

/-- A pack whose every slot is empty but carries a non-canonical
(empty) data type string. -/
def c7CexPack : GameDataPack :=
  { bool_array_data := { data_type := "", flags := [] }
    bool_data := { data_type := "", flags := [] }
    f32_array_data := { data_type := "", flags := [] }
    f32_data := { data_type := "", flags := [] }
    revival_bool_data := { data_type := "", flags := [] }
    revival_s32_data := { data_type := "", flags := [] }
    s32_array_data := { data_type := "", flags := [] }
    s32_data := { data_type := "", flags := [] }
    string32_data := { data_type := "", flags := [] }
    string64_array_data := { data_type := "", flags := [] }
    string64_data := { data_type := "", flags := [] }
    string256_array_data := { data_type := "", flags := [] }
    string256_data := { data_type := "", flags := [] }
    vector2f_array_data := { data_type := "", flags := [] }
    vector2f_data := { data_type := "", flags := [] }
    vector3f_array_data := { data_type := "", flags := [] }
    vector3f_data := { data_type := "", flags := [] }
    vector4f_data := { data_type := "", flags := [] } }

/-- The empty pack `from_sarc_writer` actually rebuilds: every slot gets
the canonical data type, not the one it was constructed with. -/
def c7CanonPack : GameDataPack :=
  { bool_array_data := { data_type := "bool_array_data", flags := [] }
    bool_data := { data_type := "bool_data", flags := [] }
    f32_array_data := { data_type := "f32_array_data", flags := [] }
    f32_data := { data_type := "f32_data", flags := [] }
    revival_bool_data := { data_type := "bool_data", flags := [] }
    revival_s32_data := { data_type := "s32_data", flags := [] }
    s32_array_data := { data_type := "s32_array_data", flags := [] }
    s32_data := { data_type := "s32_data", flags := [] }
    string32_data := { data_type := "string_data", flags := [] }
    string64_array_data := { data_type := "string64_array_data", flags := [] }
    string64_data := { data_type := "string64_data", flags := [] }
    string256_array_data := { data_type := "string256_array_data", flags := [] }
    string256_data := { data_type := "string256_data", flags := [] }
    vector2f_array_data := { data_type := "vector2f_array_data", flags := [] }
    vector2f_data := { data_type := "vector2f_data", flags := [] }
    vector3f_array_data := { data_type := "vector3f_array_data", flags := [] }
    vector3f_data := { data_type := "vector3f_data", flags := [] }
    vector4f_data := { data_type := "vector4f_data", flags := [] } }

theorem c7_extract_empty (key : String) :
    gdpExtractField { endian := Endian.big, files := [] } key
      = Except.ok (PanicOr.ok { data_type := canonType key, flags := [] }) := rfl

/-- C7 fails as stated: `from_sarc_writer ∘ into_sarc_writer` is not the
identity on every pack — it canonicalizes each slot's `data_type`, so a
pack built with non-canonical type strings does not round-trip. -/
theorem c7_counterexample :
    gdpFromSarcWriter (gdpIntoSarcWriter c7CexPack Endian.big)
        = Except.ok (PanicOr.ok c7CanonPack)
      ∧ c7CanonPack ≠ c7CexPack := by
  constructor
  · show gdpFromSarcWriter { endian := Endian.big, files := [] } = _
    rw [gdpFromSarcWriter]
    simp only [c7_extract_empty, exBind_ok]
    show Except.ok (PanicOr.ok _) = _
    rw [canonType_eval_bool_array_data, canonType_eval_bool_data,
      canonType_eval_f32_array_data, canonType_eval_f32_data,
      canonType_eval_revival_bool_data, canonType_eval_revival_s32_data,
      canonType_eval_s32_array_data, canonType_eval_s32_data,
      canonType_eval_string32_data, canonType_eval_string64_array_data,
      canonType_eval_string64_data, canonType_eval_string256_array_data,
      canonType_eval_string256_data, canonType_eval_vector2f_array_data,
      canonType_eval_vector2f_data, canonType_eval_vector3f_array_data,
      canonType_eval_vector3f_data, canonType_eval_vector4f_data]
    rfl
  · decide

/-- C7 amended: `from_sarc_writer ∘ into_sarc_writer` is the identity on
every pack whose slots are wellformed — canonical `data_type` strings,
sorted flag maps whose entries are live hashes keyed by their own
`HashValue` (mod `2^32`), and at most `2^24` flags per slot (so the
`f32` shard count is exact).  This covers every flag count `N ≤ 2^24`,
in particular the boundary cases `N = 0`, `N = 4096` and `N = 4097`. -/
theorem c7_amended (p : GameDataPack) (e : Endian)
    (h1 : gdSlotWF "bool_array_data" p.bool_array_data)
    (h2 : gdSlotWF "bool_data" p.bool_data)
    (h3 : gdSlotWF "f32_array_data" p.f32_array_data)
    (h4 : gdSlotWF "f32_data" p.f32_data)
    (h5 : gdSlotWF "revival_bool_data" p.revival_bool_data)
    (h6 : gdSlotWF "revival_s32_data" p.revival_s32_data)
    (h7 : gdSlotWF "s32_array_data" p.s32_array_data)
    (h8 : gdSlotWF "s32_data" p.s32_data)
    (h9 : gdSlotWF "string32_data" p.string32_data)
    (h10 : gdSlotWF "string64_array_data" p.string64_array_data)
    (h11 : gdSlotWF "string64_data" p.string64_data)
    (h12 : gdSlotWF "string256_array_data" p.string256_array_data)
    (h13 : gdSlotWF "string256_data" p.string256_data)
    (h14 : gdSlotWF "vector2f_array_data" p.vector2f_array_data)
    (h15 : gdSlotWF "vector2f_data" p.vector2f_data)
    (h16 : gdSlotWF "vector3f_array_data" p.vector3f_array_data)
    (h17 : gdSlotWF "vector3f_data" p.vector3f_data)
    (h18 : gdSlotWF "vector4f_data" p.vector4f_data) :
    gdpFromSarcWriter (gdpIntoSarcWriter p e) = Except.ok (PanicOr.ok p) := by
  have ex1 := extractField_of_filter _ "bool_array_data" p.bool_array_data
    (filterInto_bool_array_data p e) h1.1 h1.2.1 h1.2.2.1 h1.2.2.2
  have ex2 := extractField_of_filter _ "bool_data" p.bool_data
    (filterInto_bool_data p e) h2.1 h2.2.1 h2.2.2.1 h2.2.2.2
  have ex3 := extractField_of_filter _ "f32_array_data" p.f32_array_data
    (filterInto_f32_array_data p e) h3.1 h3.2.1 h3.2.2.1 h3.2.2.2
  have ex4 := extractField_of_filter _ "f32_data" p.f32_data
    (filterInto_f32_data p e) h4.1 h4.2.1 h4.2.2.1 h4.2.2.2
  have ex5 := extractField_of_filter _ "revival_bool_data" p.revival_bool_data
    (filterInto_revival_bool_data p e) h5.1 h5.2.1 h5.2.2.1 h5.2.2.2
  have ex6 := extractField_of_filter _ "revival_s32_data" p.revival_s32_data
    (filterInto_revival_s32_data p e) h6.1 h6.2.1 h6.2.2.1 h6.2.2.2
  have ex7 := extractField_of_filter _ "s32_array_data" p.s32_array_data
    (filterInto_s32_array_data p e) h7.1 h7.2.1 h7.2.2.1 h7.2.2.2
  have ex8 := extractField_of_filter _ "s32_data" p.s32_data
    (filterInto_s32_data p e) h8.1 h8.2.1 h8.2.2.1 h8.2.2.2
  have ex9 := extractField_of_filter _ "string32_data" p.string32_data
    (filterInto_string32_data p e) h9.1 h9.2.1 h9.2.2.1 h9.2.2.2
  have ex10 := extractField_of_filter _ "string64_array_data" p.string64_array_data
    (filterInto_string64_array_data p e) h10.1 h10.2.1 h10.2.2.1 h10.2.2.2
  have ex11 := extractField_of_filter _ "string64_data" p.string64_data
    (filterInto_string64_data p e) h11.1 h11.2.1 h11.2.2.1 h11.2.2.2
  have ex12 := extractField_of_filter _ "string256_array_data" p.string256_array_data
    (filterInto_string256_array_data p e) h12.1 h12.2.1 h12.2.2.1 h12.2.2.2
  have ex13 := extractField_of_filter _ "string256_data" p.string256_data
    (filterInto_string256_data p e) h13.1 h13.2.1 h13.2.2.1 h13.2.2.2
  have ex14 := extractField_of_filter _ "vector2f_array_data" p.vector2f_array_data
    (filterInto_vector2f_array_data p e) h14.1 h14.2.1 h14.2.2.1 h14.2.2.2
  have ex15 := extractField_of_filter _ "vector2f_data" p.vector2f_data
    (filterInto_vector2f_data p e) h15.1 h15.2.1 h15.2.2.1 h15.2.2.2
  have ex16 := extractField_of_filter _ "vector3f_array_data" p.vector3f_array_data
    (filterInto_vector3f_array_data p e) h16.1 h16.2.1 h16.2.2.1 h16.2.2.2
  have ex17 := extractField_of_filter _ "vector3f_data" p.vector3f_data
    (filterInto_vector3f_data p e) h17.1 h17.2.1 h17.2.2.1 h17.2.2.2
  have ex18 := extractField_of_filter _ "vector4f_data" p.vector4f_data
    (filterInto_vector4f_data p e) h18.1 h18.2.1 h18.2.2.1 h18.2.2.2
  rw [gdpFromSarcWriter]
  simp only [ex1, ex2, ex3, ex4, ex5, ex6, ex7, ex8, ex9, ex10, ex11, ex12, ex13, ex14, ex15, ex16, ex17, ex18, exBind_ok]
  rfl

/-- A small wellformed pack: two live `bool_data` flags and one
`s32_data` flag, all keyed by their own `HashValue`. -/
def c7WfPack : GameDataPack :=
  {
    bool_array_data := { data_type := "bool_array_data", flags := [] }
    bool_data := { data_type := "bool_data", flags := [(3, DE.val (Byml.hash [("DeleteRev", Byml.int 0), ("HashValue", Byml.int 3)])), (7, DE.val (Byml.hash [("HashValue", Byml.int 7)]))] }
    f32_array_data := { data_type := "f32_array_data", flags := [] }
    f32_data := { data_type := "f32_data", flags := [] }
    revival_bool_data := { data_type := "bool_data", flags := [] }
    revival_s32_data := { data_type := "s32_data", flags := [] }
    s32_array_data := { data_type := "s32_array_data", flags := [] }
    s32_data := { data_type := "s32_data", flags := [(11, DE.val (Byml.hash [("HashValue", Byml.int 11)]))] }
    string32_data := { data_type := "string_data", flags := [] }
    string64_array_data := { data_type := "string64_array_data", flags := [] }
    string64_data := { data_type := "string64_data", flags := [] }
    string256_array_data := { data_type := "string256_array_data", flags := [] }
    string256_data := { data_type := "string256_data", flags := [] }
    vector2f_array_data := { data_type := "vector2f_array_data", flags := [] }
    vector2f_data := { data_type := "vector2f_data", flags := [] }
    vector3f_array_data := { data_type := "vector3f_array_data", flags := [] }
    vector3f_data := { data_type := "vector3f_data", flags := [] }
    vector4f_data := { data_type := "vector4f_data", flags := [] } }

/-- Witness for the amended C7 round trip at a concrete wellformed pack. -/
theorem c7_amended_witness :
    gdpFromSarcWriter (gdpIntoSarcWriter c7WfPack Endian.big)
      = Except.ok (PanicOr.ok c7WfPack) :=
  c7_amended c7WfPack Endian.big
    ⟨(canonType_eval_bool_array_data).symm, by unfold SdmSorted; decide, by decide, by decide⟩
    ⟨(canonType_eval_bool_data).symm, by unfold SdmSorted; decide, by decide, by decide⟩
    ⟨(canonType_eval_f32_array_data).symm, by unfold SdmSorted; decide, by decide, by decide⟩
    ⟨(canonType_eval_f32_data).symm, by unfold SdmSorted; decide, by decide, by decide⟩
    ⟨(canonType_eval_revival_bool_data).symm, by unfold SdmSorted; decide, by decide, by decide⟩
    ⟨(canonType_eval_revival_s32_data).symm, by unfold SdmSorted; decide, by decide, by decide⟩
    ⟨(canonType_eval_s32_array_data).symm, by unfold SdmSorted; decide, by decide, by decide⟩
    ⟨(canonType_eval_s32_data).symm, by unfold SdmSorted; decide, by decide, by decide⟩
    ⟨(canonType_eval_string32_data).symm, by unfold SdmSorted; decide, by decide, by decide⟩
    ⟨(canonType_eval_string64_array_data).symm, by unfold SdmSorted; decide, by decide, by decide⟩
    ⟨(canonType_eval_string64_data).symm, by unfold SdmSorted; decide, by decide, by decide⟩
    ⟨(canonType_eval_string256_array_data).symm, by unfold SdmSorted; decide, by decide, by decide⟩
    ⟨(canonType_eval_string256_data).symm, by unfold SdmSorted; decide, by decide, by decide⟩
    ⟨(canonType_eval_vector2f_array_data).symm, by unfold SdmSorted; decide, by decide, by decide⟩
    ⟨(canonType_eval_vector2f_data).symm, by unfold SdmSorted; decide, by decide, by decide⟩
    ⟨(canonType_eval_vector3f_array_data).symm, by unfold SdmSorted; decide, by decide, by decide⟩
    ⟨(canonType_eval_vector3f_data).symm, by unfold SdmSorted; decide, by decide, by decide⟩
    ⟨(canonType_eval_vector4f_data).symm, by unfold SdmSorted; decide, by decide, by decide⟩
